import Mathlib

/-!
# Spawn server (`src/spawn/Server.cxx`) and log datagrams (`src/net/log/Send.cxx`):
embedding and verified properties

The development follows the C++ source function by function.

* Bytes are natural numbers, a C string is the list of its bytes without the
  terminating NUL, and a payload is the list of bytes not yet consumed.
* A C++ exception is a value of `SpawnError`; a function that may throw
  returns `Except SpawnError _`.
* The daemon state (`SpawnServerProcess`) is passed explicitly.  Calls that
  leave the translation unit (socket transmission, `ppoll`, the process
  spawner, signals sent through the child registry) are appended to
  `SpawnServerProcess.trace`, so that "how often was X called" is a statement
  about that list.
* Declarations which the translation unit includes but which are not part of
  the available sources (wire tags, array capacities, `UidGid::IsEmpty`) are
  collected in the structure `Abi` and are parameters of the model.
-/

set_option autoImplicit false

namespace Spawn

/-! ## Exceptions -/

/-- Exceptions as `ReadEventCallback` tells them apart:
`MalformedSpawnPayloadError`, which it catches separately, and anything else,
which only its `catch (...)` intercepts. -/
inductive SpawnError where
  | MalformedSpawnPayloadError
  | other
  deriving DecidableEq, Repr

/-- A C string: its bytes, without the terminating NUL. -/
abbrev CString := List Nat

/-! ## Wire commands -/

/-- Cases of the `switch` in `HandleMessage`. -/
inductive SpawnRequestCommand where
  | CONNECT | EXEC | KILL
  deriving DecidableEq, Repr

/-- Cases of the `switch` in `HandleExecMessage`, in source order. -/
inductive SpawnExecCommand where
  | ARG | SETENV | UMASK | STDIN | STDOUT | STDERR | STDERR_PATH | CONTROL
  | TTY | REFENCE | USER_NS | PID_NS | NETWORK_NS | NETWORK_NS_NAME | IPC_NS
  | MOUNT_NS | MOUNT_PROC | WRITABLE_PROC | PIVOT_ROOT | MOUNT_HOME
  | MOUNT_TMP_TMPFS | MOUNT_TMPFS | BIND_MOUNT | HOSTNAME | RLIMIT | UID_GID
  | SCHED_IDLE_ | IOPRIO_IDLE | FORBID_USER_NS | FORBID_MULTICAST | FORBID_BIND
  | NO_NEW_PRIVS | CGROUP | CGROUP_SET | PRIORITY | CHROOT | CHDIR | HOOK_INFO
  deriving DecidableEq, Repr

/-! ## Child specification -/

/-- The type `UidGid`: user id, group id and the fixed-size array of
supplementary groups (`groups.max_size()` entries). -/
structure UidGid where
  uid : Nat
  gid : Nat
  groups : List Nat
  deriving DecidableEq, Repr

/-- Declarations used by `Server.cxx` whose defining headers (`IProtocol.hxx`,
`UidGid.hxx`, `ResourceLimits.hxx`, `<sys/resource.h>`) are not available;
they are parameters of the model.

* `execCommand b` / `requestCommand b`: the `case` selected by the byte `b`
  after the cast to the enumeration (`none`: no `case` matches);
* `EXIT`: the byte of `SpawnResponseCommand::EXIT`;
* `groups_max_size`: `uid_gid.groups.max_size()`;
* `rlim_nlimits`: number of entries of `ResourceLimits::values`;
* `sizeof_rlimit`: `sizeof(struct rlimit)`;
* `IsEmpty`: `UidGid::IsEmpty()`. -/
structure Abi where
  execCommand : Nat → Option SpawnExecCommand
  requestCommand : Nat → Option SpawnRequestCommand
  EXIT : Nat
  groups_max_size : Nat
  rlim_nlimits : Nat
  sizeof_rlimit : Nat
  IsEmpty : UidGid → Bool

/-- One element of the `MountList` chain, with the constructor arguments of
`mounts.emplace_front(source, target, false, writable, exec)`. -/
structure MountList where
  source : CString
  target : CString
  expand_source : Bool
  writable : Bool
  exec : Bool
  deriving DecidableEq, Repr

/-- The members reached as `p.ns.mount.*`; `mounts` is the chain starting at
the head pointer, listed from the head. -/
structure MountNamespaceOptions where
  enable_mount : Bool := false
  mount_proc : Bool := false
  writable_proc : Bool := false
  pivot_root : Option CString := none
  mount_home : Option CString := none
  home : Option CString := none
  mount_tmp_tmpfs : Option CString := none
  mount_tmpfs : Option CString := none
  mounts : List MountList := []
  deriving DecidableEq, Repr

/-- The members reached as `p.ns.*`. -/
structure NamespaceOptions where
  enable_user : Bool := false
  enable_pid : Bool := false
  enable_network : Bool := false
  enable_ipc : Bool := false
  network_namespace : Option CString := none
  hostname : Option CString := none
  mount : MountNamespaceOptions := {}
  deriving DecidableEq, Repr

/-- The members reached as `p.cgroup.*`; `set_head` is the chain of
`CgroupOptions::SetItem` (name, value) starting at the head pointer. -/
structure CgroupOptions where
  name : Option CString := none
  set_head : List (CString × CString) := []
  deriving DecidableEq, Repr

/-- The table `ResourceLimits::values`.  An entry is `none` while untouched and
holds the raw bytes of the `struct rlimit` once `ReadT` has filled it.
`overrun` lists the stores made through `values[i]` with `i` outside the
array (the index is not checked by the source), as (index, bytes). -/
structure ResourceLimits where
  values : List (Option (List Nat))
  overrun : List (Nat × List Nat) := []
  deriving DecidableEq, Repr

/-- The members of `PreparedChildProcess` written by `Server.cxx`.  A pointer or
descriptor member is `none` until assigned. -/
structure PreparedChildProcess where
  args : List CString := []
  env : List CString := []
  umask : Option Nat := none
  stdin_fd : Option Nat := none
  stdout_fd : Option Nat := none
  stderr_fd : Option Nat := none
  control_fd : Option Nat := none
  stderr_path : Option CString := none
  tty : Bool := false
  refence : Option CString := none
  ns : NamespaceOptions := {}
  rlimits : ResourceLimits
  uid_gid : UidGid
  sched_idle : Bool := false
  ioprio_idle : Bool := false
  forbid_user_ns : Bool := false
  forbid_multicast : Bool := false
  forbid_bind : Bool := false
  no_new_privs : Bool := false
  cgroup : CgroupOptions := {}
  priority : Option Int := none
  chroot : Option CString := none
  chdir : Option CString := none
  hook_info : Option CString := none
  deriving DecidableEq, Repr

/-- The default-constructed `PreparedChildProcess p;` of `HandleExecMessage`. -/
def PreparedChildProcess.init (abi : Abi) : PreparedChildProcess :=
  { rlimits := { values := List.replicate abi.rlim_nlimits none },
    uid_gid := { uid := 0, gid := 0, groups := List.replicate abi.groups_max_size 0 } }

/-! ## Payload reader -/

/-- Modelled from the spec: `SpawnPayload` (declared in the missing
`spawn/Parser.hxx`) is "an immutable, position-tracked byte view with typed
extraction operations (single byte, 32-bit integer, null-terminated string,
fixed-size struct); every extraction past the end [...] fails with a
MalformedPayload condition".  The view is represented by the bytes that
remain to be read. -/
abbrev SpawnPayload := List Nat

/-- A computation that advances a `SpawnPayload &` and may throw: it maps the
bytes still unread to an exception or to a result and the bytes left. -/
abbrev Reader (α : Type) := StateT SpawnPayload (Except SpawnError) α

/-- The statement `throw e;`. -/
def Reader.fail {α : Type} (e : SpawnError) : Reader α :=
  fun _ => .error e

/-- Value of a little-endian byte sequence. -/
def leValue : List Nat → Nat
  | [] => 0
  | b :: rest => b % 256 + 256 * leValue rest

/-- Two's-complement reading of a 32-bit pattern as `int`. -/
def toInt32 (n : Nat) : Int :=
  if n % 2 ^ 32 < 2 ^ 31 then (n % 2 ^ 32 : Nat) else (n % 2 ^ 32 : Nat) - 2 ^ 32

/-- The four bytes of an `int` in memory order (little endian). -/
def int32Bytes (i : Int) : List Nat :=
  let n := (i % 2 ^ 32).toNat
  [n % 256, n / 256 % 256, n / 65536 % 256, n / 16777216 % 256]

/-- Modelled from the spec: `SpawnPayload::IsEmpty`. -/
def SpawnPayload.IsEmpty (payload : SpawnPayload) : Bool :=
  payload.isEmpty

/-- Modelled from the spec: `SpawnPayload::ReadByte`, extraction of a single
byte; past the end it fails with MalformedPayload. -/
def SpawnPayload.ReadByte : Reader Nat
  | [] => .error .MalformedSpawnPayloadError
  | b :: rest => .ok (b, rest)

/-- Modelled from the spec: `SpawnPayload::ReadT`, extraction of a fixed-size
object of `size` bytes (its raw bytes are returned); past the end it fails
with MalformedPayload. -/
def SpawnPayload.ReadT (size : Nat) : Reader (List Nat) :=
  fun payload =>
    if payload.length < size then .error .MalformedSpawnPayloadError
    else .ok (payload.take size, payload.drop size)

/-- Modelled from the spec: `SpawnPayload::ReadInt`, extraction of a 32-bit
integer. -/
def SpawnPayload.ReadInt : Reader Int := do
  let bytes ← SpawnPayload.ReadT 4
  pure (toInt32 (leValue bytes))

/-- Modelled from the spec: `SpawnPayload::ReadString`, extraction of a
null-terminated string; without a terminator before the end it fails with
MalformedPayload. -/
def SpawnPayload.ReadString : Reader CString
  | [] => .error .MalformedSpawnPayloadError
  | b :: rest =>
    if b = 0 then .ok ([], rest)
    else
      match SpawnPayload.ReadString rest with
      | .error e => .error e
      | .ok (s, rest') => .ok (b :: s, rest')

/-! ## `SpawnFdList` -/

/-- The class `SpawnFdList`: the descriptors received with a message, front
first. -/
abbrev SpawnFdList := List Nat

/-- The method `SpawnFdList::Get`: throws when the list is empty, else pops
the front. -/
def SpawnFdList.Get : SpawnFdList → Except SpawnError (Nat × SpawnFdList)
  | [] => .error .MalformedSpawnPayloadError
  | fd :: rest => .ok (fd, rest)

/-! ## Decoding of EXEC messages -/

/-- The store `rlimits.values[i] = data` performed by `payload.ReadT(data)`
through the unchecked reference `rlimits.values[i]`; a store through an index
outside the array is recorded in `overrun`. -/
def ResourceLimits.store (rlimits : ResourceLimits) (i : Nat) (data : List Nat) :
    ResourceLimits :=
  if i < rlimits.values.length then
    { rlimits with values := rlimits.values.set i (some data) }
  else
    { rlimits with overrun := rlimits.overrun ++ [(i, data)] }

/-- The overload `Read(SpawnPayload &, ResourceLimits &)`: the index byte selects
`rlimits.values[i]` without a range check and `ReadT` copies
`sizeof(struct rlimit)` bytes into the selected object. -/
def ResourceLimits.Read (abi : Abi) (rlimits : ResourceLimits) : Reader ResourceLimits := do
  let i ← SpawnPayload.ReadByte
  let data ← SpawnPayload.ReadT abi.sizeof_rlimit
  pure (rlimits.store i data)

/-- The loop `for (size_t i = 0; i < n_groups; ++i) payload.ReadT(uid_gid.groups[i]);`
of `Read(SpawnPayload &, UidGid &)`, at index `i` with `n` rounds left. -/
def UidGid.ReadGroups : Nat → Nat → List Nat → Reader (List Nat)
  | 0, _, groups => pure groups
  | n + 1, i, groups => do
    let bytes ← SpawnPayload.ReadT 4
    UidGid.ReadGroups n (i + 1) (groups.set i (leValue bytes))

/-- The overload `Read(SpawnPayload &, UidGid &)`. -/
def UidGid.Read (abi : Abi) (uid_gid : UidGid) : Reader UidGid := do
  let uid ← SpawnPayload.ReadT 4
  let gid ← SpawnPayload.ReadT 4
  let n_groups ← SpawnPayload.ReadByte
  if n_groups > abi.groups_max_size then Reader.fail .MalformedSpawnPayloadError
  else do
    let groups ← UidGid.ReadGroups n_groups 0 uid_gid.groups
    pure { uid := leValue uid, gid := leValue gid,
           groups := if n_groups < abi.groups_max_size then groups.set n_groups 0 else groups }

/-- Locals of `HandleExecMessage` carried around its `while` loop: the child
specification `p` and the descriptor list `fds`.  `fd_calls` records, in
call order, every `p.SetStdin/SetStdout/SetStderr/SetControl(fds.Get().Steal())`
as the sub-command that made the call and the descriptor it passed. -/
structure ExecLocals where
  p : PreparedChildProcess
  fds : SpawnFdList
  fd_calls : List (SpawnExecCommand × Nat) := []
  deriving DecidableEq, Repr

/-- Takes the next descriptor with `fds.Get()` and hands it to the setter
`set` of the child specification on behalf of sub-command `cmd`. -/
def takeFd (cmd : SpawnExecCommand) (st : ExecLocals)
    (set : PreparedChildProcess → Nat → PreparedChildProcess) : Reader ExecLocals :=
  match SpawnFdList.Get st.fds with
  | .error e => Reader.fail e
  | .ok (fd, fds) => pure { p := set st.p fd, fds := fds, fd_calls := st.fd_calls ++ [(cmd, fd)] }

/-- The body of one `case` of the `switch (cmd)` in `HandleExecMessage`. -/
def execCase (abi : Abi) (cmd : SpawnExecCommand) (st : ExecLocals) : Reader ExecLocals :=
  let p := st.p
  match cmd with
  | .ARG =>
    if p.args.length ≥ 16384 then Reader.fail .MalformedSpawnPayloadError
    else do
      let s ← SpawnPayload.ReadString
      pure { st with p := { p with args := p.args ++ [s] } }
  | .SETENV =>
    if p.env.length ≥ 16384 then Reader.fail .MalformedSpawnPayloadError
    else do
      let s ← SpawnPayload.ReadString
      pure { st with p := { p with env := p.env ++ [s] } }
  | .UMASK => do
    let value ← SpawnPayload.ReadT 2
    pure { st with p := { p with umask := some (leValue value) } }
  | .STDIN => takeFd .STDIN st (fun p fd => { p with stdin_fd := some fd })
  | .STDOUT => takeFd .STDOUT st (fun p fd => { p with stdout_fd := some fd })
  | .STDERR => takeFd .STDERR st (fun p fd => { p with stderr_fd := some fd })
  | .STDERR_PATH => do
    let s ← SpawnPayload.ReadString
    pure { st with p := { p with stderr_path := some s } }
  | .CONTROL => takeFd .CONTROL st (fun p fd => { p with control_fd := some fd })
  | .TTY => pure { st with p := { p with tty := true } }
  | .REFENCE => do
    let s ← SpawnPayload.ReadString
    pure { st with p := { p with refence := some s } }
  | .USER_NS => pure { st with p := { p with ns := { p.ns with enable_user := true } } }
  | .PID_NS => pure { st with p := { p with ns := { p.ns with enable_pid := true } } }
  | .NETWORK_NS => pure { st with p := { p with ns := { p.ns with enable_network := true } } }
  | .NETWORK_NS_NAME => do
    let s ← SpawnPayload.ReadString
    pure { st with p := { p with ns := { p.ns with network_namespace := some s } } }
  | .IPC_NS => pure { st with p := { p with ns := { p.ns with enable_ipc := true } } }
  | .MOUNT_NS =>
    pure { st with p := { p with ns := { p.ns with mount := { p.ns.mount with enable_mount := true } } } }
  | .MOUNT_PROC =>
    pure { st with p := { p with ns := { p.ns with mount := { p.ns.mount with mount_proc := true } } } }
  | .WRITABLE_PROC =>
    pure { st with p := { p with ns := { p.ns with mount := { p.ns.mount with writable_proc := true } } } }
  | .PIVOT_ROOT => do
    let s ← SpawnPayload.ReadString
    pure { st with p := { p with ns := { p.ns with mount := { p.ns.mount with pivot_root := some s } } } }
  | .MOUNT_HOME => do
    let mount_home ← SpawnPayload.ReadString
    let home ← SpawnPayload.ReadString
    pure { st with p := { p with ns := { p.ns with mount :=
      { p.ns.mount with mount_home := some mount_home, home := some home } } } }
  | .MOUNT_TMP_TMPFS => do
    let s ← SpawnPayload.ReadString
    pure { st with p := { p with ns := { p.ns with mount :=
      { p.ns.mount with mount_tmp_tmpfs := some s } } } }
  | .MOUNT_TMPFS => do
    let s ← SpawnPayload.ReadString
    pure { st with p := { p with ns := { p.ns with mount := { p.ns.mount with mount_tmpfs := some s } } } }
  | .BIND_MOUNT => do
    let source ← SpawnPayload.ReadString
    let target ← SpawnPayload.ReadString
    let writable ← SpawnPayload.ReadByte
    let exec ← SpawnPayload.ReadByte
    pure { st with p := { p with ns := { p.ns with mount := { p.ns.mount with
      mounts := p.ns.mount.mounts ++
        [{ source := source, target := target, expand_source := false,
           writable := writable != 0, exec := exec != 0 }] } } } }
  | .HOSTNAME => do
    let s ← SpawnPayload.ReadString
    pure { st with p := { p with ns := { p.ns with hostname := some s } } }
  | .RLIMIT => do
    let rlimits ← ResourceLimits.Read abi p.rlimits
    pure { st with p := { p with rlimits := rlimits } }
  | .UID_GID => do
    let uid_gid ← UidGid.Read abi p.uid_gid
    pure { st with p := { p with uid_gid := uid_gid } }
  | .SCHED_IDLE_ => pure { st with p := { p with sched_idle := true } }
  | .IOPRIO_IDLE => pure { st with p := { p with ioprio_idle := true } }
  | .FORBID_USER_NS => pure { st with p := { p with forbid_user_ns := true } }
  | .FORBID_MULTICAST => pure { st with p := { p with forbid_multicast := true } }
  | .FORBID_BIND => pure { st with p := { p with forbid_bind := true } }
  | .NO_NEW_PRIVS => pure { st with p := { p with no_new_privs := true } }
  | .CGROUP => do
    let s ← SpawnPayload.ReadString
    pure { st with p := { p with cgroup := { p.cgroup with name := some s } } }
  | .CGROUP_SET => do
    let set_name ← SpawnPayload.ReadString
    let set_value ← SpawnPayload.ReadString
    pure { st with p := { p with cgroup :=
      { p.cgroup with set_head := (set_name, set_value) :: p.cgroup.set_head } } }
  | .PRIORITY => do
    let value ← SpawnPayload.ReadInt
    pure { st with p := { p with priority := some value } }
  | .CHROOT => do
    let s ← SpawnPayload.ReadString
    pure { st with p := { p with chroot := some s } }
  | .CHDIR => do
    let s ← SpawnPayload.ReadString
    pure { st with p := { p with chdir := some s } }
  | .HOOK_INFO => do
    let s ← SpawnPayload.ReadString
    pure { st with p := { p with hook_info := some s } }

/-- The `switch (cmd)` of `HandleExecMessage` applied to the tag byte `cmd`: a
byte that matches no `case` leaves everything as it is. -/
def execCommand (abi : Abi) (cmd : Nat) (st : ExecLocals) : Reader ExecLocals :=
  match abi.execCommand cmd with
  | none => pure st
  | some c => execCase abi c st

/-- The loop `while (!payload.IsEmpty()) { cmd = payload.ReadByte(); switch ... }`
of `HandleExecMessage`.  `fuel` bounds the number of rounds; every round
consumes the tag byte, so `payload.length` rounds always suffice.  With the
fuel used up on a non-empty payload the result is `none`. -/
def execLoop (abi : Abi) : Nat → SpawnPayload → ExecLocals → Option (Except SpawnError ExecLocals)
  | _, [], st => some (.ok st)
  | 0, _ :: _, _ => none
  | fuel + 1, cmd :: payload, st =>
    match execCommand abi cmd st payload with
    | .error e => some (.error e)
    | .ok (st, payload) => execLoop abi fuel payload st

/-- The loop of `HandleExecMessage` with the fuel that always suffices. -/
def execRun (abi : Abi) (payload : SpawnPayload) (st : ExecLocals) :
    Option (Except SpawnError ExecLocals) :=
  execLoop abi payload.length payload st

/-- What `HandleExecMessage` has computed when it reaches
`SpawnChild(id, name, std::move(p))`. -/
structure ExecRequest where
  id : Int
  name : CString
  locals : ExecLocals
  deriving DecidableEq, Repr

/-- The head of an EXEC message: `payload.ReadInt(id); name = payload.ReadString();`. -/
def execHead : Reader (Int × CString) := do
  let id ← SpawnPayload.ReadInt
  let name ← SpawnPayload.ReadString
  pure (id, name)

/-- The decoding part of `HandleExecMessage`: everything before the call of
`SpawnChild`. -/
def decodeExec (abi : Abi) (payload : SpawnPayload) (fds : SpawnFdList) :
    Option (Except SpawnError ExecRequest) :=
  match execHead payload with
  | .error e => some (.error e)
  | .ok ((id, name), payload) =>
    match execRun abi payload { p := PreparedChildProcess.init abi, fds := fds } with
    | none => none
    | some (.error e) => some (.error e)
    | some (.ok st) => some (.ok { id := id, name := name, locals := st })

/-! ## Children, connections, registry -/

/-- The class `SpawnServerChild`.  The reference `connection` is represented by
the socket descriptor owned by that connection. -/
structure SpawnServerChild where
  connection : Nat
  id : Int
  pid : Int
  name : CString
  deriving DecidableEq, Repr

/-- The type `ChildIdMap`, a `boost::intrusive::set` ordered by
`SpawnServerChild::CompareId`, listed in iteration order. -/
abbrev ChildIdMap := List SpawnServerChild

/-- The call `children.insert(*child)`: unique insertion under `CompareId`
(`a.id < b.id`).  A record whose id is equivalent to one already present is
not inserted. -/
def ChildIdMap.insert : ChildIdMap → SpawnServerChild → ChildIdMap
  | [], c => [c]
  | x :: xs, c =>
    if c.id < x.id then c :: x :: xs
    else if x.id < c.id then x :: ChildIdMap.insert xs c
    else x :: xs

/-- The call `children.find(id, SpawnServerChild::CompareId())`. -/
def ChildIdMap.find (m : ChildIdMap) (id : Int) : Option SpawnServerChild :=
  List.find? (fun c => !(decide (c.id < id)) && !(decide (id < c.id))) m

/-- The class `SpawnServerConnection`: its socket and its child set. -/
structure SpawnServerConnection where
  socket : Nat
  children : ChildIdMap := []
  deriving DecidableEq, Repr

/-- One entry of the child registry: the arguments of
`ChildProcessRegistry::Add(pid, name, listener)`. -/
structure RegisteredChild where
  pid : Int
  name : CString
  listener : SpawnServerChild
  deriving DecidableEq, Repr

/-- Modelled from the spec: the Child Registry (`Registry.hxx` is missing),
"process-wide table mapping an OS process id to an exit-notification
target", with its "volatile" mode and the signals it has sent as
(pid, signal number). -/
structure ChildProcessRegistry where
  children : List RegisteredChild := []
  is_volatile : Bool := false
  signals : List (Int × Int) := []
  deriving DecidableEq, Repr

/-- Modelled from the spec: "`Add(pid, name, target)` registers exactly one
target per pid". -/
def ChildProcessRegistry.Add (r : ChildProcessRegistry) (pid : Int) (name : CString)
    (listener : SpawnServerChild) : ChildProcessRegistry :=
  { r with children := r.children ++ [{ pid := pid, name := name, listener := listener }] }

/-- Modelled from the spec: "`Kill(pid, signal)` sends a signal to a
still-registered pid (no-op, not an error, if already reaped)"; the record is
thereby "removed from the Child Registry". -/
def ChildProcessRegistry.Kill (r : ChildProcessRegistry) (pid signo : Int) :
    ChildProcessRegistry :=
  if r.children.any (fun e => e.pid = pid) then
    { r with children := r.children.filter (fun e => e.pid ≠ pid),
             signals := r.signals ++ [(pid, signo)] }
  else r

/-- Modelled from the spec: `SetVolatile`, "a volatile mode lets the registry
continue reaping without blocking server shutdown". -/
def ChildProcessRegistry.SetVolatile (r : ChildProcessRegistry) : ChildProcessRegistry :=
  { r with is_volatile := true }

/-! ## Calls leaving the translation unit -/

/-- Outcome of one `::Send<1>(socket, s)`: it returns, it throws
`std::system_error` with `EAGAIN`, or it throws something else. -/
inductive SendResult where
  | ok | EAGAIN | error
  deriving DecidableEq, Repr

/-- What the socket does during one `SendExit`: the outcome of the first
transmission, whether `ppoll` returns a positive value, and the outcome of
the second transmission. -/
structure Transport where
  first : SendResult
  ppoll : Bool
  retry : SendResult
  deriving DecidableEq, Repr

/-- A call made by the server, with its outcome where it has one. -/
inductive Effect where
  | Send (socket : Nat) (message : List Nat) (result : SendResult)
  | ppoll (socket : Nat) (ready : Bool)
  | SpawnChildProcess (p : PreparedChildProcess) (result : Option Int)
  | RegistryAdd (pid : Int) (name : CString) (listener : SpawnServerChild)
  | RegistryKill (pid : Int) (signo : Int)
  | SetVolatile
  deriving DecidableEq, Repr

/-- The macro `W_EXITCODE(ret, sig)` of `<sys/wait.h>`: `(ret) << 8 | (sig)`. -/
def W_EXITCODE (ret sig : Nat) : Int :=
  ((ret <<< 8 ||| sig : Nat) : Int)

/-- The constant `SIGTERM` of `<signal.h>`. -/
def SIGTERM : Int := 15

/-- Exceptions a verification callback may raise, as far as the handler in
`SpawnChild` (`catch (const std::exception &)`) tells them apart. -/
inductive Thrown where
  | std_exception | non_std
  deriving DecidableEq, Repr

/-- The members of `SpawnConfig` used by `SpawnChild` (`Config.hxx` is
missing): the default uid/gid and `Verify(uid_gid)`, which returns or throws. -/
structure SpawnConfig where
  default_uid_gid : UidGid
  Verify : UidGid → Except Thrown Unit

/-- The immutable members of `SpawnServerProcess`: `config` and `hook`
(`none` is the null pointer; `SpawnHook::Verify` returns a `bool` or
throws), together with the platform parameters. -/
structure Context where
  abi : Abi
  config : SpawnConfig
  hook : Option (PreparedChildProcess → Except Thrown Bool)

/-- The mutable part of `SpawnServerProcess`: the connection list, the child
registry, and the calls made so far. -/
structure SpawnServerProcess where
  connections : List SpawnServerConnection := []
  child_process_registry : ChildProcessRegistry := {}
  trace : List Effect := []
  deriving DecidableEq, Repr

/-- What the environment does during one handler invocation: the result of
`SpawnChildProcess` (`none`: it throws) and the behaviour of the socket. -/
structure Oracle where
  spawn : PreparedChildProcess → Option Int
  transport : Transport

/-- The method `SpawnServerProcess::Verify`: `hook != nullptr && hook->Verify(p)`. -/
def Context.Verify (ctx : Context) (p : PreparedChildProcess) : Except Thrown Bool :=
  match ctx.hook with
  | none => .ok false
  | some hook => hook p

/-- Appends a call to the trace. -/
def SpawnServerProcess.emit (s : SpawnServerProcess) (e : Effect) : SpawnServerProcess :=
  { s with trace := s.trace ++ [e] }

/-- The connection object whose socket is `self`. -/
def SpawnServerProcess.connection (s : SpawnServerProcess) (self : Nat) :
    Option SpawnServerConnection :=
  s.connections.find? (fun c => c.socket = self)

/-- Replaces the child set of connection `self`. -/
def SpawnServerProcess.setChildren (s : SpawnServerProcess) (self : Nat)
    (f : ChildIdMap → ChildIdMap) : SpawnServerProcess :=
  { s with connections :=
      s.connections.map (fun c => if c.socket = self then { c with children := f c.children } else c) }

/-- The call `child_process_registry.Kill(pid, signo)` made through
`SpawnServerChild::Kill`. -/
def SpawnServerProcess.Kill (s : SpawnServerProcess) (pid signo : Int) : SpawnServerProcess :=
  { s with child_process_registry := s.child_process_registry.Kill pid signo,
           trace := s.trace ++ [.RegistryKill pid signo] }

/-- The method `SpawnServerProcess::Quit`. -/
def SpawnServerProcess.Quit (s : SpawnServerProcess) : SpawnServerProcess :=
  { s with child_process_registry := s.child_process_registry.SetVolatile,
           trace := s.trace ++ [.SetVolatile] }

/-- The destructor `~SpawnServerConnection`: `children.clear_and_dispose`
kills every owned child with `SIGTERM` and deletes it. -/
def SpawnServerConnection.destroy (s : SpawnServerProcess) (c : SpawnServerConnection) :
    SpawnServerProcess :=
  c.children.foldl (fun s child => s.Kill child.pid SIGTERM) s

/-- The method `SpawnServerProcess::AddConnection`. -/
def SpawnServerProcess.AddConnection (s : SpawnServerProcess) (socket : Nat) :
    SpawnServerProcess :=
  { s with connections := s.connections ++ [{ socket := socket }] }

/-- The method `SpawnServerProcess::RemoveConnection`: the connection is
unlinked and destroyed; with the list empty afterwards, `Quit()`. -/
def SpawnServerProcess.RemoveConnection (s : SpawnServerProcess) (self : Nat) :
    SpawnServerProcess :=
  match s.connection self with
  | none => s
  | some c =>
    let s := { s with connections := s.connections.eraseP (fun c => c.socket = self) }
    let s := SpawnServerConnection.destroy s c
    if s.connections.isEmpty then s.Quit else s

/-- Modelled from the spec: the message built by
`SpawnSerializer s(SpawnResponseCommand::EXIT); s.WriteInt(id); s.WriteInt(status);`
(`Builder.hxx` is missing), "a fixed-layout command tag followed by its
integer fields". -/
def exitMessage (abi : Abi) (id status : Int) : List Nat :=
  abi.EXIT :: (int32Bytes id ++ int32Bytes status)

/-- The method `SpawnServerConnection::SendExit`. -/
def SpawnServerConnection.SendExit (abi : Abi) (t : Transport) (s : SpawnServerProcess)
    (self : Nat) (id status : Int) : SpawnServerProcess :=
  let message := exitMessage abi id status
  let s := s.emit (.Send self message t.first)
  match t.first with
  | .ok => s
  | .EAGAIN =>
    let s := s.emit (.ppoll self t.ppoll)
    if t.ppoll then
      let s := s.emit (.Send self message t.retry)
      match t.retry with
      | .ok => s
      | _ => s.RemoveConnection self
    else s.RemoveConnection self
  | .error => s.RemoveConnection self

/-- The first `if` of `SpawnChild`: with a non-empty uid/gid,
`if (!process.Verify(p)) config.Verify(p.uid_gid);`. -/
def verifyUidGid (ctx : Context) (p : PreparedChildProcess) : Except Thrown Unit :=
  if !ctx.abi.IsEmpty p.uid_gid then
    match ctx.Verify p with
    | .error e => .error e
    | .ok true => .ok ()
    | .ok false => ctx.config.Verify p.uid_gid
  else .ok ()

/-- The assignment `p.uid_gid = config.default_uid_gid;` made by `SpawnChild`
when the request carries no uid/gid. -/
def applyDefault (ctx : Context) (p : PreparedChildProcess) : PreparedChildProcess :=
  if ctx.abi.IsEmpty p.uid_gid then { p with uid_gid := ctx.config.default_uid_gid } else p

/-- The method `SpawnServerConnection::SpawnChild`. -/
def SpawnServerConnection.SpawnChild (ctx : Context) (o : Oracle) (s : SpawnServerProcess)
    (self : Nat) (id : Int) (name : CString) (p : PreparedChildProcess) :
    Except SpawnError SpawnServerProcess :=
  match verifyUidGid ctx p with
  | .error .non_std => .error .other
  | .error .std_exception =>
    .ok (SpawnServerConnection.SendExit ctx.abi o.transport s self id (W_EXITCODE 0xff 0))
  | .ok () =>
    if ctx.abi.IsEmpty p.uid_gid && ctx.abi.IsEmpty ctx.config.default_uid_gid then
      .ok (SpawnServerConnection.SendExit ctx.abi o.transport s self id (W_EXITCODE 0xff 0))
    else
      let p := applyDefault ctx p
      let s := s.emit (.SpawnChildProcess p (o.spawn p))
      match o.spawn p with
      | none =>
        .ok (SpawnServerConnection.SendExit ctx.abi o.transport s self id (W_EXITCODE 0xff 0))
      | some pid =>
        let child : SpawnServerChild := { connection := self, id := id, pid := pid, name := name }
        let s := s.setChildren self (fun children => ChildIdMap.insert children child)
        .ok { s with child_process_registry := s.child_process_registry.Add pid name child,
                     trace := s.trace ++ [.RegistryAdd pid name child] }

/-- The method `SpawnServerConnection::HandleExecMessage`.  The result is
`none` only if the decoding loop ran out of fuel, which does not happen
(`decodeExec_isSome`). -/
def SpawnServerConnection.HandleExecMessage (ctx : Context) (o : Oracle) (s : SpawnServerProcess)
    (self : Nat) (payload : SpawnPayload) (fds : SpawnFdList) :
    Option (Except SpawnError SpawnServerProcess) :=
  match decodeExec ctx.abi payload fds with
  | none => none
  | some (.error e) => some (.error e)
  | some (.ok r) => some (SpawnServerConnection.SpawnChild ctx o s self r.id r.name r.locals.p)

/-- The method `SpawnServerConnection::HandleKillMessage`. -/
def SpawnServerConnection.HandleKillMessage (s : SpawnServerProcess) (self : Nat)
    (payload : SpawnPayload) (fds : SpawnFdList) : Except SpawnError SpawnServerProcess :=
  if !fds.isEmpty then .error .MalformedSpawnPayloadError
  else
    match SpawnPayload.ReadInt payload with
    | .error e => .error e
    | .ok (id, payload) =>
      match SpawnPayload.ReadInt payload with
      | .error e => .error e
      | .ok (signo, payload) =>
        if !SpawnPayload.IsEmpty payload then .error .MalformedSpawnPayloadError
        else
          match s.connection self with
          | none => .ok s
          | some c =>
            match ChildIdMap.find c.children id with
            | none => .ok s
            | some child =>
              let s := s.setChildren self (fun children => children.erase child)
              .ok (s.Kill child.pid signo)

/-- The method `SpawnServerConnection::HandleMessage(ConstBuffer<uint8_t>, SpawnFdList &&)`;
`cmd` is the byte taken by `payload.shift()` and `payload` the rest. -/
def SpawnServerConnection.HandleMessage (ctx : Context) (o : Oracle) (s : SpawnServerProcess)
    (self : Nat) (cmd : Nat) (payload : SpawnPayload) (fds : SpawnFdList) :
    Option (Except SpawnError SpawnServerProcess) :=
  match ctx.abi.requestCommand cmd with
  | none => some (.ok s)
  | some .CONNECT =>
    if !payload.isEmpty || fds.length ≠ 1 then some (.error .MalformedSpawnPayloadError)
    else
      match SpawnFdList.Get fds with
      | .error e => some (.error e)
      | .ok (fd, _) => some (.ok (s.AddConnection fd))
  | some .EXEC => SpawnServerConnection.HandleExecMessage ctx o s self payload fds
  | some .KILL => some (SpawnServerConnection.HandleKillMessage s self payload fds)

/-- The method `SpawnServerConnection::OnChildProcessExit(id, status, child)`,
reached from `SpawnServerChild::OnChildProcessExit(status)`.  For a record
that is not linked in the child set, `children.erase(children.iterator_to(*child))`
is undefined in the source; here the set is then left as it is. -/
def SpawnServerConnection.OnChildProcessExit (abi : Abi) (t : Transport) (s : SpawnServerProcess)
    (child : SpawnServerChild) (status : Int) : SpawnServerProcess :=
  let s := s.setChildren child.connection (fun children => children.erase child)
  SpawnServerConnection.SendExit abi t s child.connection child.id status

/-- The method `SpawnServerConnection::ReadEventCallback`.  `received` is the
outcome of `ReceiveMessage` (`none`: it throws; otherwise payload and
descriptors). -/
def SpawnServerConnection.ReadEventCallback (ctx : Context) (o : Oracle) (s : SpawnServerProcess)
    (self : Nat) (received : Option (List Nat × SpawnFdList)) : Option SpawnServerProcess :=
  match received with
  | none => some (s.RemoveConnection self)
  | some ([], _) => some (s.RemoveConnection self)
  | some (cmd :: payload, fds) =>
    match SpawnServerConnection.HandleMessage ctx o s self cmd payload fds with
    | none => none
    | some (.ok s) => some s
    | some (.error .MalformedSpawnPayloadError) => some s
    | some (.error _) => some (s.RemoveConnection self)

/-- Modelled from the spec: process death as seen by the Child Registry, which
"for every terminated pid, looks up and removes its entry and invokes the
target's notification with the wait status; unregistered pids are ignored".
The notification is `SpawnServerChild::OnChildProcessExit`. -/
def SpawnServerProcess.OnChildProcessExit (abi : Abi) (t : Transport) (s : SpawnServerProcess)
    (pid status : Int) : SpawnServerProcess :=
  match s.child_process_registry.children.find? (fun e => e.pid = pid) with
  | none => s
  | some e =>
    let registry := { s.child_process_registry with
      children := s.child_process_registry.children.erase e }
    SpawnServerConnection.OnChildProcessExit abi t { s with child_process_registry := registry }
      e.listener status

/-! ## Event loop -/

/-- What the event loop dispatches: read readiness of the socket of connection
`self` (with what `ReceiveMessage` then returns and what the environment does
during the callback), or the death of process `pid` with wait status `status`. -/
inductive Event where
  | read (self : Nat) (received : Option (List Nat × SpawnFdList)) (o : Oracle)
  | exit (pid status : Int) (t : Transport)

/-- One dispatch of the event loop. -/
def step (ctx : Context) (s : SpawnServerProcess) : Event → Option SpawnServerProcess
  | .read self received o => SpawnServerConnection.ReadEventCallback ctx o s self received
  | .exit pid status t => some (s.OnChildProcessExit ctx.abi t pid status)

/-- A sequence of dispatches. -/
def run (ctx : Context) : SpawnServerProcess → List Event → Option SpawnServerProcess
  | s, [] => some s
  | s, e :: es =>
    match step ctx s e with
    | none => none
    | some s => run ctx s es

/-! ## Vocabulary of the statements -/

/-- A reader is stable when a successful read leaves a suffix of its input and
is unaffected by bytes appended behind that input. -/
def Reader.Stable {α : Type} (f : Reader α) : Prop :=
  ∀ payload v rest, f payload = .ok (v, rest) →
    (∃ consumed, payload = consumed ++ rest) ∧
    ∀ suffix, f (payload ++ suffix) = .ok (v, rest ++ suffix)

/-- Every successful result of the reader satisfies `Q`. -/
def Reader.Post {α : Type} (f : Reader α) (Q : α → Prop) : Prop :=
  ∀ payload v rest, f payload = .ok (v, rest) → Q v

/-- The sub-commands that take a descriptor. -/
def SpawnExecCommand.takesFd : SpawnExecCommand → Bool
  | .STDIN | .STDOUT | .STDERR | .CONTROL => true
  | _ => false

/-- Wire form of a sequence of ARG and SETENV sub-commands (`true` marks ARG):
for each the tag byte, the bytes of the string and the terminating NUL. -/
def encodeStrings (tagArg tagEnv : Nat) : List (Bool × CString) → List Nat
  | [] => []
  | (isArg, s) :: rest => (if isArg then tagArg else tagEnv) :: (s ++ 0 :: encodeStrings tagArg tagEnv rest)

/-- The strings of the ARG sub-commands of a sequence, in order. -/
def argsOf (items : List (Bool × CString)) : List CString :=
  (items.filter (fun it => it.1)).map Prod.snd

/-- The strings of the SETENV sub-commands of a sequence, in order. -/
def envOf (items : List (Bool × CString)) : List CString :=
  (items.filter (fun it => !it.1)).map Prod.snd

/-- The transport lets `SendExit` deliver its message: the first transmission
succeeds, or it fails with `EAGAIN`, `ppoll` reports the socket writable and
the second transmission succeeds. -/
def Transport.delivers (t : Transport) : Bool :=
  t.first = .ok || (t.first = .EAGAIN && t.ppoll && t.retry = .ok)

/-- The message a call hands over to a peer, as (socket, message): only a
transmission that succeeds does so. -/
def Effect.delivery : Effect → Option (Nat × List Nat)
  | .Send socket message .ok => some (socket, message)
  | _ => none

/-- The messages handed over to peers in a trace. -/
def delivered (trace : List Effect) : List (Nat × List Nat) :=
  trace.filterMap Effect.delivery

/-- The arguments and result of a call of `SpawnChildProcess`. -/
def Effect.spawn : Effect → Option (PreparedChildProcess × Option Int)
  | .SpawnChildProcess p r => some (p, r)
  | _ => none

/-- The calls of `SpawnChildProcess` in a trace. -/
def spawns (trace : List Effect) : List (PreparedChildProcess × Option Int) :=
  trace.filterMap Effect.spawn

/-- The arguments of a call of `ChildProcessRegistry::Add`. -/
def Effect.registryAdd : Effect → Option RegisteredChild
  | .RegistryAdd pid name listener => some { pid := pid, name := name, listener := listener }
  | _ => none

/-- The calls of `ChildProcessRegistry::Add` in a trace. -/
def registryAdds (trace : List Effect) : List RegisteredChild :=
  trace.filterMap Effect.registryAdd

/-- Between `s` and `s'` no message was delivered, no process spawned and no
child registered, and connections and registry entries were dropped at most. -/
def SpawnServerProcess.OnlyDrops (s s' : SpawnServerProcess) : Prop :=
  delivered s'.trace = delivered s.trace ∧
  spawns s'.trace = spawns s.trace ∧
  registryAdds s'.trace = registryAdds s.trace ∧
  s'.connections.Sublist s.connections ∧
  s'.child_process_registry.children.Sublist s.child_process_registry.children

/-- The children of connection `self` that are live: spawned for it and still
registered with the Child Registry. -/
def SpawnServerProcess.liveChildren (s : SpawnServerProcess) (self : Nat) : List SpawnServerChild :=
  (s.child_process_registry.children.map (fun e => e.listener)).filter
    (fun c => c.connection = self)

/-! ## Wire encoding of EXEC sub-commands

The encoder follows the table of EXEC sub-commands in the interface
description: a one-byte tag followed by the fields of the sub-command. -/

/-- An EXEC sub-command with the values of its fields. -/
inductive ExecItem where
  | ARG (s : CString)
  | SETENV (s : CString)
  | UMASK (value : Nat)
  | STDIN
  | STDOUT
  | STDERR
  | STDERR_PATH (s : CString)
  | CONTROL
  | TTY
  | REFENCE (s : CString)
  | USER_NS
  | PID_NS
  | NETWORK_NS
  | NETWORK_NS_NAME (s : CString)
  | IPC_NS
  | MOUNT_NS
  | MOUNT_PROC
  | WRITABLE_PROC
  | PIVOT_ROOT (s : CString)
  | MOUNT_HOME (mount_home home : CString)
  | MOUNT_TMP_TMPFS (s : CString)
  | MOUNT_TMPFS (s : CString)
  | BIND_MOUNT (source target : CString) (writable exec : Bool)
  | HOSTNAME (s : CString)
  | RLIMIT (index : Nat) (data : List Nat)
  | UID_GID (uid gid : Nat) (groups : List Nat)
  | SCHED_IDLE_
  | IOPRIO_IDLE
  | FORBID_USER_NS
  | FORBID_MULTICAST
  | FORBID_BIND
  | NO_NEW_PRIVS
  | CGROUP (name : CString)
  | CGROUP_SET (key value : CString)
  | PRIORITY (value : Int)
  | CHROOT (s : CString)
  | CHDIR (s : CString)
  | HOOK_INFO (s : CString)
  deriving DecidableEq, Repr

/-- The kind of a sub-command. -/
def ExecItem.command : ExecItem → SpawnExecCommand
  | .ARG _ => .ARG
  | .SETENV _ => .SETENV
  | .UMASK _ => .UMASK
  | .STDIN => .STDIN
  | .STDOUT => .STDOUT
  | .STDERR => .STDERR
  | .STDERR_PATH _ => .STDERR_PATH
  | .CONTROL => .CONTROL
  | .TTY => .TTY
  | .REFENCE _ => .REFENCE
  | .USER_NS => .USER_NS
  | .PID_NS => .PID_NS
  | .NETWORK_NS => .NETWORK_NS
  | .NETWORK_NS_NAME _ => .NETWORK_NS_NAME
  | .IPC_NS => .IPC_NS
  | .MOUNT_NS => .MOUNT_NS
  | .MOUNT_PROC => .MOUNT_PROC
  | .WRITABLE_PROC => .WRITABLE_PROC
  | .PIVOT_ROOT _ => .PIVOT_ROOT
  | .MOUNT_HOME _ _ => .MOUNT_HOME
  | .MOUNT_TMP_TMPFS _ => .MOUNT_TMP_TMPFS
  | .MOUNT_TMPFS _ => .MOUNT_TMPFS
  | .BIND_MOUNT _ _ _ _ => .BIND_MOUNT
  | .HOSTNAME _ => .HOSTNAME
  | .RLIMIT _ _ => .RLIMIT
  | .UID_GID _ _ _ => .UID_GID
  | .SCHED_IDLE_ => .SCHED_IDLE_
  | .IOPRIO_IDLE => .IOPRIO_IDLE
  | .FORBID_USER_NS => .FORBID_USER_NS
  | .FORBID_MULTICAST => .FORBID_MULTICAST
  | .FORBID_BIND => .FORBID_BIND
  | .NO_NEW_PRIVS => .NO_NEW_PRIVS
  | .CGROUP _ => .CGROUP
  | .CGROUP_SET _ _ => .CGROUP_SET
  | .PRIORITY _ => .PRIORITY
  | .CHROOT _ => .CHROOT
  | .CHDIR _ => .CHDIR
  | .HOOK_INFO _ => .HOOK_INFO

/-- The two bytes of a `uint16_t` in memory order. -/
def uint16Bytes (n : Nat) : List Nat :=
  [n % 256, n / 256 % 256]

/-- The four bytes of a `uint32_t` in memory order. -/
def uint32Bytes (n : Nat) : List Nat :=
  [n % 256, n / 256 % 256, n / 65536 % 256, n / 16777216 % 256]

/-- A string on the wire: its bytes and the terminating NUL. -/
def stringBytes (s : CString) : List Nat :=
  s ++ [0]

/-- A `bool` on the wire: one byte, 1 or 0. -/
def boolByte (b : Bool) : Nat :=
  if b then 1 else 0

/-- The fields of a sub-command on the wire, in the layout of the table of EXEC
sub-commands: ARG(string), UMASK(uint16), MOUNT_HOME(string mount-target,
string source), BIND_MOUNT(string source, string target, byte writable, byte
exec), RLIMIT(byte index, raw limit struct), UID_GID(uint32 uid, uint32 gid,
byte n_groups, uint32 × n_groups), CGROUP_SET(string key, string value),
PRIORITY(int32), and so on. -/
def ExecItem.fields : ExecItem → List Nat
  | .ARG s | .SETENV s | .STDERR_PATH s | .REFENCE s | .NETWORK_NS_NAME s | .PIVOT_ROOT s
  | .MOUNT_TMP_TMPFS s | .MOUNT_TMPFS s | .HOSTNAME s | .CGROUP s | .CHROOT s | .CHDIR s
  | .HOOK_INFO s => stringBytes s
  | .UMASK value => uint16Bytes value
  | .MOUNT_HOME mount_home home => stringBytes mount_home ++ stringBytes home
  | .BIND_MOUNT source target writable exec =>
    stringBytes source ++ (stringBytes target ++ [boolByte writable, boolByte exec])
  | .RLIMIT index data => index :: data
  | .UID_GID uid gid groups =>
    uint32Bytes uid ++ (uint32Bytes gid ++ groups.length :: groups.flatMap uint32Bytes)
  | .CGROUP_SET key value => stringBytes key ++ stringBytes value
  | .PRIORITY value => int32Bytes value
  | .STDIN | .STDOUT | .STDERR | .CONTROL | .TTY | .USER_NS | .PID_NS | .NETWORK_NS | .IPC_NS
  | .MOUNT_NS | .MOUNT_PROC | .WRITABLE_PROC | .SCHED_IDLE_ | .IOPRIO_IDLE | .FORBID_USER_NS
  | .FORBID_MULTICAST | .FORBID_BIND | .NO_NEW_PRIVS => []

/-- A sub-command on the wire: its tag byte, then its fields. -/
def ExecItem.encode (tag : SpawnExecCommand → Nat) (item : ExecItem) : List Nat :=
  tag item.command :: item.fields

/-- A sequence of sub-commands on the wire. -/
def encodeItems (tag : SpawnExecCommand → Nat) : List ExecItem → List Nat
  | [] => []
  | item :: rest => item.encode tag ++ encodeItems tag rest

/-- The values of a sub-command are within the protocol limits: strings hold no
NUL, integers fit their width, a limit has the size of `struct rlimit` and a
valid index, and the number of groups does not exceed the capacity of the
group array. -/
def ExecItem.WellFormed (abi : Abi) : ExecItem → Prop
  | .ARG s | .SETENV s | .STDERR_PATH s | .REFENCE s | .NETWORK_NS_NAME s | .PIVOT_ROOT s
  | .MOUNT_TMP_TMPFS s | .MOUNT_TMPFS s | .HOSTNAME s | .CGROUP s | .CHROOT s | .CHDIR s
  | .HOOK_INFO s => 0 ∉ s
  | .UMASK value => value < 2 ^ 16
  | .MOUNT_HOME mount_home home => 0 ∉ mount_home ∧ 0 ∉ home
  | .BIND_MOUNT source target _ _ => 0 ∉ source ∧ 0 ∉ target
  | .RLIMIT index data => index < abi.rlim_nlimits ∧ data.length = abi.sizeof_rlimit
  | .UID_GID uid gid groups =>
    uid < 2 ^ 32 ∧ gid < 2 ^ 32 ∧ groups.length ≤ abi.groups_max_size ∧ ∀ g ∈ groups, g < 2 ^ 32
  | .CGROUP_SET key value => 0 ∉ key ∧ 0 ∉ value
  | .PRIORITY value => -(2 ^ 31) ≤ value ∧ value < 2 ^ 31
  | .STDIN | .STDOUT | .STDERR | .CONTROL | .TTY | .USER_NS | .PID_NS | .NETWORK_NS | .IPC_NS
  | .MOUNT_NS | .MOUNT_PROC | .WRITABLE_PROC | .SCHED_IDLE_ | .IOPRIO_IDLE | .FORBID_USER_NS
  | .FORBID_MULTICAST | .FORBID_BIND | .NO_NEW_PRIVS => True

instance ExecItem.decidableWellFormed (abi : Abi) (item : ExecItem) :
    Decidable (item.WellFormed abi) := by
  cases item <;> unfold ExecItem.WellFormed <;> infer_instance

/-- The group array after the values `values` have been stored from index `i`
on. -/
def storeGroups : List Nat → Nat → List Nat → List Nat
  | [], _, groups => groups
  | g :: rest, i, groups => storeGroups rest (i + 1) (groups.set i g)

/-- The state can take the sub-command: ARG and SETENV need room below the cap
of 16384 entries, and a sub-command that takes a descriptor needs one. -/
def ExecItem.Accepted (item : ExecItem) (st : ExecLocals) : Prop :=
  match item with
  | .ARG _ => st.p.args.length < 16384
  | .SETENV _ => st.p.env.length < 16384
  | .STDIN | .STDOUT | .STDERR | .CONTROL => st.fds ≠ []
  | _ => True

/-- The child specification `p` holds the values of the sub-command in the
members that belong to it: the last argument or environment entry, the last
bind mount, the first controller setting, the limit at its index, the flag,
the uid, gid and groups (followed by a zero while the array has room), or
the string or number. -/
def ExecItem.HeldBy (item : ExecItem) (p : PreparedChildProcess) : Prop :=
  match item with
  | .ARG s => p.args.getLast? = some s
  | .SETENV s => p.env.getLast? = some s
  | .UMASK value => p.umask = some value
  | .STDIN => p.stdin_fd.isSome
  | .STDOUT => p.stdout_fd.isSome
  | .STDERR => p.stderr_fd.isSome
  | .STDERR_PATH s => p.stderr_path = some s
  | .CONTROL => p.control_fd.isSome
  | .TTY => p.tty = true
  | .REFENCE s => p.refence = some s
  | .USER_NS => p.ns.enable_user = true
  | .PID_NS => p.ns.enable_pid = true
  | .NETWORK_NS => p.ns.enable_network = true
  | .NETWORK_NS_NAME s => p.ns.network_namespace = some s
  | .IPC_NS => p.ns.enable_ipc = true
  | .MOUNT_NS => p.ns.mount.enable_mount = true
  | .MOUNT_PROC => p.ns.mount.mount_proc = true
  | .WRITABLE_PROC => p.ns.mount.writable_proc = true
  | .PIVOT_ROOT s => p.ns.mount.pivot_root = some s
  | .MOUNT_HOME mount_home home =>
    p.ns.mount.mount_home = some mount_home ∧ p.ns.mount.home = some home
  | .MOUNT_TMP_TMPFS s => p.ns.mount.mount_tmp_tmpfs = some s
  | .MOUNT_TMPFS s => p.ns.mount.mount_tmpfs = some s
  | .BIND_MOUNT source target writable exec =>
    p.ns.mount.mounts.getLast? =
      some { source := source, target := target, expand_source := false,
             writable := writable, exec := exec }
  | .HOSTNAME s => p.ns.hostname = some s
  | .RLIMIT index data => p.rlimits.values[index]? = some (some data)
  | .UID_GID uid gid groups =>
    p.uid_gid.uid = uid ∧ p.uid_gid.gid = gid ∧
    p.uid_gid.groups.take groups.length = groups ∧
    (groups.length < p.uid_gid.groups.length → p.uid_gid.groups[groups.length]? = some 0)
  | .SCHED_IDLE_ => p.sched_idle = true
  | .IOPRIO_IDLE => p.ioprio_idle = true
  | .FORBID_USER_NS => p.forbid_user_ns = true
  | .FORBID_MULTICAST => p.forbid_multicast = true
  | .FORBID_BIND => p.forbid_bind = true
  | .NO_NEW_PRIVS => p.no_new_privs = true
  | .CGROUP name => p.cgroup.name = some name
  | .CGROUP_SET key value => p.cgroup.set_head.head? = some (key, value)
  | .PRIORITY value => p.priority = some value
  | .CHROOT s => p.chroot = some s
  | .CHDIR s => p.chdir = some s
  | .HOOK_INFO s => p.hook_info = some s

/-- The bind mounts declared by a sequence of sub-commands, in order. -/
def bindMountsOf : List ExecItem → List MountList
  | [] => []
  | .BIND_MOUNT source target writable exec :: rest =>
    { source := source, target := target, expand_source := false,
      writable := writable, exec := exec } :: bindMountsOf rest
  | _ :: rest => bindMountsOf rest

/-- The arrays of the child specification have their declared sizes. -/
def ExecLocals.Sized (abi : Abi) (st : ExecLocals) : Prop :=
  st.p.rlimits.values.length = abi.rlim_nlimits ∧
  st.p.uid_gid.groups.length = abi.groups_max_size

/-- The meaning of a sub-command on the locals of `HandleExecMessage`, stated
on the values of its fields rather than on their bytes. -/
def ExecItem.apply (abi : Abi) (item : ExecItem) (st : ExecLocals) : Except SpawnError ExecLocals :=
  let p := st.p
  match item with
  | .ARG s =>
    if p.args.length ≥ 16384 then .error .MalformedSpawnPayloadError
    else .ok { st with p := { p with args := p.args ++ [s] } }
  | .SETENV s =>
    if p.env.length ≥ 16384 then .error .MalformedSpawnPayloadError
    else .ok { st with p := { p with env := p.env ++ [s] } }
  | .UMASK value => .ok { st with p := { p with umask := some value } }
  | .STDIN =>
    match st.fds with
    | [] => .error .MalformedSpawnPayloadError
    | fd :: fds =>
      .ok { p := { p with stdin_fd := some fd }, fds := fds,
            fd_calls := st.fd_calls ++ [(.STDIN, fd)] }
  | .STDOUT =>
    match st.fds with
    | [] => .error .MalformedSpawnPayloadError
    | fd :: fds =>
      .ok { p := { p with stdout_fd := some fd }, fds := fds,
            fd_calls := st.fd_calls ++ [(.STDOUT, fd)] }
  | .STDERR =>
    match st.fds with
    | [] => .error .MalformedSpawnPayloadError
    | fd :: fds =>
      .ok { p := { p with stderr_fd := some fd }, fds := fds,
            fd_calls := st.fd_calls ++ [(.STDERR, fd)] }
  | .STDERR_PATH s => .ok { st with p := { p with stderr_path := some s } }
  | .CONTROL =>
    match st.fds with
    | [] => .error .MalformedSpawnPayloadError
    | fd :: fds =>
      .ok { p := { p with control_fd := some fd }, fds := fds,
            fd_calls := st.fd_calls ++ [(.CONTROL, fd)] }
  | .TTY => .ok { st with p := { p with tty := true } }
  | .REFENCE s => .ok { st with p := { p with refence := some s } }
  | .USER_NS => .ok { st with p := { p with ns := { p.ns with enable_user := true } } }
  | .PID_NS => .ok { st with p := { p with ns := { p.ns with enable_pid := true } } }
  | .NETWORK_NS => .ok { st with p := { p with ns := { p.ns with enable_network := true } } }
  | .NETWORK_NS_NAME s =>
    .ok { st with p := { p with ns := { p.ns with network_namespace := some s } } }
  | .IPC_NS => .ok { st with p := { p with ns := { p.ns with enable_ipc := true } } }
  | .MOUNT_NS =>
    .ok { st with p := { p with ns := { p.ns with mount := { p.ns.mount with enable_mount := true } } } }
  | .MOUNT_PROC =>
    .ok { st with p := { p with ns := { p.ns with mount := { p.ns.mount with mount_proc := true } } } }
  | .WRITABLE_PROC =>
    .ok { st with p := { p with ns := { p.ns with mount := { p.ns.mount with writable_proc := true } } } }
  | .PIVOT_ROOT s =>
    .ok { st with p := { p with ns := { p.ns with mount := { p.ns.mount with pivot_root := some s } } } }
  | .MOUNT_HOME mount_home home =>
    .ok { st with p := { p with ns := { p.ns with mount :=
      { p.ns.mount with mount_home := some mount_home, home := some home } } } }
  | .MOUNT_TMP_TMPFS s =>
    .ok { st with p := { p with ns := { p.ns with mount :=
      { p.ns.mount with mount_tmp_tmpfs := some s } } } }
  | .MOUNT_TMPFS s =>
    .ok { st with p := { p with ns := { p.ns with mount := { p.ns.mount with mount_tmpfs := some s } } } }
  | .BIND_MOUNT source target writable exec =>
    .ok { st with p := { p with ns := { p.ns with mount := { p.ns.mount with
      mounts := p.ns.mount.mounts ++
        [{ source := source, target := target, expand_source := false,
           writable := writable, exec := exec }] } } } }
  | .HOSTNAME s => .ok { st with p := { p with ns := { p.ns with hostname := some s } } }
  | .RLIMIT index data => .ok { st with p := { p with rlimits := p.rlimits.store index data } }
  | .UID_GID uid gid groups =>
    .ok { st with p := { p with uid_gid :=
      { uid := uid, gid := gid,
        groups := if groups.length < abi.groups_max_size
          then (storeGroups groups 0 p.uid_gid.groups).set groups.length 0
          else storeGroups groups 0 p.uid_gid.groups } } }
  | .SCHED_IDLE_ => .ok { st with p := { p with sched_idle := true } }
  | .IOPRIO_IDLE => .ok { st with p := { p with ioprio_idle := true } }
  | .FORBID_USER_NS => .ok { st with p := { p with forbid_user_ns := true } }
  | .FORBID_MULTICAST => .ok { st with p := { p with forbid_multicast := true } }
  | .FORBID_BIND => .ok { st with p := { p with forbid_bind := true } }
  | .NO_NEW_PRIVS => .ok { st with p := { p with no_new_privs := true } }
  | .CGROUP name => .ok { st with p := { p with cgroup := { p.cgroup with name := some name } } }
  | .CGROUP_SET key value =>
    .ok { st with p := { p with cgroup :=
      { p.cgroup with set_head := (key, value) :: p.cgroup.set_head } } }
  | .PRIORITY value => .ok { st with p := { p with priority := some value } }
  | .CHROOT s => .ok { st with p := { p with chroot := some s } }
  | .CHDIR s => .ok { st with p := { p with chdir := some s } }
  | .HOOK_INFO s => .ok { st with p := { p with hook_info := some s } }

/-- The meaning of a sequence of sub-commands: each is applied in turn, and the
first failure ends the sequence. -/
def applyItems (abi : Abi) : List ExecItem → ExecLocals → Except SpawnError ExecLocals
  | [], st => .ok st
  | item :: rest, st =>
    match item.apply abi st with
    | .error e => .error e
    | .ok st => applyItems abi rest st

/-! ## Wait status -/

/-- The macro `WTERMSIG(status)` of `<sys/wait.h>`: `(status) & 0x7f`. -/
def WTERMSIG (status : Int) : Nat :=
  status.toNat &&& 0x7f

/-- The macro `WIFEXITED(status)` of `<sys/wait.h>`: `WTERMSIG(status) == 0`. -/
def WIFEXITED (status : Int) : Bool :=
  WTERMSIG status = 0

/-- The macro `WEXITSTATUS(status)` of `<sys/wait.h>`: `((status) & 0xff00) >> 8`. -/
def WEXITSTATUS (status : Int) : Nat :=
  (status.toNat &&& 0xff00) >>> 8

/-- The macro `WIFSIGNALED(status)` of `<sys/wait.h>`:
`((signed char) (((status) & 0x7f) + 1) >> 1) > 0`, that is, the low seven
bits are neither 0 nor 0x7f. -/
def WIFSIGNALED (status : Int) : Bool :=
  WTERMSIG status ≠ 0 && WTERMSIG status ≠ 0x7f

/-! ## Counting calls -/

/-- The number of transmission attempts (`::Send<1>`) in a trace. -/
def sendAttempts (trace : List Effect) : Nat :=
  trace.countP (fun e => match e with | .Send _ _ _ => true | _ => false)

/-- The number of waits for write-readiness (`ppoll`) in a trace. -/
def waits (trace : List Effect) : Nat :=
  trace.countP (fun e => match e with | .ppoll _ _ => true | _ => false)

/-- The controller settings declared by a sequence of sub-commands, in order. -/
def cgroupSetsOf : List ExecItem → List (CString × CString)
  | [] => []
  | .CGROUP_SET key value :: rest => (key, value) :: cgroupSetsOf rest
  | _ :: rest => cgroupSetsOf rest

/-- The cgroup names declared by a sequence of sub-commands, in order. -/
def cgroupNamesOf : List ExecItem → List CString
  | [] => []
  | .CGROUP name :: rest => name :: cgroupNamesOf rest
  | _ :: rest => cgroupNamesOf rest

/-- Every failure of the reader is the MalformedPayload condition. -/
def Reader.OnlyMalformed {α : Type} (f : Reader α) : Prop :=
  ∀ payload e, f payload = .error e → e = .MalformedSpawnPayloadError

/-! ## Sample data

Concrete values on which the model is evaluated. -/

/-- An instance of the platform parameters: the tags are numbered in the order
of the `case` labels, the group array has 32 entries, the limit table 16
entries of 16 bytes, and a uid/gid is empty when uid, gid and the first
supplementary group are all zero. -/
def sampleAbi : Abi where
  execCommand := fun b =>
    ([.ARG, .SETENV, .UMASK, .STDIN, .STDOUT, .STDERR, .STDERR_PATH, .CONTROL, .TTY, .REFENCE,
      .USER_NS, .PID_NS, .NETWORK_NS, .NETWORK_NS_NAME, .IPC_NS, .MOUNT_NS, .MOUNT_PROC,
      .WRITABLE_PROC, .PIVOT_ROOT, .MOUNT_HOME, .MOUNT_TMP_TMPFS, .MOUNT_TMPFS, .BIND_MOUNT,
      .HOSTNAME, .RLIMIT, .UID_GID, .SCHED_IDLE_, .IOPRIO_IDLE, .FORBID_USER_NS,
      .FORBID_MULTICAST, .FORBID_BIND, .NO_NEW_PRIVS, .CGROUP, .CGROUP_SET, .PRIORITY, .CHROOT,
      .CHDIR, .HOOK_INFO] : List SpawnExecCommand)[b]?
  requestCommand := fun b => ([.CONNECT, .EXEC, .KILL] : List SpawnRequestCommand)[b]?
  EXIT := 1
  groups_max_size := 32
  rlim_nlimits := 16
  sizeof_rlimit := 16
  IsEmpty := fun u => decide (u.uid = 0) && decide (u.gid = 0) && decide (u.groups.headD 0 = 0)

/-- A configuration without default uid/gid whose `Verify` accepts everything. -/
def sampleConfig : SpawnConfig where
  default_uid_gid := { uid := 0, gid := 0, groups := List.replicate 32 0 }
  Verify := fun _ => .ok ()

/-- A server without verification hook. -/
def sampleContext : Context where
  abi := sampleAbi
  config := sampleConfig
  hook := none

/-- The child record (id 5, pid 50, name "a") of connection 3. -/
def sampleChild : SpawnServerChild :=
  { connection := 3, id := 5, pid := 50, name := [97] }

/-- A server with the single connection 3, which owns `sampleChild`. -/
def sampleServer : SpawnServerProcess where
  connections := [{ socket := 3, children := [sampleChild] }]
  child_process_registry := { children := [{ pid := 50, name := [97], listener := sampleChild }] }

/-- Every spawn succeeds with pid 100 and every transmission succeeds. -/
def sampleOracle : Oracle where
  spawn := fun _ => some 100
  transport := { first := .ok, ppoll := false, retry := .ok }

/-- Every spawn fails and the socket is broken. -/
def failingOracle : Oracle where
  spawn := fun _ => none
  transport := { first := .error, ppoll := false, retry := .error }

/-- A child specification without uid/gid. -/
def anonymousChild : PreparedChildProcess :=
  PreparedChildProcess.init sampleAbi

/-- A child specification with uid 1000 and gid 1000. -/
def explicitChild : PreparedChildProcess :=
  { PreparedChildProcess.init sampleAbi with
    uid_gid := { uid := 1000, gid := 1000, groups := List.replicate 32 0 } }

/-- A server with the single connection 3 and no children. -/
def freshServer : SpawnServerProcess where
  connections := [{ socket := 3 }]

/-- Every spawn succeeds with pid 101 and every transmission succeeds. -/
def secondOracle : Oracle where
  spawn := fun _ => some 101
  transport := { first := .ok, ppoll := false, retry := .ok }

/-- The message EXEC id=1 name="x" UID_GID(uid 1000, gid 1000, no groups) under
`sampleAbi`: command byte 1, the id, the name with its NUL, tag 25, uid, gid
and the group count. -/
def execMessage : List Nat :=
  [1, 1, 0, 0, 0, 120, 0, 25, 232, 3, 0, 0, 232, 3, 0, 0, 0]

/-- The message `execMessage` followed by an RLIMIT sub-command (tag 24) with
index byte 200 and a 16-byte limit. -/
def rlimitMessage : List Nat :=
  execMessage ++ [24, 200, 7, 7, 7, 7, 7, 7, 7, 7, 7, 7, 7, 7, 7, 7, 7, 7]

/-- The message `execMessage` followed by STDOUT (tag 4) and STDIN (tag 3). -/
def redirectMessage : List Nat :=
  execMessage ++ [4, 3]

/-- The message `execMessage` followed by a STDIN sub-command (tag 3). -/
def stdinMessage : List Nat :=
  execMessage ++ [3]

/-- The tags of `sampleAbi`, by sub-command. -/
def sampleTag : SpawnExecCommand → Nat
  | .ARG => 0 | .SETENV => 1 | .UMASK => 2 | .STDIN => 3 | .STDOUT => 4 | .STDERR => 5
  | .STDERR_PATH => 6 | .CONTROL => 7 | .TTY => 8 | .REFENCE => 9 | .USER_NS => 10
  | .PID_NS => 11 | .NETWORK_NS => 12 | .NETWORK_NS_NAME => 13 | .IPC_NS => 14
  | .MOUNT_NS => 15 | .MOUNT_PROC => 16 | .WRITABLE_PROC => 17 | .PIVOT_ROOT => 18
  | .MOUNT_HOME => 19 | .MOUNT_TMP_TMPFS => 20 | .MOUNT_TMPFS => 21 | .BIND_MOUNT => 22
  | .HOSTNAME => 23 | .RLIMIT => 24 | .UID_GID => 25 | .SCHED_IDLE_ => 26 | .IOPRIO_IDLE => 27
  | .FORBID_USER_NS => 28 | .FORBID_MULTICAST => 29 | .FORBID_BIND => 30 | .NO_NEW_PRIVS => 31
  | .CGROUP => 32 | .CGROUP_SET => 33 | .PRIORITY => 34 | .CHROOT => 35 | .CHDIR => 36
  | .HOOK_INFO => 37

/-- The head of an EXEC message with id 1 and name "x". -/
def sampleHead : List Nat :=
  [1, 0, 0, 0, 120, 0]

/-- The sub-commands MOUNT_NS, BIND_MOUNT("/a" on "/x", read-only, no exec),
MOUNT_HOME("/h", "/home/u" abbreviated to "/u") and BIND_MOUNT("/b" on "/y",
writable, exec). -/
def mountItems : List ExecItem :=
  [.MOUNT_NS, .BIND_MOUNT [47, 97] [47, 120] false false, .MOUNT_HOME [47, 104] [47, 117],
   .BIND_MOUNT [47, 98] [47, 121] true true]

/-- The sub-command UID_GID with uid 1000, gid 100 and the groups 4 and 24. -/
def uidGidItem : ExecItem :=
  .UID_GID 1000 100 [4, 24]

/-- A server whose verification hook throws something that is not a
`std::exception`. -/
def throwingContext : Context where
  abi := sampleAbi
  config := sampleConfig
  hook := some (fun _ => .error .non_std)

/-- A server with the connections 3 (owning `sampleChild`) and 4 (owning the
record id 5, pid 60). -/
def twoConnections : SpawnServerProcess where
  connections :=
    [{ socket := 3, children := [sampleChild] },
     { socket := 4, children := [{ connection := 4, id := 5, pid := 60, name := [98] }] }]
  child_process_registry :=
    { children := [{ pid := 50, name := [97], listener := sampleChild },
                   { pid := 60, name := [98],
                     listener := { connection := 4, id := 5, pid := 60, name := [98] } }] }

/-- A server whose verification hook throws a `std::exception`. -/
def refusingContext : Context where
  abi := sampleAbi
  config := sampleConfig
  hook := some (fun _ => .error .std_exception)

/-- A configuration with the default uid/gid 33/33. -/
def defaultingConfig : SpawnConfig where
  default_uid_gid := { uid := 33, gid := 33, groups := List.replicate 32 0 }
  Verify := fun _ => .error .std_exception

/-- A server with default uid/gid whose configuration check and hook both
refuse everything. -/
def defaultingContext : Context where
  abi := sampleAbi
  config := defaultingConfig
  hook := some (fun _ => .error .std_exception)

/-- A server with the same default uid/gid, without hook, whose configuration
check accepts everything. -/
def permissiveContext : Context where
  abi := sampleAbi
  config := { default_uid_gid := defaultingConfig.default_uid_gid, Verify := fun _ => .ok () }
  hook := none

/-- The sub-commands CGROUP_SET("a", "1"), CGROUP("x"), TTY, CGROUP_SET("b", "2")
and CGROUP("y"). -/
def cgroupItems : List ExecItem :=
  [.CGROUP_SET [97] [49], .CGROUP [120], .TTY, .CGROUP_SET [98] [50], .CGROUP [121]]

end Spawn

/-!
# Log datagrams (`src/net/log/Send.cxx`)

`FillIovec` builds the scatter/gather vector of one log datagram.  An entry
of the vector is represented by the object it points to.  The headers
`Protocol.hxx`, `Datagram.hxx`, `Crc.hxx` and `util/ByteOrder.hxx` are not
part of the available sources: the protocol constants and the checksum are
parameters (`Protocol`, `Crc`), and `Datagram` has the members that
`FillIovec` reads.
-/

namespace Net.Log

/-- The enumerators of `Attribute` that `FillIovec` names. -/
inductive Attribute where
  | TIMESTAMP | REMOTE_HOST | HOST | SITE | FORWARDED_TO | HTTP_METHOD | HTTP_URI
  | HTTP_REFERER | USER_AGENT | MESSAGE | HTTP_STATUS | LENGTH | DURATION | TYPE
  deriving DecidableEq, Repr

/-- The constants of `Protocol.hxx` used by `FillIovec`: the magic number, the
object representation (bytes in memory) of each `Attribute` enumerator and of
a value of `Net::Log::Type`, and the value of `Type::UNSPECIFIED`. -/
structure Protocol where
  MAGIC_V2 : Nat
  attributeBytes : Attribute → List Nat
  UNSPECIFIED : Nat
  type : Nat → List Nat

/-- The class `Crc` of `Crc.hxx` as far as `FillIovec` uses it: the state after
`reset()`, `process_bytes()` on a state, and `checksum()` of a state. -/
structure Crc where
  reset : Nat
  process_bytes : Nat → List Nat → Nat
  checksum : Nat → Nat

/-- The members of `Datagram` read by `FillIovec`.  A pointer member is `none`
when it is `nullptr`, a string is the list of its bytes without the
terminating NUL, and `type` is the numeric value of the `Type` enumerator. -/
structure Datagram where
  timestamp : Nat := 0
  remote_host : Option (List Nat) := none
  host : Option (List Nat) := none
  site : Option (List Nat) := none
  forwarded_to : Option (List Nat) := none
  http_uri : Option (List Nat) := none
  http_referer : Option (List Nat) := none
  user_agent : Option (List Nat) := none
  message : Option (List Nat) := none
  length : Nat := 0
  traffic_received : Nat := 0
  traffic_sent : Nat := 0
  duration : Nat := 0
  http_method : Nat := 0
  http_status : Nat := 0
  type : Nat
  valid_timestamp : Bool := false
  valid_http_method : Bool := false
  valid_http_status : Bool := false
  valid_length : Bool := false
  valid_traffic : Bool := false
  valid_duration : Bool := false
  deriving DecidableEq, Repr

/-- The bytes in memory of a `uint16_t` holding `ToBE16(value)`. -/
def ToBE16 (value : Nat) : List Nat :=
  [value / 2 ^ 8 % 256, value % 256]

/-- The bytes in memory of a `uint32_t` holding `ToBE32(value)`. -/
def ToBE32 (value : Nat) : List Nat :=
  [value / 2 ^ 24 % 256, value / 2 ^ 16 % 256, value / 2 ^ 8 % 256, value % 256]

/-- The bytes in memory of a `uint64_t` holding `ToBE64(value)`. -/
def ToBE64 (value : Nat) : List Nat :=
  ToBE32 (value / 2 ^ 32) ++ ToBE32 value

/-- A `struct iovec` as the `MakeIovec` helpers build it, by what it points to:
a buffer (`MakeIovec(ConstBuffer<void>)`), a C string with its NUL
(`MakeIovec(const char *)`), an object given by its bytes in memory
(`MakeIovecT`, `MakeIovecStatic`), or an `Attribute` constant
(`MakeIovecAttribute`). -/
inductive iovec where
  | buffer (b : List Nat)
  | string (s : List Nat)
  | object (bytes : List Nat)
  | attr (value : Attribute)
  deriving DecidableEq, Repr

/-- The `iov_len` bytes at `iov_base`. -/
def iovec.bytes (proto : Protocol) : iovec → List Nat
  | .buffer b => b
  | .string s => s ++ [0]
  | .object bytes => bytes
  | .attr value => proto.attributeBytes value

/-- The function template `FillIovec`: `v.push_back` appends to the list. -/
def FillIovec (proto : Protocol) (crc : Crc) (v : List iovec) (d : Datagram) : List iovec :=
  let v : List iovec := v ++ [iovec.object (ToBE32 proto.MAGIC_V2)]
  let v : List iovec := if d.valid_timestamp then
      v ++ [iovec.attr .TIMESTAMP, .object (ToBE64 d.timestamp)]
    else v
  let v : List iovec := if h : d.remote_host.isSome then
      v ++ [iovec.attr .REMOTE_HOST, .string (d.remote_host.get h)]
    else v
  let v : List iovec := if h : d.host.isSome then
      v ++ [iovec.attr .HOST, .string (d.host.get h)]
    else v
  let v : List iovec := if h : d.site.isSome then
      v ++ [iovec.attr .SITE, .string (d.site.get h)]
    else v
  let v : List iovec := if h : d.forwarded_to.isSome then
      v ++ [iovec.attr .FORWARDED_TO, .string (d.forwarded_to.get h)]
    else v
  let v : List iovec := if d.valid_http_method then
      v ++ [iovec.attr .HTTP_METHOD, .object [d.http_method % 256]]
    else v
  let v : List iovec := if h : d.http_uri.isSome then
      v ++ [iovec.attr .HTTP_URI, .string (d.http_uri.get h)]
    else v
  let v : List iovec := if h : d.http_referer.isSome then
      v ++ [iovec.attr .HTTP_REFERER, .string (d.http_referer.get h)]
    else v
  let v : List iovec := if h : d.user_agent.isSome then
      v ++ [iovec.attr .USER_AGENT, .string (d.user_agent.get h)]
    else v
  let v : List iovec := if h : d.message.isSome then
      v ++ [iovec.attr .MESSAGE, .buffer (d.message.get h), .object [0]]
    else v
  let v : List iovec := if d.valid_http_status then
      v ++ [iovec.attr .HTTP_STATUS, .object (ToBE16 d.http_status)]
    else v
  let v : List iovec := if d.valid_length then
      v ++ [iovec.attr .LENGTH, .object (ToBE64 d.length)]
    else v
  let v : List iovec := if d.valid_traffic then
      v ++ [iovec.attr .LENGTH, .object (ToBE64 d.traffic_received ++ ToBE64 d.traffic_sent)]
    else v
  let v : List iovec := if d.valid_duration then
      v ++ [iovec.attr .DURATION, .object (ToBE64 d.duration)]
    else v
  let v : List iovec := if d.type ≠ proto.UNSPECIFIED then
      v ++ [iovec.attr .TYPE, .object (proto.type d.type)]
    else v
  let crc_value := crc.checksum
    ((v.drop 1).foldl (fun state i => crc.process_bytes state (i.bytes proto)) crc.reset)
  v ++ [.object (ToBE32 crc_value)]

/-- The array `StaticArray<struct iovec, 64> v` that `Send` fills: its capacity. -/
def Send.max : Nat := 64

/-- The function `Send`: `FillIovec` on an empty array, then `sendmsg` on the
array; a negative result of `sendmsg` is thrown (`MakeErrno`). -/
def Send (proto : Protocol) (crc : Crc) (sendmsg : List iovec → Int) (d : Datagram) :
    Except Unit Unit :=
  let v : List iovec := FillIovec proto crc [] d
  if sendmsg v < 0 then .error () else .ok ()

/-- The attribute constants among the entries of a vector, in order. -/
def attributes (v : List iovec) : List Attribute :=
  v.filterMap fun i =>
    match i with
    | .attr value => some value
    | _ => none

/-! ## Sample data for log datagrams -/

/-- An instance of the protocol constants: one-byte attributes numbered from 1
in the order of `FillIovec`, a one-byte `Type` with `UNSPECIFIED` = 0. -/
def sampleProtocol : Protocol where
  MAGIC_V2 := 0x63046102
  attributeBytes := fun a =>
    match a with
    | .TIMESTAMP => [1] | .REMOTE_HOST => [2] | .HOST => [3] | .SITE => [4]
    | .FORWARDED_TO => [5] | .HTTP_METHOD => [6] | .HTTP_URI => [7] | .HTTP_REFERER => [8]
    | .USER_AGENT => [9] | .MESSAGE => [10] | .HTTP_STATUS => [11] | .LENGTH => [12]
    | .DURATION => [13] | .TYPE => [14]
  UNSPECIFIED := 0
  type := fun t => [t % 256]

/-- An instance of the checksum parameters: the sum of the bytes modulo 2^32. -/
def sampleCrc : Crc where
  reset := 0
  process_bytes := fun state bytes => (state + bytes.sum) % 2 ^ 32
  checksum := fun state => state

/-- A datagram without any field. -/
def emptyDatagram : Datagram :=
  { type := 0 }

/-- A datagram with the content length 7 only. -/
def lengthDatagram : Datagram :=
  { type := 0, valid_length := true, length := 7 }

/-- A datagram with the traffic pair (received 7, sent 9) only. -/
def trafficDatagram : Datagram :=
  { type := 0, valid_traffic := true, traffic_received := 7, traffic_sent := 9 }

/-- A datagram with every field. -/
def fullDatagram : Datagram :=
  { timestamp := 1, remote_host := some [97], host := some [98], site := some [99],
    forwarded_to := some [100], http_uri := some [47], http_referer := some [101],
    user_agent := some [102], message := some [103], length := 7, traffic_received := 7,
    traffic_sent := 9, duration := 3, http_method := 1, http_status := 200, type := 1,
    valid_timestamp := true, valid_http_method := true, valid_http_status := true,
    valid_length := true, valid_traffic := true, valid_duration := true }

end Net.Log

/-! # Theorems -/

namespace Spawn

/-! ## Readers -/

theorem Reader.bind_apply {α β : Type} (f : Reader α) (g : α → Reader β) (payload : SpawnPayload) :
    (f >>= g) payload =
      match f payload with
      | .error e => .error e
      | .ok (a, rest) => g a rest := by
  show (StateT.bind f g) payload = _
  unfold StateT.bind
  show Except.bind (f payload) _ = _
  cases f payload <;> rfl

theorem Reader.pure_apply {α : Type} (a : α) (payload : SpawnPayload) :
    (pure a : Reader α) payload = .ok (a, payload) := rfl

theorem Reader.stable_pure {α : Type} (a : α) : Reader.Stable (pure a : Reader α) := by
  intro payload v rest h
  rw [Reader.pure_apply] at h
  injection h with h
  injection h with h1 h2
  subst h1 h2
  exact ⟨⟨[], rfl⟩, fun suffix => rfl⟩

theorem Reader.stable_fail {α : Type} (e : SpawnError) : Reader.Stable (Reader.fail e : Reader α) := by
  intro payload v rest h
  simp [Reader.fail] at h

theorem Reader.stable_bind {α β : Type} {f : Reader α} {g : α → Reader β}
    (hf : Reader.Stable f) (hg : ∀ a, Reader.Stable (g a)) : Reader.Stable (f >>= g) := by
  intro payload v rest h
  rw [Reader.bind_apply] at h
  cases hfp : f payload with
  | error e => simp [hfp] at h
  | ok r =>
    obtain ⟨a, mid⟩ := r
    simp only [hfp] at h
    obtain ⟨⟨c1, hc1⟩, hs1⟩ := hf payload a mid hfp
    obtain ⟨⟨c2, hc2⟩, hs2⟩ := hg a mid v rest h
    refine ⟨⟨c1 ++ c2, by rw [hc1, hc2, List.append_assoc]⟩, fun suffix => ?_⟩
    rw [Reader.bind_apply, hs1 suffix]
    exact hs2 suffix

theorem Reader.stable_ite {α : Type} {c : Prop} [Decidable c] {f g : Reader α}
    (hf : Reader.Stable f) (hg : Reader.Stable g) : Reader.Stable (if c then f else g) := by
  by_cases h : c
  · simpa [h] using hf
  · simpa [h] using hg

theorem ReadByte_stable : Reader.Stable SpawnPayload.ReadByte := by
  intro payload v rest h
  cases payload with
  | nil => simp [SpawnPayload.ReadByte] at h
  | cons b tl =>
    simp only [SpawnPayload.ReadByte, Except.ok.injEq, Prod.mk.injEq] at h
    obtain ⟨rfl, rfl⟩ := h
    exact ⟨⟨[b], rfl⟩, fun suffix => rfl⟩

theorem ReadT_stable (size : Nat) : Reader.Stable (SpawnPayload.ReadT size) := by
  intro payload v rest h
  unfold SpawnPayload.ReadT at h
  split at h
  · simp at h
  · rename_i hlen
    simp only [Except.ok.injEq, Prod.mk.injEq] at h
    obtain ⟨rfl, rfl⟩ := h
    refine ⟨⟨payload.take size, (List.take_append_drop size payload).symm⟩, fun suffix => ?_⟩
    have hle : size ≤ payload.length := Nat.le_of_not_lt hlen
    unfold SpawnPayload.ReadT
    have h1 : ¬ (payload ++ suffix).length < size := by
      rw [List.length_append]; omega
    rw [if_neg h1, List.take_append_of_le_length hle, List.drop_append_of_le_length hle]

theorem ReadString_stable : Reader.Stable SpawnPayload.ReadString := by
  intro payload
  induction payload with
  | nil => intro v rest h; simp [SpawnPayload.ReadString] at h
  | cons b tl ih =>
    intro v rest h
    unfold SpawnPayload.ReadString at h
    by_cases hb : b = 0
    · simp only [hb, if_true, Except.ok.injEq, Prod.mk.injEq] at h
      obtain ⟨rfl, rfl⟩ := h
      refine ⟨⟨[b], rfl⟩, fun suffix => ?_⟩
      show SpawnPayload.ReadString (b :: (tl ++ suffix)) = _
      unfold SpawnPayload.ReadString
      simp [hb]
    · simp only [hb, if_false] at h
      cases hr : SpawnPayload.ReadString tl with
      | error e => simp [hr] at h
      | ok r =>
        obtain ⟨s, rest'⟩ := r
        simp only [hr, Except.ok.injEq, Prod.mk.injEq] at h
        obtain ⟨rfl, rfl⟩ := h
        obtain ⟨⟨c, hc⟩, hs⟩ := ih s rest' hr
        refine ⟨⟨b :: c, by rw [hc]; rfl⟩, fun suffix => ?_⟩
        show SpawnPayload.ReadString (b :: (tl ++ suffix)) = _
        unfold SpawnPayload.ReadString
        simp only [hb, if_false, hs suffix]

theorem ReadInt_stable : Reader.Stable SpawnPayload.ReadInt :=
  Reader.stable_bind (ReadT_stable 4) (fun _ => Reader.stable_pure _)

theorem ReadGroups_stable (n i : Nat) (groups : List Nat) :
    Reader.Stable (UidGid.ReadGroups n i groups) := by
  induction n generalizing i groups with
  | zero => exact Reader.stable_pure _
  | succ n ih => exact Reader.stable_bind (ReadT_stable 4) (fun _ => ih _ _)

theorem UidGid_Read_stable (abi : Abi) (uid_gid : UidGid) :
    Reader.Stable (UidGid.Read abi uid_gid) :=
  Reader.stable_bind (ReadT_stable 4) fun _ =>
    Reader.stable_bind (ReadT_stable 4) fun _ =>
      Reader.stable_bind ReadByte_stable fun _ =>
        Reader.stable_ite (Reader.stable_fail _)
          (Reader.stable_bind (ReadGroups_stable _ _ _) fun _ => Reader.stable_pure _)

theorem ResourceLimits_Read_stable (abi : Abi) (rlimits : ResourceLimits) :
    Reader.Stable (ResourceLimits.Read abi rlimits) :=
  Reader.stable_bind ReadByte_stable fun _ =>
    Reader.stable_bind (ReadT_stable _) fun _ => Reader.stable_pure _

theorem takeFd_stable (cmd : SpawnExecCommand) (st : ExecLocals)
    (set : PreparedChildProcess → Nat → PreparedChildProcess) :
    Reader.Stable (takeFd cmd st set) := by
  unfold takeFd
  split
  · exact Reader.stable_fail _
  · exact Reader.stable_pure _

theorem execCase_stable (abi : Abi) (cmd : SpawnExecCommand) (st : ExecLocals) :
    Reader.Stable (execCase abi cmd st) := by
  cases cmd <;> simp only [execCase] <;>
    first
    | exact Reader.stable_pure _
    | exact takeFd_stable _ _ _
    | exact Reader.stable_ite (Reader.stable_fail _)
        (Reader.stable_bind ReadString_stable fun _ => Reader.stable_pure _)
    | exact Reader.stable_bind ReadString_stable fun _ => Reader.stable_pure _
    | exact Reader.stable_bind ReadString_stable fun _ =>
        Reader.stable_bind ReadString_stable fun _ => Reader.stable_pure _
    | exact Reader.stable_bind ReadString_stable fun _ =>
        Reader.stable_bind ReadString_stable fun _ =>
          Reader.stable_bind ReadByte_stable fun _ =>
            Reader.stable_bind ReadByte_stable fun _ => Reader.stable_pure _
    | exact Reader.stable_bind (ReadT_stable _) fun _ => Reader.stable_pure _
    | exact Reader.stable_bind ReadInt_stable fun _ => Reader.stable_pure _
    | exact Reader.stable_bind (UidGid_Read_stable _ _) fun _ => Reader.stable_pure _
    | exact Reader.stable_bind (ResourceLimits_Read_stable _ _) fun _ => Reader.stable_pure _

theorem execCommand_stable (abi : Abi) (cmd : Nat) (st : ExecLocals) :
    Reader.Stable (execCommand abi cmd st) := by
  unfold execCommand
  split
  · exact Reader.stable_pure _
  · exact execCase_stable _ _ _

/-! ## The decoding loop -/

theorem execCommand_length {abi : Abi} {cmd : Nat} {st st' : ExecLocals}
    {payload rest : SpawnPayload} (h : execCommand abi cmd st payload = .ok (st', rest)) :
    rest.length ≤ payload.length := by
  obtain ⟨⟨c, hc⟩, _⟩ := execCommand_stable abi cmd st payload st' rest h
  rw [hc, List.length_append]
  omega

theorem execLoop_fuel (abi : Abi) (fuel1 fuel2 : Nat) (payload : SpawnPayload) (st : ExecLocals)
    (h1 : payload.length ≤ fuel1) (h2 : payload.length ≤ fuel2) :
    execLoop abi fuel1 payload st = execLoop abi fuel2 payload st := by
  induction fuel1 generalizing fuel2 payload st with
  | zero =>
    cases payload with
    | nil => cases fuel2 <;> simp [execLoop]
    | cons b tl => simp at h1
  | succ f1 ih =>
    cases payload with
    | nil => cases fuel2 <;> simp [execLoop]
    | cons b tl =>
      cases fuel2 with
      | zero => simp at h2
      | succ f2 =>
        simp only [execLoop]
        cases hc : execCommand abi b st tl with
        | error e => rfl
        | ok r =>
          obtain ⟨st', rest⟩ := r
          have hlen := execCommand_length hc
          simp only [List.length_cons] at h1 h2
          exact ih f2 rest st' (by omega) (by omega)

theorem execRun_nil (abi : Abi) (st : ExecLocals) : execRun abi [] st = some (.ok st) := by
  simp [execRun, execLoop]

theorem execRun_cons (abi : Abi) (cmd : Nat) (payload : SpawnPayload) (st : ExecLocals) :
    execRun abi (cmd :: payload) st =
      match execCommand abi cmd st payload with
      | .error e => some (.error e)
      | .ok (st', rest) => execRun abi rest st' := by
  simp only [execRun, List.length_cons, execLoop]
  cases hc : execCommand abi cmd st payload with
  | error e => rfl
  | ok r =>
    obtain ⟨st', rest⟩ := r
    exact execLoop_fuel abi _ _ rest st' (execCommand_length hc) (Nat.le_refl _)

theorem execRun_isSome (abi : Abi) (payload : SpawnPayload) (st : ExecLocals) :
    ∃ r, execRun abi payload st = some r := by
  generalize hn : payload.length = n
  induction n using Nat.strong_induction_on generalizing payload st with
  | _ n ih =>
    cases payload with
    | nil => exact ⟨_, execRun_nil abi st⟩
    | cons b tl =>
      rw [execRun_cons]
      cases hc : execCommand abi b st tl with
      | error e => exact ⟨_, rfl⟩
      | ok r =>
        obtain ⟨st', rest⟩ := r
        have hlen := execCommand_length hc
        simp only [List.length_cons] at hn
        exact ih rest.length (by omega) rest st' rfl

theorem decodeExec_isSome (abi : Abi) (payload : SpawnPayload) (fds : SpawnFdList) :
    ∃ r, decodeExec abi payload fds = some r := by
  unfold decodeExec
  cases execHead payload with
  | error e => exact ⟨_, rfl⟩
  | ok x =>
    obtain ⟨⟨id, name⟩, body⟩ := x
    obtain ⟨r, hr⟩ := execRun_isSome abi body { p := PreparedChildProcess.init abi, fds := fds }
    simp only [hr]
    cases r with
    | error e => exact ⟨_, rfl⟩
    | ok st => exact ⟨_, rfl⟩

theorem execRun_append (abi : Abi) (pre suf : SpawnPayload) (st st' : ExecLocals)
    (h : execRun abi pre st = some (.ok st')) :
    execRun abi (pre ++ suf) st = execRun abi suf st' := by
  generalize hn : pre.length = n
  induction n using Nat.strong_induction_on generalizing pre st with
  | _ n ih =>
    cases pre with
    | nil =>
      rw [execRun_nil] at h
      simp only [Option.some.injEq, Except.ok.injEq] at h
      subst h
      rfl
    | cons b tl =>
      rw [execRun_cons] at h
      rw [List.cons_append, execRun_cons]
      cases hc : execCommand abi b st tl with
      | error e => simp [hc] at h
      | ok r =>
        obtain ⟨st1, rest⟩ := r
        simp only [hc] at h
        obtain ⟨_, hs⟩ := execCommand_stable abi b st tl st1 rest hc
        rw [hs suf]
        have hlen := execCommand_length hc
        simp only [List.length_cons] at hn
        exact ih rest.length (by omega) rest st1 h rfl

/-! ## Connection teardown and `SendExit` -/

theorem OnlyDrops.refl (s : SpawnServerProcess) : s.OnlyDrops s :=
  ⟨rfl, rfl, rfl, List.Sublist.refl _, List.Sublist.refl _⟩

theorem OnlyDrops.trans {s1 s2 s3 : SpawnServerProcess} (h12 : s1.OnlyDrops s2)
    (h23 : s2.OnlyDrops s3) : s1.OnlyDrops s3 :=
  ⟨h23.1.trans h12.1, h23.2.1.trans h12.2.1, h23.2.2.1.trans h12.2.2.1,
    h23.2.2.2.1.trans h12.2.2.2.1, h23.2.2.2.2.trans h12.2.2.2.2⟩

theorem Kill_onlyDrops (s : SpawnServerProcess) (pid signo : Int) :
    s.OnlyDrops (s.Kill pid signo) := by
  refine ⟨?_, ?_, ?_, List.Sublist.refl _, ?_⟩
  · simp [SpawnServerProcess.Kill, delivered, Effect.delivery]
  · simp [SpawnServerProcess.Kill, spawns, Effect.spawn]
  · simp [SpawnServerProcess.Kill, registryAdds, Effect.registryAdd]
  · simp only [SpawnServerProcess.Kill, ChildProcessRegistry.Kill]
    split
    · exact List.filter_sublist _
    · exact List.Sublist.refl _

theorem destroy_onlyDrops (c : SpawnServerConnection) (s : SpawnServerProcess) :
    s.OnlyDrops (SpawnServerConnection.destroy s c) := by
  unfold SpawnServerConnection.destroy
  generalize c.children = l
  induction l generalizing s with
  | nil => exact OnlyDrops.refl s
  | cons x xs ih => exact OnlyDrops.trans (Kill_onlyDrops s _ _) (ih _)

theorem Quit_onlyDrops (s : SpawnServerProcess) : s.OnlyDrops s.Quit := by
  refine ⟨?_, ?_, ?_, List.Sublist.refl _, List.Sublist.refl _⟩
  · simp [SpawnServerProcess.Quit, delivered, Effect.delivery]
  · simp [SpawnServerProcess.Quit, spawns, Effect.spawn]
  · simp [SpawnServerProcess.Quit, registryAdds, Effect.registryAdd]

theorem RemoveConnection_onlyDrops (s : SpawnServerProcess) (self : Nat) :
    s.OnlyDrops (s.RemoveConnection self) := by
  unfold SpawnServerProcess.RemoveConnection
  split
  · exact OnlyDrops.refl s
  · rename_i c _
    have h1 : s.OnlyDrops { s with connections := s.connections.eraseP (fun c => c.socket = self) } :=
      ⟨rfl, rfl, rfl, List.eraseP_sublist _, List.Sublist.refl _⟩
    have h2 := OnlyDrops.trans h1 (destroy_onlyDrops c _)
    simp only
    split
    · exact OnlyDrops.trans h2 (Quit_onlyDrops _)
    · exact h2

theorem emit_Send_onlyDrops (s : SpawnServerProcess) (self : Nat) (m : List Nat) (r : SendResult)
    (hr : r ≠ .ok) : s.OnlyDrops (s.emit (.Send self m r)) := by
  refine ⟨?_, ?_, ?_, List.Sublist.refl _, List.Sublist.refl _⟩
  · cases r <;> simp_all [SpawnServerProcess.emit, delivered, Effect.delivery]
  · simp [SpawnServerProcess.emit, spawns, Effect.spawn]
  · simp [SpawnServerProcess.emit, registryAdds, Effect.registryAdd]

theorem emit_ppoll_onlyDrops (s : SpawnServerProcess) (self : Nat) (b : Bool) :
    s.OnlyDrops (s.emit (.ppoll self b)) := by
  refine ⟨?_, ?_, ?_, List.Sublist.refl _, List.Sublist.refl _⟩
  · simp [SpawnServerProcess.emit, delivered, Effect.delivery]
  · simp [SpawnServerProcess.emit, spawns, Effect.spawn]
  · simp [SpawnServerProcess.emit, registryAdds, Effect.registryAdd]

/-- `SendExit` delivers its message exactly once when the transport lets it
and then changes nothing else; otherwise nothing is delivered and the
connection is torn down. -/
theorem SendExit_spec (abi : Abi) (t : Transport) (s : SpawnServerProcess) (self : Nat)
    (id status : Int) :
    let s' := SpawnServerConnection.SendExit abi t s self id status
    delivered s'.trace =
        delivered s.trace ++ (if t.delivers then [(self, exitMessage abi id status)] else []) ∧
      spawns s'.trace = spawns s.trace ∧
      registryAdds s'.trace = registryAdds s.trace ∧
      s'.connections.Sublist s.connections ∧
      s'.child_process_registry.children.Sublist s.child_process_registry.children ∧
      (t.delivers = true → s'.connections = s.connections ∧
        s'.child_process_registry = s.child_process_registry) := by
  obtain ⟨first, ppoll, retry⟩ := t
  have fail : ∀ s0 : SpawnServerProcess, s.OnlyDrops s0 →
      delivered (s0.RemoveConnection self).trace = delivered s.trace ++ [] ∧
      spawns (s0.RemoveConnection self).trace = spawns s.trace ∧
      registryAdds (s0.RemoveConnection self).trace = registryAdds s.trace ∧
      (s0.RemoveConnection self).connections.Sublist s.connections ∧
      (s0.RemoveConnection self).child_process_registry.children.Sublist
        s.child_process_registry.children := by
    intro s0 h0
    have h := OnlyDrops.trans h0 (RemoveConnection_onlyDrops s0 self)
    simpa using h
  have good : ∀ s0 : SpawnServerProcess, s.OnlyDrops s0 → s0.connections = s.connections →
      s0.child_process_registry = s.child_process_registry →
      let s1 := s0.emit (.Send self (exitMessage abi id status) .ok)
      delivered s1.trace = delivered s.trace ++ [(self, exitMessage abi id status)] ∧
      spawns s1.trace = spawns s.trace ∧
      registryAdds s1.trace = registryAdds s.trace ∧
      s1.connections.Sublist s.connections ∧
      s1.child_process_registry.children.Sublist s.child_process_registry.children ∧
      (s1.connections = s.connections ∧ s1.child_process_registry = s.child_process_registry) := by
    intro s0 h0 hc hr
    obtain ⟨d, sp, ra, -, -⟩ := h0
    refine ⟨?_, ?_, ?_, ?_, ?_, ?_, ?_⟩
    · simp [SpawnServerProcess.emit, delivered, Effect.delivery] at d ⊢
      rw [d]
    · simp [SpawnServerProcess.emit, spawns, Effect.spawn] at sp ⊢
      rw [sp]
    · simp [SpawnServerProcess.emit, registryAdds, Effect.registryAdd] at ra ⊢
      rw [ra]
    · simp [SpawnServerProcess.emit, hc]
    · simp [SpawnServerProcess.emit, hr]
    · simp [SpawnServerProcess.emit, hc]
    · simp [SpawnServerProcess.emit, hr]
  cases first with
  | ok =>
    have := good s (OnlyDrops.refl s) rfl rfl
    simpa [SpawnServerConnection.SendExit, Transport.delivers] using this
  | error =>
    have := fail _ (emit_Send_onlyDrops s self (exitMessage abi id status) .error (by decide))
    simpa [SpawnServerConnection.SendExit, Transport.delivers] using this
  | EAGAIN =>
    have h1 := emit_Send_onlyDrops s self (exitMessage abi id status) .EAGAIN (by decide)
    have h2 := OnlyDrops.trans h1 (emit_ppoll_onlyDrops _ self ppoll)
    cases ppoll with
    | false =>
      have := fail _ h2
      simpa [SpawnServerConnection.SendExit, Transport.delivers] using this
    | true =>
      cases retry with
      | ok =>
        have := good _ h2 rfl rfl
        simpa [SpawnServerConnection.SendExit, Transport.delivers] using this
      | EAGAIN =>
        have := fail _ (OnlyDrops.trans h2 (emit_Send_onlyDrops _ self (exitMessage abi id status) .EAGAIN (by decide)))
        simpa [SpawnServerConnection.SendExit, Transport.delivers] using this
      | error =>
        have := fail _ (OnlyDrops.trans h2 (emit_Send_onlyDrops _ self (exitMessage abi id status) .error (by decide)))
        simpa [SpawnServerConnection.SendExit, Transport.delivers] using this

/-! ## `SpawnChild` -/

/-- Claim C1: an EXEC request without uid/gid on a server without default
uid/gid makes `SpawnChild` return normally after exactly one
`SendExit(id, W_EXITCODE(0xff, 0))` on the unchanged state (status 0xff00:
exit code 255, signal 0).  That call delivers the EXIT message for `id` once
if the transport lets it and never more than once; `SpawnChildProcess` is not
called, nothing is added to the registry, and every connection that remains
has the child set it had before. -/
theorem SpawnChild_without_uid_gid (ctx : Context) (o : Oracle) (s : SpawnServerProcess)
    (self : Nat) (id : Int) (name : CString) (p : PreparedChildProcess)
    (hp : ctx.abi.IsEmpty p.uid_gid = true)
    (hd : ctx.abi.IsEmpty ctx.config.default_uid_gid = true) :
    ∃ s', SpawnServerConnection.SpawnChild ctx o s self id name p = .ok s' ∧
      s' = SpawnServerConnection.SendExit ctx.abi o.transport s self id (W_EXITCODE 0xff 0) ∧
      W_EXITCODE 0xff 0 = 0xff00 ∧
      delivered s'.trace = delivered s.trace ++
        (if o.transport.delivers then [(self, exitMessage ctx.abi id 0xff00)] else []) ∧
      spawns s'.trace = spawns s.trace ∧
      registryAdds s'.trace = registryAdds s.trace ∧
      s'.connections.Sublist s.connections ∧
      s'.child_process_registry.children.Sublist s.child_process_registry.children := by
  have hw : W_EXITCODE 0xff 0 = 0xff00 := by decide
  refine ⟨_, ?_, rfl, hw, ?_⟩
  · simp [SpawnServerConnection.SpawnChild, verifyUidGid, hp, hd]
  · have h := SendExit_spec ctx.abi o.transport s self id (W_EXITCODE 0xff 0)
    rw [hw] at h ⊢
    exact ⟨h.1, h.2.1, h.2.2.1, h.2.2.2.1, h.2.2.2.2.1⟩

/-- Witness of C1: the request of the scenario (id 1, name "echo", no uid/gid)
on connection 3 of a server without default uid/gid. -/
theorem SpawnChild_without_uid_gid_witness :
    ∃ s', SpawnServerConnection.SpawnChild sampleContext sampleOracle sampleServer 3 1
        [101, 99, 104, 111] anonymousChild = .ok s' ∧
      s' = SpawnServerConnection.SendExit sampleAbi sampleOracle.transport sampleServer 3 1
        (W_EXITCODE 0xff 0) ∧
      W_EXITCODE 0xff 0 = 0xff00 ∧
      delivered s'.trace = delivered sampleServer.trace ++
        (if sampleOracle.transport.delivers then [(3, exitMessage sampleAbi 1 0xff00)] else []) ∧
      spawns s'.trace = spawns sampleServer.trace ∧
      registryAdds s'.trace = registryAdds sampleServer.trace ∧
      s'.connections.Sublist sampleServer.connections ∧
      s'.child_process_registry.children.Sublist sampleServer.child_process_registry.children :=
  SpawnChild_without_uid_gid sampleContext sampleOracle sampleServer 3 1 [101, 99, 104, 111]
    anonymousChild (by decide) (by decide)

theorem SpawnChild_spawn_path (ctx : Context) (o : Oracle) (s : SpawnServerProcess)
    (self : Nat) (id : Int) (name : CString) (p : PreparedChildProcess)
    (hv : verifyUidGid ctx p = .ok ())
    (hne : (ctx.abi.IsEmpty p.uid_gid && ctx.abi.IsEmpty ctx.config.default_uid_gid) = false) :
    SpawnServerConnection.SpawnChild ctx o s self id name p =
      match o.spawn (applyDefault ctx p) with
      | none =>
        .ok (SpawnServerConnection.SendExit ctx.abi o.transport
          (s.emit (.SpawnChildProcess (applyDefault ctx p) none)) self id (W_EXITCODE 0xff 0))
      | some pid =>
        .ok { connections := s.connections.map (fun c =>
                if c.socket = self then
                  { c with
                    children := ChildIdMap.insert c.children
                      { connection := self, id := id, pid := pid, name := name } }
                else c),
              child_process_registry := s.child_process_registry.Add pid name
                { connection := self, id := id, pid := pid, name := name },
              trace := s.trace ++ [.SpawnChildProcess (applyDefault ctx p) (some pid),
                .RegistryAdd pid name { connection := self, id := id, pid := pid, name := name }] } := by
  unfold SpawnServerConnection.SpawnChild
  simp only [hv, hne]
  cases hsp : o.spawn (applyDefault ctx p) with
  | none => simp
  | some pid =>
    simp [SpawnServerProcess.emit, SpawnServerProcess.setChildren]

/-- Counterexample to C3 as stated: the spawn attempt fails and the socket is
broken, so the one `SendExit` tears connection 3 down; its child set (which
held the record of pid 50) and the registry entry of pid 50 are gone, and
pid 50 was sent `SIGTERM`. -/
theorem SpawnChild_spawn_error_counterexample :
    verifyUidGid sampleContext explicitChild = .ok () ∧
    failingOracle.spawn (applyDefault sampleContext explicitChild) = none ∧
    sampleServer.connection 3 = some { socket := 3, children := [sampleChild] } ∧
    sampleServer.child_process_registry.children =
      [{ pid := 50, name := [97], listener := sampleChild }] ∧
    ∃ s', SpawnServerConnection.SpawnChild sampleContext failingOracle sampleServer 3 7 [120]
        explicitChild = .ok s' ∧
      s'.connection 3 = none ∧
      s'.child_process_registry.children = [] ∧
      s'.child_process_registry.signals = [(50, SIGTERM)] :=
  ⟨rfl, rfl, by decide, rfl, _, rfl, by decide, by decide, by decide⟩

/-- Claim C3, amended: when the policy checks pass and `SpawnChildProcess`
throws, `SpawnChild` returns normally after exactly one
`SendExit(id, W_EXITCODE(0xff, 0))`, which delivers at most one EXIT message
(exactly one when the transport lets it); no child record is created (no
registry `Add`, no connection gains a record); and when the EXIT message is
delivered, the connections with their child sets and the Child Registry are
unchanged. -/
theorem SpawnChild_spawn_error (ctx : Context) (o : Oracle) (s : SpawnServerProcess)
    (self : Nat) (id : Int) (name : CString) (p : PreparedChildProcess)
    (hv : verifyUidGid ctx p = .ok ())
    (hne : (ctx.abi.IsEmpty p.uid_gid && ctx.abi.IsEmpty ctx.config.default_uid_gid) = false)
    (hs : o.spawn (applyDefault ctx p) = none) :
    ∃ s', SpawnServerConnection.SpawnChild ctx o s self id name p = .ok s' ∧
      s' = SpawnServerConnection.SendExit ctx.abi o.transport
        (s.emit (.SpawnChildProcess (applyDefault ctx p) none)) self id (W_EXITCODE 0xff 0) ∧
      delivered s'.trace = delivered s.trace ++
        (if o.transport.delivers then [(self, exitMessage ctx.abi id 0xff00)] else []) ∧
      spawns s'.trace = spawns s.trace ++ [(applyDefault ctx p, none)] ∧
      registryAdds s'.trace = registryAdds s.trace ∧
      s'.connections.Sublist s.connections ∧
      s'.child_process_registry.children.Sublist s.child_process_registry.children ∧
      (o.transport.delivers = true →
        s'.connections = s.connections ∧ s'.child_process_registry = s.child_process_registry) := by
  have hw : W_EXITCODE 0xff 0 = 0xff00 := by decide
  rw [SpawnChild_spawn_path ctx o s self id name p hv hne, hs]
  refine ⟨_, rfl, rfl, ?_⟩
  have h := SendExit_spec ctx.abi o.transport
    (s.emit (.SpawnChildProcess (applyDefault ctx p) none)) self id (W_EXITCODE 0xff 0)
  rw [hw] at h ⊢
  obtain ⟨h1, h2, h3, h4, h5, h6⟩ := h
  refine ⟨?_, ?_, ?_, h4, h5, h6⟩
  · rw [h1]; simp [SpawnServerProcess.emit, delivered, Effect.delivery]
  · rw [h2]; simp [SpawnServerProcess.emit, spawns, Effect.spawn]
  · rw [h3]; simp [SpawnServerProcess.emit, registryAdds, Effect.registryAdd]

/-- Witness of the amended C3: spawn failure on a working socket. -/
theorem SpawnChild_spawn_error_witness :
    ∃ s', SpawnServerConnection.SpawnChild sampleContext
        { spawn := fun _ => none, transport := sampleOracle.transport } sampleServer 3 7 [120]
        explicitChild = .ok s' ∧
      s' = SpawnServerConnection.SendExit sampleContext.abi sampleOracle.transport
        (sampleServer.emit (.SpawnChildProcess (applyDefault sampleContext explicitChild) none))
        3 7 (W_EXITCODE 0xff 0) ∧
      delivered s'.trace = delivered sampleServer.trace ++
        (if sampleOracle.transport.delivers then [(3, exitMessage sampleContext.abi 7 0xff00)]
         else []) ∧
      spawns s'.trace = spawns sampleServer.trace ++
        [(applyDefault sampleContext explicitChild, none)] ∧
      registryAdds s'.trace = registryAdds sampleServer.trace ∧
      s'.connections.Sublist sampleServer.connections ∧
      s'.child_process_registry.children.Sublist sampleServer.child_process_registry.children ∧
      (sampleOracle.transport.delivers = true →
        s'.connections = sampleServer.connections ∧
        s'.child_process_registry = sampleServer.child_process_registry) :=
  SpawnChild_spawn_error sampleContext { spawn := fun _ => none, transport := sampleOracle.transport }
    sampleServer 3 7 [120] explicitChild rfl (by decide) rfl

/-! ## The child set -/

theorem ChildIdMap.find_eq_none {m : ChildIdMap} {id : Int} (h : ChildIdMap.find m id = none) :
    ∀ x ∈ m, x.id ≠ id := by
  intro x hx heq
  unfold ChildIdMap.find at h
  rw [List.find?_eq_none] at h
  have := h x hx
  simp [heq] at this

theorem ChildIdMap.insert_fresh (m : ChildIdMap) (c : SpawnServerChild)
    (h : ∀ x ∈ m, x.id ≠ c.id) :
    ∃ before after, m = before ++ after ∧ ChildIdMap.insert m c = before ++ c :: after := by
  induction m with
  | nil => exact ⟨[], [], rfl, rfl⟩
  | cons x xs ih =>
    unfold ChildIdMap.insert
    by_cases h1 : c.id < x.id
    · exact ⟨[], x :: xs, rfl, by simp [h1]⟩
    · have hx : x.id ≠ c.id := h x (List.mem_cons_self _ _)
      have h2 : x.id < c.id := by omega
      obtain ⟨b, a, hm, hi⟩ := ih (fun y hy => h y (List.mem_cons_of_mem _ hy))
      exact ⟨x :: b, a, by rw [hm]; rfl, by simp [h1, h2, hi]⟩

theorem connection_setChildren (s : SpawnServerProcess) (self : Nat) (f : ChildIdMap → ChildIdMap)
    (c : SpawnServerConnection) (h : s.connection self = some c) :
    (s.setChildren self f).connection self = some { c with children := f c.children } := by
  unfold SpawnServerProcess.connection SpawnServerProcess.setChildren at *
  simp only
  generalize s.connections = l at h
  induction l with
  | nil => simp at h
  | cons x xs ih =>
    by_cases hx : x.socket = self
    · simp [List.find?, hx] at h ⊢
      subst h
      exact ⟨hx.symm, rfl⟩
    · simp only [List.find?, hx, decide_False] at h
      simp [List.find?, hx, ih h]

/-- Claim C4: when the policy checks pass, the id is not the id of a record in
the connection's child set and `SpawnChildProcess` returns pid `P`,
`SpawnChild` creates the one record (id, P, name), adds it to the
connection's child set (the records before and after it are the old ones, in
their order), registers P with that record as listener in the Child Registry
behind the existing entries, and makes no transmission; the trace grows by
the spawn call and the registry `Add` only, and every other connection is
unchanged. -/
theorem SpawnChild_success (ctx : Context) (o : Oracle) (s : SpawnServerProcess)
    (self : Nat) (id : Int) (name : CString) (p : PreparedChildProcess)
    (c : SpawnServerConnection) (P : Int)
    (hv : verifyUidGid ctx p = .ok ())
    (hne : (ctx.abi.IsEmpty p.uid_gid && ctx.abi.IsEmpty ctx.config.default_uid_gid) = false)
    (hc : s.connection self = some c)
    (hid : ChildIdMap.find c.children id = none)
    (hs : o.spawn (applyDefault ctx p) = some P) :
    ∃ s', SpawnServerConnection.SpawnChild ctx o s self id name p = .ok s' ∧
      (∃ before after, c.children = before ++ after ∧
        s'.connection self = some { c with children :=
          before ++ { connection := self, id := id, pid := P, name := name } :: after }) ∧
      s'.connections = s.connections.map (fun x =>
        if x.socket = self then
          { x with
            children := ChildIdMap.insert x.children
              { connection := self, id := id, pid := P, name := name } }
        else x) ∧
      s'.child_process_registry = { s.child_process_registry with
        children := s.child_process_registry.children ++
          [{ pid := P, name := name,
             listener := { connection := self, id := id, pid := P, name := name } }] } ∧
      s'.trace = s.trace ++ [.SpawnChildProcess (applyDefault ctx p) (some P),
        .RegistryAdd P name { connection := self, id := id, pid := P, name := name }] ∧
      delivered s'.trace = delivered s.trace := by
  rw [SpawnChild_spawn_path ctx o s self id name p hv hne, hs]
  refine ⟨_, rfl, ?_, rfl, rfl, rfl, ?_⟩
  · obtain ⟨before, after, hm, hi⟩ := ChildIdMap.insert_fresh c.children
      { connection := self, id := id, pid := P, name := name } (ChildIdMap.find_eq_none hid)
    refine ⟨before, after, hm, ?_⟩
    have := connection_setChildren s self
      (fun children => ChildIdMap.insert children
        { connection := self, id := id, pid := P, name := name }) c hc
    simp only [SpawnServerProcess.connection, SpawnServerProcess.setChildren] at this ⊢
    rw [this, hi]
  · simp [delivered, Effect.delivery]

/-- Witness of C4: a request with id 7 on connection 3, which owns only the
record with id 5. -/
theorem SpawnChild_success_witness :
    ∃ s', SpawnServerConnection.SpawnChild sampleContext sampleOracle sampleServer 3 7 [120]
        explicitChild = .ok s' ∧
      (∃ before after,
        ({ socket := 3, children := [sampleChild] } : SpawnServerConnection).children
          = before ++ after ∧
        s'.connection 3 = some { ({ socket := 3, children := [sampleChild] } : SpawnServerConnection)
          with children := before ++ { connection := 3, id := 7, pid := 100, name := [120] } :: after }) ∧
      s'.connections = sampleServer.connections.map (fun x =>
        if x.socket = 3 then
          { x with
            children := ChildIdMap.insert x.children
              { connection := 3, id := 7, pid := 100, name := [120] } }
        else x) ∧
      s'.child_process_registry = { sampleServer.child_process_registry with
        children := sampleServer.child_process_registry.children ++
          [{ pid := 100, name := [120],
             listener := { connection := 3, id := 7, pid := 100, name := [120] } }] } ∧
      s'.trace = sampleServer.trace ++
        [.SpawnChildProcess (applyDefault sampleContext explicitChild) (some 100),
         .RegistryAdd 100 [120] { connection := 3, id := 7, pid := 100, name := [120] }] ∧
      delivered s'.trace = delivered sampleServer.trace :=
  SpawnChild_success sampleContext sampleOracle sampleServer 3 7 [120] explicitChild
    { socket := 3, children := [sampleChild] } 100 rfl (by decide) (by decide) (by decide) rfl

/-! ## Evaluations -/

/-- Claim C5 fails on the code: two EXEC messages with the same id 1 on
connection 3, both spawned (pids 100 and 101), leave two live children of the
connection that carry id 1, both registered with the Child Registry; the
second record is not in the connection's child set, because the unique
insertion `children.insert(*child)` does nothing for an id already present
and its result is not checked. -/
theorem duplicate_id_live_children :
    ∃ s', run sampleContext freshServer
        [.read 3 (some (execMessage, [])) sampleOracle,
         .read 3 (some (execMessage, [])) secondOracle] = some s' ∧
      s'.liveChildren 3 =
        [{ connection := 3, id := 1, pid := 100, name := [120] },
         { connection := 3, id := 1, pid := 101, name := [120] }] ∧
      s'.connection 3 =
        some { socket := 3, children := [{ connection := 3, id := 1, pid := 100, name := [120] }] } :=
  ⟨_, rfl, by decide, by decide⟩

/-- Claim C6 fails on the code: an EXEC payload with an RLIMIT sub-command whose
index byte is 200, on a table of 16 entries, decodes without error; the limit
is stored through `rlimits.values[200]`, outside the table, and `SpawnChild`
is called. -/
theorem rlimit_index_unchecked :
    (∃ r, decodeExec sampleAbi rlimitMessage.tail [] = some (.ok r) ∧
      r.locals.p.rlimits.values = List.replicate 16 none ∧
      r.locals.p.rlimits.overrun = [(200, [7, 7, 7, 7, 7, 7, 7, 7, 7, 7, 7, 7, 7, 7, 7, 7])]) ∧
    ∃ s', SpawnServerConnection.ReadEventCallback sampleContext sampleOracle freshServer 3
        (some (rlimitMessage, [])) = some s' ∧
      (spawns s'.trace).length = 1 :=
  ⟨⟨_, rfl, by decide, by decide⟩, _, rfl, by decide⟩

/-- Claim C7 fails on the code for a surplus: an EXEC message without any
descriptor-taking sub-command that arrives with one descriptor decodes
without error, the descriptor is left in the list, and the child is spawned.
A shortfall (STDIN without a descriptor) is MalformedPayload and spawns
nothing. -/
theorem exec_surplus_descriptor_accepted :
    (∃ r, decodeExec sampleAbi execMessage.tail [9] = some (.ok r) ∧ r.locals.fds = [9]) ∧
    (∃ s', SpawnServerConnection.HandleMessage sampleContext sampleOracle freshServer 3 1
        execMessage.tail [9] = some (.ok s') ∧
      (spawns s'.trace).length = 1 ∧
      s'.liveChildren 3 = [{ connection := 3, id := 1, pid := 100, name := [120] }]) ∧
    SpawnServerConnection.HandleMessage sampleContext sampleOracle freshServer 3 1
        stdinMessage.tail [] = some (.error .MalformedSpawnPayloadError) :=
  ⟨⟨_, rfl, by decide⟩, ⟨_, rfl, by decide, by decide⟩, rfl⟩

/-! ## Postconditions of readers -/

theorem Reader.post_pure {α : Type} {a : α} {Q : α → Prop} (h : Q a) :
    Reader.Post (pure a : Reader α) Q := by
  intro payload v rest hv
  rw [Reader.pure_apply] at hv
  simp only [Except.ok.injEq, Prod.mk.injEq] at hv
  rw [← hv.1]
  exact h

theorem Reader.post_fail {α : Type} {e : SpawnError} {Q : α → Prop} :
    Reader.Post (Reader.fail e : Reader α) Q := by
  intro payload v rest hv
  simp [Reader.fail] at hv

theorem Reader.post_bind {α β : Type} {f : Reader α} {g : α → Reader β} {Q : β → Prop}
    (h : ∀ a, Reader.Post (g a) Q) : Reader.Post (f >>= g) Q := by
  intro payload v rest hv
  rw [Reader.bind_apply] at hv
  cases hf : f payload with
  | error e => simp [hf] at hv
  | ok r =>
    obtain ⟨a, mid⟩ := r
    simp only [hf] at hv
    exact h a mid v rest hv

theorem Reader.post_ite {α : Type} {c : Prop} [Decidable c] {f g : Reader α} {Q : α → Prop}
    (hf : c → Reader.Post f Q) (hg : ¬ c → Reader.Post g Q) :
    Reader.Post (if c then f else g) Q := by
  by_cases h : c
  · simpa [h] using hf h
  · simpa [h] using hg h

/-! ## Descriptors -/

theorem takeFd_post (cmd : SpawnExecCommand) (st : ExecLocals)
    (set : PreparedChildProcess → Nat → PreparedChildProcess) :
    Reader.Post (takeFd cmd st set) (fun st' =>
      ∃ fd, st.fds = fd :: st'.fds ∧ st'.fd_calls = st.fd_calls ++ [(cmd, fd)]) := by
  unfold takeFd
  cases hf : st.fds with
  | nil => exact Reader.post_fail
  | cons fd rest => exact Reader.post_pure ⟨fd, rfl, rfl⟩

theorem execCase_fds (abi : Abi) (cmd : SpawnExecCommand) (st : ExecLocals) :
    Reader.Post (execCase abi cmd st) (fun st' =>
      (st'.fds = st.fds ∧ st'.fd_calls = st.fd_calls) ∨
      (cmd.takesFd = true ∧
        ∃ fd, st.fds = fd :: st'.fds ∧ st'.fd_calls = st.fd_calls ++ [(cmd, fd)])) := by
  cases cmd <;> simp only [execCase] <;>
    first
    | exact fun payload v rest h => Or.inr ⟨rfl, takeFd_post _ _ _ payload v rest h⟩
    | exact Reader.post_pure (Or.inl ⟨rfl, rfl⟩)
    | exact Reader.post_bind fun _ => Reader.post_pure (Or.inl ⟨rfl, rfl⟩)
    | exact Reader.post_ite (fun _ => Reader.post_fail)
        (fun _ => Reader.post_bind fun _ => Reader.post_pure (Or.inl ⟨rfl, rfl⟩))
    | exact Reader.post_bind fun _ => Reader.post_bind fun _ =>
        Reader.post_pure (Or.inl ⟨rfl, rfl⟩)
    | exact Reader.post_bind fun _ => Reader.post_bind fun _ => Reader.post_bind fun _ =>
        Reader.post_bind fun _ => Reader.post_pure (Or.inl ⟨rfl, rfl⟩)

theorem execRun_fds (abi : Abi) (payload : SpawnPayload) (st st' : ExecLocals)
    (h : execRun abi payload st = some (.ok st')) :
    ∃ taken : List (SpawnExecCommand × Nat),
      st'.fd_calls = st.fd_calls ++ taken ∧
      st.fds = taken.map Prod.snd ++ st'.fds ∧
      ∀ c ∈ taken, c.1.takesFd = true := by
  generalize hn : payload.length = n
  induction n using Nat.strong_induction_on generalizing payload st with
  | _ n ih =>
    cases payload with
    | nil =>
      rw [execRun_nil] at h
      simp only [Option.some.injEq, Except.ok.injEq] at h
      subst h
      exact ⟨[], by simp, by simp, by simp⟩
    | cons b tl =>
      rw [execRun_cons] at h
      cases hc : execCommand abi b st tl with
      | error e => simp [hc] at h
      | ok r =>
        obtain ⟨st1, rest⟩ := r
        simp only [hc] at h
        have hlen := execCommand_length hc
        simp only [List.length_cons] at hn
        obtain ⟨taken, h1, h2, h3⟩ := ih rest.length (by omega) rest st1 h rfl
        have hstep : (st1.fds = st.fds ∧ st1.fd_calls = st.fd_calls) ∨
            (∃ c : SpawnExecCommand, c.takesFd = true ∧
              ∃ fd, st.fds = fd :: st1.fds ∧ st1.fd_calls = st.fd_calls ++ [(c, fd)]) := by
          cases hcm : abi.execCommand b with
          | none =>
            simp only [execCommand, hcm, Reader.pure_apply, Except.ok.injEq, Prod.mk.injEq] at hc
            rw [← hc.1]
            exact Or.inl ⟨rfl, rfl⟩
          | some c =>
            simp only [execCommand, hcm] at hc
            rcases execCase_fds abi c st tl st1 rest hc with h | h
            · exact Or.inl h
            · exact Or.inr ⟨c, h⟩
        rcases hstep with ⟨e1, e2⟩ | ⟨c, hcf, fd, e1, e2⟩
        · exact ⟨taken, by rw [h1, e2], by rw [← e1, h2], h3⟩
        · refine ⟨(c, fd) :: taken, ?_, ?_, ?_⟩
          · rw [h1, e2]; simp
          · rw [e1, h2]; simp
          · intro x hx
            rcases List.mem_cons.mp hx with rfl | hx
            · exact hcf
            · exact h3 x hx

theorem decodeExec_ok {abi : Abi} {payload : SpawnPayload} {fds : SpawnFdList} {r : ExecRequest}
    (h : decodeExec abi payload fds = some (.ok r)) :
    ∃ body, execHead payload = .ok ((r.id, r.name), body) ∧
      execRun abi body { p := PreparedChildProcess.init abi, fds := fds } = some (.ok r.locals) := by
  unfold decodeExec at h
  cases hh : execHead payload with
  | error e => simp [hh] at h
  | ok x =>
    obtain ⟨⟨id, name⟩, body⟩ := x
    simp only [hh] at h
    cases hr : execRun abi body { p := PreparedChildProcess.init abi, fds := fds } with
    | none => simp [hr] at h
    | some res =>
      cases res with
      | error e => simp [hr] at h
      | ok st =>
        simp only [hr, Option.some.injEq, Except.ok.injEq] at h
        subst h
        exact ⟨body, rfl, hr⟩

/-- Claim C8: when an EXEC message decodes, the descriptors passed to
`SetStdin/SetStdout/SetStderr/SetControl`, in the order of the calls (which
is the order of the sub-commands in the payload), followed by the
descriptors left over, are exactly the attached descriptors: the k-th call
receives the k-th descriptor, only STDIN, STDOUT, STDERR and CONTROL make
such calls, and with distinct attached descriptors no descriptor is passed
twice.  Each of the four sub-commands pops the front descriptor and stores
it in its own stream. -/
theorem descriptors_in_payload_order (abi : Abi) (payload : SpawnPayload) (fds : SpawnFdList)
    (r : ExecRequest) (h : decodeExec abi payload fds = some (.ok r)) :
    fds = r.locals.fd_calls.map Prod.snd ++ r.locals.fds ∧
    (∀ k, k < r.locals.fd_calls.length → (r.locals.fd_calls.map Prod.snd)[k]? = fds[k]?) ∧
    (∀ c ∈ r.locals.fd_calls, c.1.takesFd = true) ∧
    (fds.Nodup → (r.locals.fd_calls.map Prod.snd).Nodup) ∧
    (∀ (t : Nat) (st : ExecLocals) (fd : Nat) (rest : SpawnFdList) (bytes : SpawnPayload),
      st.fds = fd :: rest →
      (abi.execCommand t = some .STDIN → execCommand abi t st bytes =
        .ok ({ p := { st.p with stdin_fd := some fd }, fds := rest,
               fd_calls := st.fd_calls ++ [(.STDIN, fd)] }, bytes)) ∧
      (abi.execCommand t = some .STDOUT → execCommand abi t st bytes =
        .ok ({ p := { st.p with stdout_fd := some fd }, fds := rest,
               fd_calls := st.fd_calls ++ [(.STDOUT, fd)] }, bytes)) ∧
      (abi.execCommand t = some .STDERR → execCommand abi t st bytes =
        .ok ({ p := { st.p with stderr_fd := some fd }, fds := rest,
               fd_calls := st.fd_calls ++ [(.STDERR, fd)] }, bytes)) ∧
      (abi.execCommand t = some .CONTROL → execCommand abi t st bytes =
        .ok ({ p := { st.p with control_fd := some fd }, fds := rest,
               fd_calls := st.fd_calls ++ [(.CONTROL, fd)] }, bytes))) := by
  obtain ⟨body, _, hrun⟩ := decodeExec_ok h
  obtain ⟨taken, h1, h2, h3⟩ := execRun_fds abi body _ _ hrun
  simp only [List.nil_append] at h1 h2
  rw [← h1] at h2 h3
  refine ⟨h2, ?_, h3, ?_, ?_⟩
  · intro k hk
    conv_rhs => rw [h2]
    rw [List.getElem?_append_left (by simpa using hk)]
  · intro hnd
    rw [h2] at hnd
    exact (List.nodup_append.mp hnd).1
  · intro t st fd rest bytes hfds
    refine ⟨?_, ?_, ?_, ?_⟩ <;> intro ht <;>
      simp [execCommand, ht, execCase, takeFd, hfds, SpawnFdList.Get, Reader.pure_apply]

/-- Witness of C8: STDOUT then STDIN with the descriptors 9 and 8 attached. -/
theorem descriptors_in_payload_order_witness :
    ∃ r, decodeExec sampleAbi redirectMessage.tail [9, 8] = some (.ok r) ∧
      r.locals.fd_calls = [(.STDOUT, 9), (.STDIN, 8)] ∧
      r.locals.p.stdout_fd = some 9 ∧ r.locals.p.stdin_fd = some 8 ∧
      [9, 8] = r.locals.fd_calls.map Prod.snd ++ r.locals.fds :=
  ⟨_, rfl, by decide, by decide, by decide,
    (descriptors_in_payload_order sampleAbi redirectMessage.tail [9, 8] _ rfl).1⟩

/-! ## The UID_GID sub-command -/

theorem ReadT_append (n : Nat) (a b : List Nat) (h : a.length = n) :
    SpawnPayload.ReadT n (a ++ b) = .ok (a, b) := by
  unfold SpawnPayload.ReadT
  have h1 : ¬ (a ++ b).length < n := by rw [List.length_append]; omega
  rw [if_neg h1, ← h, List.take_left, List.drop_left]

theorem ReadGroups_enough (n i : Nat) (groups : List Nat) (rest : SpawnPayload)
    (h : 4 * n ≤ rest.length) :
    ∃ groups', groups'.length = groups.length ∧
      UidGid.ReadGroups n i groups rest = .ok (groups', rest.drop (4 * n)) := by
  induction n generalizing i groups rest with
  | zero => exact ⟨groups, rfl, by simp [UidGid.ReadGroups, Reader.pure_apply]⟩
  | succ n ih =>
    have h4 : ¬ rest.length < 4 := by omega
    have hd : 4 * n ≤ (rest.drop 4).length := by rw [List.length_drop]; omega
    obtain ⟨g, hg, hr⟩ := ih (i + 1) (groups.set i (leValue (rest.take 4))) (rest.drop 4) hd
    refine ⟨g, by rw [hg, List.length_set], ?_⟩
    unfold UidGid.ReadGroups
    rw [Reader.bind_apply]
    simp only [SpawnPayload.ReadT, h4, if_false]
    rw [hr, List.drop_drop]
    congr 3
    omega

theorem UidGid_Read_layout (abi : Abi) (uid_gid : UidGid) (uid gid : List Nat) (n : Nat)
    (rest : SpawnPayload) (hu : uid.length = 4) (hg : gid.length = 4) :
    UidGid.Read abi uid_gid (uid ++ (gid ++ n :: rest)) =
      if n > abi.groups_max_size then .error .MalformedSpawnPayloadError
      else
        match UidGid.ReadGroups n 0 uid_gid.groups rest with
        | .error e => .error e
        | .ok (groups, rest') =>
          .ok ({ uid := leValue uid, gid := leValue gid,
                 groups := if n < abi.groups_max_size then groups.set n 0 else groups }, rest') := by
  unfold UidGid.Read
  rw [Reader.bind_apply, ReadT_append 4 uid _ hu]
  simp only
  rw [Reader.bind_apply, ReadT_append 4 gid _ hg]
  simp only
  rw [Reader.bind_apply]
  simp only [SpawnPayload.ReadByte]
  by_cases hn : n > abi.groups_max_size
  · simp [hn, Reader.fail]
  · simp only [hn, if_false]
    rw [Reader.bind_apply]
    cases UidGid.ReadGroups n 0 uid_gid.groups rest with
    | error e => rfl
    | ok x => rfl

theorem execHead_stable : Reader.Stable execHead :=
  Reader.stable_bind ReadInt_stable fun _ =>
    Reader.stable_bind ReadString_stable fun _ => Reader.stable_pure _

theorem decodeExec_layout (abi : Abi) (head body : SpawnPayload) (fds : SpawnFdList) (id : Int)
    (name : CString) (hhead : execHead head = .ok ((id, name), [])) :
    decodeExec abi (head ++ body) fds =
      match execRun abi body { p := PreparedChildProcess.init abi, fds := fds } with
      | none => none
      | some (.error e) => some (.error e)
      | some (.ok st) => some (.ok { id := id, name := name, locals := st }) := by
  have h := (execHead_stable head (id, name) [] hhead).2 body
  unfold decodeExec
  rw [h]
  rfl

/-- Claim C9: in an EXEC payload, a UID_GID sub-command whose `n_groups` byte
exceeds the capacity of the group array fails with
`MalformedSpawnPayloadError` whatever follows the byte (no group entry is
read), so decoding the message fails, `SpawnChild` is not reached and
`ReadEventCallback` leaves the server state as it was; with `n_groups` up to
and including the capacity and four bytes per group present, the
sub-command is read successfully and consumes exactly those bytes. -/
theorem uid_gid_group_count (ctx : Context) (o : Oracle) (s : SpawnServerProcess) (self : Nat)
    (cmd : Nat) (head pre : SpawnPayload) (fds : SpawnFdList) (id : Int) (name : CString)
    (st : ExecLocals) (t : Nat) (uid gid : List Nat) (n : Nat) (rest : SpawnPayload)
    (hcmd : ctx.abi.requestCommand cmd = some .EXEC)
    (hhead : execHead head = .ok ((id, name), []))
    (hpre : execRun ctx.abi pre { p := PreparedChildProcess.init ctx.abi, fds := fds }
      = some (.ok st))
    (ht : ctx.abi.execCommand t = some .UID_GID)
    (hu : uid.length = 4) (hg : gid.length = 4) :
    (ctx.abi.groups_max_size < n →
      UidGid.Read ctx.abi st.p.uid_gid (uid ++ (gid ++ n :: rest))
        = .error .MalformedSpawnPayloadError ∧
      decodeExec ctx.abi (head ++ (pre ++ t :: (uid ++ (gid ++ n :: rest)))) fds
        = some (.error .MalformedSpawnPayloadError) ∧
      SpawnServerConnection.HandleExecMessage ctx o s self
        (head ++ (pre ++ t :: (uid ++ (gid ++ n :: rest)))) fds
        = some (.error .MalformedSpawnPayloadError) ∧
      SpawnServerConnection.ReadEventCallback ctx o s self
        (some (cmd :: (head ++ (pre ++ t :: (uid ++ (gid ++ n :: rest)))), fds)) = some s) ∧
    (n ≤ ctx.abi.groups_max_size → 4 * n ≤ rest.length →
      ∃ groups, groups.length = st.p.uid_gid.groups.length ∧
        UidGid.Read ctx.abi st.p.uid_gid (uid ++ (gid ++ n :: rest))
          = .ok ({ uid := leValue uid, gid := leValue gid, groups := groups }, rest.drop (4 * n)) ∧
        execCommand ctx.abi t st (uid ++ (gid ++ n :: rest))
          = .ok ({ st with p := { st.p with
                    uid_gid := { uid := leValue uid, gid := leValue gid, groups := groups } } },
                 rest.drop (4 * n))) := by
  constructor
  · intro hn
    have hread : UidGid.Read ctx.abi st.p.uid_gid (uid ++ (gid ++ n :: rest))
        = .error .MalformedSpawnPayloadError := by
      rw [UidGid_Read_layout ctx.abi _ uid gid n rest hu hg]
      simp [hn]
    have hdec : decodeExec ctx.abi (head ++ (pre ++ t :: (uid ++ (gid ++ n :: rest)))) fds
        = some (.error .MalformedSpawnPayloadError) := by
      rw [decodeExec_layout ctx.abi head _ fds id name hhead, execRun_append ctx.abi pre _ _ st hpre,
        execRun_cons]
      have : execCommand ctx.abi t st (uid ++ (gid ++ n :: rest))
          = .error .MalformedSpawnPayloadError := by
        simp only [execCommand, ht, execCase]
        rw [Reader.bind_apply, hread]
      rw [this]
    have hh : SpawnServerConnection.HandleExecMessage ctx o s self
        (head ++ (pre ++ t :: (uid ++ (gid ++ n :: rest)))) fds
        = some (.error .MalformedSpawnPayloadError) := by
      simp only [SpawnServerConnection.HandleExecMessage, hdec]
    refine ⟨hread, hdec, hh, ?_⟩
    simp only [SpawnServerConnection.ReadEventCallback, SpawnServerConnection.HandleMessage, hcmd, hh]
  · intro hn hlen
    obtain ⟨g, hg1, hg2⟩ := ReadGroups_enough n 0 st.p.uid_gid.groups rest hlen
    have hnn : ¬ n > ctx.abi.groups_max_size := by omega
    have hread : UidGid.Read ctx.abi st.p.uid_gid (uid ++ (gid ++ n :: rest))
        = .ok ({ uid := leValue uid, gid := leValue gid,
                 groups := if n < ctx.abi.groups_max_size then g.set n 0 else g },
               rest.drop (4 * n)) := by
      rw [UidGid_Read_layout ctx.abi _ uid gid n rest hu hg]
      simp only [hnn, if_false, hg2]
    refine ⟨_, ?_, hread, ?_⟩
    · split
      · rw [List.length_set, hg1]
      · exact hg1
    · simp only [execCommand, ht, execCase]
      rw [Reader.bind_apply, hread]
      rfl

/-- Witness of C9: `n_groups` = 33 on a group array of 32 entries. -/
theorem uid_gid_group_count_witness :
    decodeExec sampleAbi ([1, 0, 0, 0, 120, 0] ++ ([8] ++ 25 :: ([232, 3, 0, 0] ++
        ([232, 3, 0, 0] ++ 33 :: [])))) [] = some (.error .MalformedSpawnPayloadError) ∧
    SpawnServerConnection.ReadEventCallback sampleContext sampleOracle sampleServer 3
      (some (1 :: ([1, 0, 0, 0, 120, 0] ++ ([8] ++ 25 :: ([232, 3, 0, 0] ++
        ([232, 3, 0, 0] ++ 33 :: [])))), [])) = some sampleServer :=
  have h := (uid_gid_group_count sampleContext sampleOracle sampleServer 3 1 [1, 0, 0, 0, 120, 0]
    [8] [] 1 [120] _ 25 [232, 3, 0, 0] [232, 3, 0, 0] 33 [] rfl rfl rfl rfl rfl rfl).1 (by decide)
  ⟨h.2.1, h.2.2.2⟩

/-! ## ARG and SETENV -/

theorem ReadString_encoded (s : CString) (rest : SpawnPayload) (h : 0 ∉ s) :
    SpawnPayload.ReadString (s ++ 0 :: rest) = .ok (s, rest) := by
  induction s with
  | nil => simp [SpawnPayload.ReadString]
  | cons b tl ih =>
    have hb : b ≠ 0 := fun hb => h (by simp [hb])
    have ht : 0 ∉ tl := fun ht => h (List.mem_cons_of_mem _ ht)
    show SpawnPayload.ReadString (b :: (tl ++ 0 :: rest)) = _
    unfold SpawnPayload.ReadString
    simp [hb, ih ht]

theorem execCase_cap (abi : Abi) (cmd : SpawnExecCommand) (st : ExecLocals) :
    Reader.Post (execCase abi cmd st) (fun st' =>
      (st.p.args.length ≤ 16384 → st'.p.args.length ≤ 16384) ∧
      (st.p.env.length ≤ 16384 → st'.p.env.length ≤ 16384)) := by
  cases cmd
  case ARG =>
    simp only [execCase]
    refine Reader.post_ite (fun _ => Reader.post_fail) (fun hc => Reader.post_bind fun _ =>
      Reader.post_pure ⟨fun _ => ?_, fun h => h⟩)
    simp only [List.length_append, List.length_singleton]
    omega
  case SETENV =>
    simp only [execCase]
    refine Reader.post_ite (fun _ => Reader.post_fail) (fun hc => Reader.post_bind fun _ =>
      Reader.post_pure ⟨fun h => h, fun _ => ?_⟩)
    simp only [List.length_append, List.length_singleton]
    omega
  all_goals
    simp only [execCase]
    first
    | exact Reader.post_pure ⟨fun h => h, fun h => h⟩
    | exact Reader.post_bind fun _ => Reader.post_pure ⟨fun h => h, fun h => h⟩
    | exact Reader.post_bind fun _ => Reader.post_bind fun _ =>
        Reader.post_pure ⟨fun h => h, fun h => h⟩
    | exact Reader.post_bind fun _ => Reader.post_bind fun _ => Reader.post_bind fun _ =>
        Reader.post_bind fun _ => Reader.post_pure ⟨fun h => h, fun h => h⟩
    | (unfold takeFd
       split
       · exact Reader.post_fail
       · exact Reader.post_pure ⟨fun h => h, fun h => h⟩)

theorem execRun_cap (abi : Abi) (payload : SpawnPayload) (st st' : ExecLocals)
    (h : execRun abi payload st = some (.ok st'))
    (ha : st.p.args.length ≤ 16384) (he : st.p.env.length ≤ 16384) :
    st'.p.args.length ≤ 16384 ∧ st'.p.env.length ≤ 16384 := by
  generalize hn : payload.length = n
  induction n using Nat.strong_induction_on generalizing payload st with
  | _ n ih =>
    cases payload with
    | nil =>
      rw [execRun_nil] at h
      simp only [Option.some.injEq, Except.ok.injEq] at h
      subst h
      exact ⟨ha, he⟩
    | cons b tl =>
      rw [execRun_cons] at h
      cases hc : execCommand abi b st tl with
      | error e => simp [hc] at h
      | ok r =>
        obtain ⟨st1, rest⟩ := r
        simp only [hc] at h
        have hlen := execCommand_length hc
        simp only [List.length_cons] at hn
        have hstep : st1.p.args.length ≤ 16384 ∧ st1.p.env.length ≤ 16384 := by
          cases hcm : abi.execCommand b with
          | none =>
            simp only [execCommand, hcm, Reader.pure_apply, Except.ok.injEq, Prod.mk.injEq] at hc
            rw [← hc.1]
            exact ⟨ha, he⟩
          | some c =>
            simp only [execCommand, hcm] at hc
            have := execCase_cap abi c st tl st1 rest hc
            exact ⟨this.1 ha, this.2 he⟩
        exact ih rest.length (by omega) rest st1 h hstep.1 hstep.2 rfl

theorem execRun_strings (abi : Abi) (tagArg tagEnv : Nat)
    (hA : abi.execCommand tagArg = some .ARG) (hE : abi.execCommand tagEnv = some .SETENV)
    (items : List (Bool × CString)) (hs : ∀ it ∈ items, 0 ∉ it.2) (st : ExecLocals)
    (ha : st.p.args.length ≤ 16384) (he : st.p.env.length ≤ 16384) :
    execRun abi (encodeStrings tagArg tagEnv items) st =
      if st.p.args.length + (argsOf items).length ≤ 16384 ∧
          st.p.env.length + (envOf items).length ≤ 16384 then
        some (.ok { st with p := { st.p with args := st.p.args ++ argsOf items,
                                             env := st.p.env ++ envOf items } })
      else some (.error .MalformedSpawnPayloadError) := by
  induction items generalizing st with
  | nil =>
    simp only [encodeStrings, execRun_nil, argsOf, envOf, List.filter_nil, List.map_nil,
      List.length_nil, Nat.add_zero, List.append_nil]
    rw [if_pos ⟨ha, he⟩]
  | cons it rest ih =>
    obtain ⟨isArg, str⟩ := it
    have hstr : 0 ∉ str := hs (isArg, str) (List.mem_cons_self _ _)
    have hrest : ∀ it ∈ rest, 0 ∉ it.2 := fun it hit => hs it (List.mem_cons_of_mem _ hit)
    cases isArg with
    | true =>
      simp only [encodeStrings, if_true]
      rw [execRun_cons]
      by_cases hfull : st.p.args.length ≥ 16384
      · have hc : execCommand abi tagArg st (str ++ 0 :: encodeStrings tagArg tagEnv rest)
            = .error .MalformedSpawnPayloadError := by
          simp [execCommand, hA, execCase, hfull, Reader.fail]
        rw [hc]
        have : ¬ (st.p.args.length + (argsOf ((true, str) :: rest)).length ≤ 16384 ∧
            st.p.env.length + (envOf ((true, str) :: rest)).length ≤ 16384) := by
          simp only [argsOf, List.filter_cons_of_pos, List.map_cons, List.length_cons]
          omega
        rw [if_neg this]
      · have hc : execCommand abi tagArg st (str ++ 0 :: encodeStrings tagArg tagEnv rest)
            = .ok ({ st with p := { st.p with args := st.p.args ++ [str] } },
                   encodeStrings tagArg tagEnv rest) := by
          simp only [execCommand, hA, execCase, hfull, if_false]
          rw [Reader.bind_apply, ReadString_encoded str _ hstr]
          rfl
        rw [hc]
        refine (ih hrest { st with p := { st.p with args := st.p.args ++ [str] } } ?_ he).trans ?_
        · simp only [List.length_append, List.length_singleton]; omega
        · have e1 : argsOf ((true, str) :: rest) = str :: argsOf rest := by simp [argsOf]
          have e2 : envOf ((true, str) :: rest) = envOf rest := by simp [envOf]
          rw [e1, e2]
          simp only [List.length_append, List.length_singleton, List.length_cons, List.length_nil,
            List.append_assoc, List.singleton_append]
          split <;> split <;> first | rfl | (exfalso; omega)
    | false =>
      simp only [encodeStrings, Bool.false_eq_true, if_false]
      rw [execRun_cons]
      by_cases hfull : st.p.env.length ≥ 16384
      · have hc : execCommand abi tagEnv st (str ++ 0 :: encodeStrings tagArg tagEnv rest)
            = .error .MalformedSpawnPayloadError := by
          simp [execCommand, hE, execCase, hfull, Reader.fail]
        rw [hc]
        have : ¬ (st.p.args.length + (argsOf ((false, str) :: rest)).length ≤ 16384 ∧
            st.p.env.length + (envOf ((false, str) :: rest)).length ≤ 16384) := by
          simp only [envOf, Bool.not_false, List.filter_cons_of_pos, List.map_cons,
            List.length_cons]
          omega
        rw [if_neg this]
      · have hc : execCommand abi tagEnv st (str ++ 0 :: encodeStrings tagArg tagEnv rest)
            = .ok ({ st with p := { st.p with env := st.p.env ++ [str] } },
                   encodeStrings tagArg tagEnv rest) := by
          simp only [execCommand, hE, execCase, hfull, if_false]
          rw [Reader.bind_apply, ReadString_encoded str _ hstr]
          rfl
        rw [hc]
        refine (ih hrest { st with p := { st.p with env := st.p.env ++ [str] } } ha ?_).trans ?_
        · simp only [List.length_append, List.length_singleton]; omega
        · have e1 : argsOf ((false, str) :: rest) = argsOf rest := by simp [argsOf]
          have e2 : envOf ((false, str) :: rest) = str :: envOf rest := by simp [envOf]
          rw [e1, e2]
          simp only [List.length_append, List.length_singleton, List.length_cons, List.length_nil,
            List.append_assoc, List.singleton_append]
          split <;> split <;> first | rfl | (exfalso; omega)

/-- Claim C10: ARG and SETENV entries are each capped at 16384.  For an EXEC
message whose sub-commands are ARG and SETENV entries in any interleaving:
with at most 16384 of each, decoding succeeds and stores the ARG strings and
the SETENV strings in the order of their declaration; with a 16385th ARG or a
16385th SETENV, decoding fails with `MalformedSpawnPayloadError`.  Whatever
the message, a child specification that decodes never holds more than 16384
arguments or more than 16384 environment entries. -/
theorem arg_setenv_cap (abi : Abi) (tagArg tagEnv : Nat) (head : SpawnPayload) (fds : SpawnFdList)
    (id : Int) (name : CString) (items : List (Bool × CString))
    (hA : abi.execCommand tagArg = some .ARG) (hE : abi.execCommand tagEnv = some .SETENV)
    (hhead : execHead head = .ok ((id, name), []))
    (hs : ∀ it ∈ items, 0 ∉ it.2) :
    ((argsOf items).length ≤ 16384 ∧ (envOf items).length ≤ 16384 →
      decodeExec abi (head ++ encodeStrings tagArg tagEnv items) fds =
        some (.ok { id := id, name := name,
                    locals := { p := { PreparedChildProcess.init abi with
                                       args := argsOf items, env := envOf items },
                                fds := fds } })) ∧
    (16385 ≤ (argsOf items).length ∨ 16385 ≤ (envOf items).length →
      decodeExec abi (head ++ encodeStrings tagArg tagEnv items) fds =
        some (.error .MalformedSpawnPayloadError)) ∧
    (∀ (payload : SpawnPayload) (fds' : SpawnFdList) (r : ExecRequest),
      decodeExec abi payload fds' = some (.ok r) →
        r.locals.p.args.length ≤ 16384 ∧ r.locals.p.env.length ≤ 16384) := by
  have hrun := execRun_strings abi tagArg tagEnv hA hE items hs
    { p := PreparedChildProcess.init abi, fds := fds } (by simp [PreparedChildProcess.init])
    (by simp [PreparedChildProcess.init])
  have hdec := decodeExec_layout abi head (encodeStrings tagArg tagEnv items) fds id name hhead
  have ha0 : (PreparedChildProcess.init abi).args = [] := rfl
  have he0 : (PreparedChildProcess.init abi).env = [] := rfl
  simp only [ha0, he0, List.length_nil, Nat.zero_add, List.nil_append] at hrun
  refine ⟨fun hle => ?_, fun hgt => ?_, fun payload fds' r h => ?_⟩
  · rw [hdec, hrun, if_pos hle]
  · have : ¬ ((argsOf items).length ≤ 16384 ∧ (envOf items).length ≤ 16384) := by omega
    rw [hdec, hrun, if_neg this]
  · obtain ⟨body, _, hbody⟩ := decodeExec_ok h
    exact execRun_cap abi body _ _ hbody (by simp [PreparedChildProcess.init])
      (by simp [PreparedChildProcess.init])

/-- Witness of C10: EXEC id=1 name="echo" with ARG "echo", SETENV "A=1" and
ARG "hi". -/
theorem arg_setenv_cap_witness :
    decodeExec sampleAbi ([1, 0, 0, 0, 101, 99, 104, 111, 0] ++ encodeStrings 0 1
        [(true, [101, 99, 104, 111]), (false, [65, 61, 49]), (true, [104, 105])]) [] =
      some (.ok { id := 1, name := [101, 99, 104, 111],
                  locals := { p := { PreparedChildProcess.init sampleAbi with
                                     args := [[101, 99, 104, 111], [104, 105]],
                                     env := [[65, 61, 49]] },
                              fds := [] } }) :=
  (arg_setenv_cap sampleAbi 0 1 [1, 0, 0, 0, 101, 99, 104, 111, 0] [] 1 [101, 99, 104, 111]
    [(true, [101, 99, 104, 111]), (false, [65, 61, 49]), (true, [104, 105])] rfl rfl rfl
    (by decide)).1 (by decide)

/-! ## Round trip of the wire encoding -/

theorem leValue_uint16Bytes (n : Nat) (h : n < 2 ^ 16) : leValue (uint16Bytes n) = n := by
  simp only [uint16Bytes, leValue]
  omega

theorem leValue_uint32Bytes (n : Nat) (h : n < 2 ^ 32) : leValue (uint32Bytes n) = n := by
  simp only [uint32Bytes, leValue]
  omega

theorem toInt32_int32Bytes (i : Int) (h1 : -(2 ^ 31) ≤ i) (h2 : i < 2 ^ 31) :
    toInt32 (leValue (int32Bytes i)) = i := by
  have hn : ((i % 2 ^ 32).toNat : Int) = i % 2 ^ 32 :=
    Int.toNat_of_nonneg (Int.emod_nonneg _ (by norm_num))
  have hlt : (i % 2 ^ 32).toNat < 2 ^ 32 := by
    have := Int.emod_lt_of_pos i (show (0 : Int) < 2 ^ 32 by norm_num)
    omega
  have hle : leValue (int32Bytes i) = (i % 2 ^ 32).toNat := by
    simp only [int32Bytes, leValue]
    omega
  rw [hle]
  unfold toInt32
  rw [Nat.mod_eq_of_lt hlt]
  split
  · rename_i hs
    rw [hn]
    omega
  · rename_i hs
    rw [hn]
    omega

theorem ReadInt_int32Bytes (i : Int) (rest : SpawnPayload) (h1 : -(2 ^ 31) ≤ i) (h2 : i < 2 ^ 31) :
    SpawnPayload.ReadInt (int32Bytes i ++ rest) = .ok (i, rest) := by
  unfold SpawnPayload.ReadInt
  rw [Reader.bind_apply, ReadT_append 4 (int32Bytes i) rest rfl]
  simp only [Reader.pure_apply, toInt32_int32Bytes i h1 h2]

theorem ReadString_stringBytes (s : CString) (rest : SpawnPayload) (h : 0 ∉ s) :
    SpawnPayload.ReadString (stringBytes s ++ rest) = .ok (s, rest) := by
  have := ReadString_encoded s rest h
  simpa [stringBytes] using this

theorem ReadGroups_encoded (gs : List Nat) (i : Nat) (groups : List Nat) (rest : SpawnPayload)
    (h : ∀ g ∈ gs, g < 2 ^ 32) :
    UidGid.ReadGroups gs.length i groups (gs.flatMap uint32Bytes ++ rest)
      = .ok (storeGroups gs i groups, rest) := by
  induction gs generalizing i groups with
  | nil => rfl
  | cons g tl ih =>
    have hg : g < 2 ^ 32 := h g (List.mem_cons_self _ _)
    have ht : ∀ x ∈ tl, x < 2 ^ 32 := fun x hx => h x (List.mem_cons_of_mem _ hx)
    simp only [List.length_cons, List.flatMap_cons, List.append_assoc]
    unfold UidGid.ReadGroups
    rw [Reader.bind_apply, ReadT_append 4 (uint32Bytes g) _ rfl]
    simp only [leValue_uint32Bytes g hg]
    exact ih (i + 1) (groups.set i g) ht

theorem storeGroups_length (gs : List Nat) (i : Nat) (groups : List Nat) :
    (storeGroups gs i groups).length = groups.length := by
  induction gs generalizing i groups with
  | nil => rfl
  | cons g tl ih => simp [storeGroups, ih]

theorem storeGroups_getElem? (gs : List Nat) (i : Nat) (groups : List Nat) (k : Nat)
    (hfit : i + gs.length ≤ groups.length) :
    (storeGroups gs i groups)[k]? =
      if i ≤ k ∧ k < i + gs.length then gs[k - i]? else groups[k]? := by
  induction gs generalizing i groups with
  | nil =>
    have hno : ¬ (i ≤ k ∧ k < i + ([] : List Nat).length) := by
      simp only [List.length_nil]
      omega
    simp only [storeGroups]
    rw [if_neg hno]
  | cons g tl ih =>
    simp only [List.length_cons] at hfit
    simp only [storeGroups, List.length_cons]
    rw [ih (i + 1) (groups.set i g) (by rw [List.length_set]; omega)]
    by_cases hk : k = i
    · subst hk
      have h1 : ¬ (k + 1 ≤ k ∧ k < k + 1 + tl.length) := by omega
      have h2 : k ≤ k ∧ k < k + (tl.length + 1) := by omega
      rw [if_neg h1, if_pos h2]
      simp only [Nat.sub_self, List.getElem?_cons_zero]
      exact List.getElem?_set_self (by omega)
    · by_cases hin : i + 1 ≤ k ∧ k < i + 1 + tl.length
      · have h2 : i ≤ k ∧ k < i + (tl.length + 1) := by omega
        rw [if_pos hin, if_pos h2]
        have : k - i = (k - (i + 1)) + 1 := by omega
        rw [this, List.getElem?_cons_succ]
      · have h2 : ¬ (i ≤ k ∧ k < i + (tl.length + 1)) := by omega
        rw [if_neg hin, if_neg h2, List.getElem?_set_ne (Ne.symm hk)]

theorem storeGroups_take (gs : List Nat) (groups : List Nat) (hfit : gs.length ≤ groups.length) :
    (storeGroups gs 0 groups).take gs.length = gs := by
  apply List.ext_getElem?
  intro k
  rw [List.getElem?_take]
  by_cases hk : k < gs.length
  · rw [if_pos hk, storeGroups_getElem? gs 0 groups k (by omega)]
    simp [hk]
  · rw [if_neg hk]
    exact (List.getElem?_eq_none (by omega)).symm

theorem ReadT_uint16Bytes (n : Nat) (rest : SpawnPayload) :
    SpawnPayload.ReadT 2 (uint16Bytes n ++ rest) = .ok (uint16Bytes n, rest) :=
  ReadT_append 2 (uint16Bytes n) rest rfl

theorem UidGid_Read_encoded (abi : Abi) (old : UidGid) (uid gid : Nat) (gs : List Nat)
    (rest : SpawnPayload) (hu : uid < 2 ^ 32) (hg : gid < 2 ^ 32)
    (hn : gs.length ≤ abi.groups_max_size) (hgs : ∀ g ∈ gs, g < 2 ^ 32) :
    UidGid.Read abi old
        (uint32Bytes uid ++ (uint32Bytes gid ++ gs.length :: gs.flatMap uint32Bytes) ++ rest)
      = .ok ({ uid := uid, gid := gid,
               groups := if gs.length < abi.groups_max_size
                 then (storeGroups gs 0 old.groups).set gs.length 0
                 else storeGroups gs 0 old.groups }, rest) := by
  have e : uint32Bytes uid ++ (uint32Bytes gid ++ gs.length :: gs.flatMap uint32Bytes) ++ rest
      = uint32Bytes uid ++ (uint32Bytes gid ++ gs.length :: (gs.flatMap uint32Bytes ++ rest)) := by
    simp only [List.append_assoc, List.cons_append]
  rw [e, UidGid_Read_layout abi old (uint32Bytes uid) (uint32Bytes gid) gs.length
    (gs.flatMap uint32Bytes ++ rest) rfl rfl]
  have hno : ¬ gs.length > abi.groups_max_size := by omega
  rw [if_neg hno, ReadGroups_encoded gs 0 old.groups rest hgs]
  simp only [leValue_uint32Bytes uid hu, leValue_uint32Bytes gid hg]

theorem ResourceLimits_Read_encoded (abi : Abi) (old : ResourceLimits) (index : Nat)
    (data : List Nat) (rest : SpawnPayload) (hd : data.length = abi.sizeof_rlimit) :
    ResourceLimits.Read abi old (index :: data ++ rest) = .ok (old.store index data, rest) := by
  unfold ResourceLimits.Read
  rw [Reader.bind_apply]
  simp only [List.cons_append, SpawnPayload.ReadByte]
  rw [Reader.bind_apply, ReadT_append _ data rest hd]
  rfl

theorem execCommand_encode (abi : Abi) (tag : SpawnExecCommand → Nat) (item : ExecItem)
    (st : ExecLocals) (rest : SpawnPayload)
    (ht : abi.execCommand (tag item.command) = some item.command)
    (hwf : item.WellFormed abi) :
    execCommand abi (tag item.command) st (item.fields ++ rest) =
      match item.apply abi st with
      | .error e => .error e
      | .ok st' => .ok (st', rest) := by
  unfold execCommand
  rw [ht]
  cases item <;>
    simp only [ExecItem.command, ExecItem.fields, ExecItem.apply, ExecItem.WellFormed, execCase,
      List.nil_append, List.append_assoc] at hwf ⊢
  case ARG s =>
    split
    · rfl
    · rw [Reader.bind_apply, ReadString_stringBytes s rest hwf]; rfl
  case SETENV s =>
    split
    · rfl
    · rw [Reader.bind_apply, ReadString_stringBytes s rest hwf]; rfl
  case UMASK v =>
    rw [Reader.bind_apply, ReadT_uint16Bytes]
    simp only [leValue_uint16Bytes v hwf, Reader.pure_apply]
  case STDIN => unfold takeFd; cases st.fds <;> rfl
  case STDOUT => unfold takeFd; cases st.fds <;> rfl
  case STDERR => unfold takeFd; cases st.fds <;> rfl
  case CONTROL => unfold takeFd; cases st.fds <;> rfl
  case MOUNT_HOME a b =>
    rw [Reader.bind_apply, ReadString_stringBytes a _ hwf.1]
    simp only
    rw [Reader.bind_apply, ReadString_stringBytes b _ hwf.2]
    rfl
  case CGROUP_SET a b =>
    rw [Reader.bind_apply, ReadString_stringBytes a _ hwf.1]
    simp only
    rw [Reader.bind_apply, ReadString_stringBytes b _ hwf.2]
    rfl
  case BIND_MOUNT a b w e =>
    rw [Reader.bind_apply, ReadString_stringBytes a _ hwf.1]
    simp only
    rw [Reader.bind_apply, ReadString_stringBytes b _ hwf.2]
    simp only [List.cons_append, List.nil_append]
    rw [Reader.bind_apply]
    simp only [SpawnPayload.ReadByte]
    rw [Reader.bind_apply]
    simp only [SpawnPayload.ReadByte]
    cases w <;> cases e <;> rfl
  case RLIMIT i data =>
    rw [Reader.bind_apply]
    have := ResourceLimits_Read_encoded abi st.p.rlimits i data rest hwf.2
    simp only [List.cons_append] at this ⊢
    rw [this]
    rfl
  case UID_GID uid gid gs =>
    rw [Reader.bind_apply]
    have := UidGid_Read_encoded abi st.p.uid_gid uid gid gs rest hwf.1 hwf.2.1 hwf.2.2.1 hwf.2.2.2
    simp only [List.append_assoc, List.cons_append] at this ⊢
    rw [this]
    rfl
  case PRIORITY v =>
    rw [Reader.bind_apply, ReadInt_int32Bytes v rest hwf.1 hwf.2]; rfl
  all_goals first
    | rfl
    | (rw [Reader.bind_apply, ReadString_stringBytes _ rest hwf]; rfl)

theorem execRun_encodeItems (abi : Abi) (tag : SpawnExecCommand → Nat)
    (htag : ∀ c, abi.execCommand (tag c) = some c) (items : List ExecItem)
    (hwf : ∀ it ∈ items, it.WellFormed abi) (st : ExecLocals) (suffix : SpawnPayload) :
    execRun abi (encodeItems tag items ++ suffix) st =
      match applyItems abi items st with
      | .error e => some (.error e)
      | .ok st' => execRun abi suffix st' := by
  induction items generalizing st with
  | nil => rfl
  | cons item rest ih =>
    have hi : item.WellFormed abi := hwf item (List.mem_cons_self _ _)
    have hr : ∀ it ∈ rest, it.WellFormed abi := fun it h => hwf it (List.mem_cons_of_mem _ h)
    simp only [encodeItems, ExecItem.encode, List.cons_append, List.append_assoc, applyItems]
    rw [execRun_cons, execCommand_encode abi tag item st _ (htag _) hi]
    cases item.apply abi st with
    | error e => rfl
    | ok st1 => exact ih hr st1

theorem decodeExec_encodeItems (abi : Abi) (tag : SpawnExecCommand → Nat)
    (htag : ∀ c, abi.execCommand (tag c) = some c) (head : SpawnPayload) (fds : SpawnFdList)
    (id : Int) (name : CString) (items : List ExecItem)
    (hhead : execHead head = .ok ((id, name), []))
    (hwf : ∀ it ∈ items, it.WellFormed abi) :
    decodeExec abi (head ++ encodeItems tag items) fds =
      match applyItems abi items { p := PreparedChildProcess.init abi, fds := fds } with
      | .error e => some (.error e)
      | .ok st => some (.ok { id := id, name := name, locals := st }) := by
  rw [decodeExec_layout abi head _ fds id name hhead]
  have := execRun_encodeItems abi tag htag items hwf
    { p := PreparedChildProcess.init abi, fds := fds } []
  rw [List.append_nil] at this
  rw [this]
  cases applyItems abi items { p := PreparedChildProcess.init abi, fds := fds } with
  | error e => rfl
  | ok st => simp [execRun_nil]

/-! ## Bind mounts -/

theorem apply_mounts (abi : Abi) (item : ExecItem) (st st' : ExecLocals)
    (h : item.apply abi st = .ok st') :
    st'.p.ns.mount.mounts = st.p.ns.mount.mounts ++ bindMountsOf [item] := by
  cases item <;> simp only [ExecItem.apply] at h
  case ARG s => split at h <;> simp at h; subst h; simp [bindMountsOf]
  case SETENV s => split at h <;> simp at h; subst h; simp [bindMountsOf]
  case STDIN => split at h <;> simp at h; subst h; simp [bindMountsOf]
  case STDOUT => split at h <;> simp at h; subst h; simp [bindMountsOf]
  case STDERR => split at h <;> simp at h; subst h; simp [bindMountsOf]
  case CONTROL => split at h <;> simp at h; subst h; simp [bindMountsOf]
  all_goals
    simp only [Except.ok.injEq] at h
    subst h
    simp [bindMountsOf]

theorem bindMountsOf_cons (item : ExecItem) (rest : List ExecItem) :
    bindMountsOf (item :: rest) = bindMountsOf [item] ++ bindMountsOf rest := by
  cases item <;> simp [bindMountsOf]

theorem applyItems_mounts (abi : Abi) (items : List ExecItem) (st st' : ExecLocals)
    (h : applyItems abi items st = .ok st') :
    st'.p.ns.mount.mounts = st.p.ns.mount.mounts ++ bindMountsOf items := by
  induction items generalizing st with
  | nil =>
    simp only [applyItems, Except.ok.injEq] at h
    subst h
    simp [bindMountsOf]
  | cons item rest ih =>
    simp only [applyItems] at h
    cases h1 : item.apply abi st with
    | error e => simp [h1] at h
    | ok st1 =>
      simp only [h1] at h
      rw [ih st1 h, apply_mounts abi item st st1 h1, bindMountsOf_cons item rest,
        List.append_assoc]

theorem execCase_mounts (abi : Abi) (cmd : SpawnExecCommand) (st : ExecLocals) :
    Reader.Post (execCase abi cmd st) (fun st' =>
      st'.p.ns.mount.mounts = st.p.ns.mount.mounts ∨
      (cmd = .BIND_MOUNT ∧ ∃ m : MountList, m.expand_source = false ∧
        st'.p.ns.mount.mounts = st.p.ns.mount.mounts ++ [m])) := by
  cases cmd
  case BIND_MOUNT =>
    unfold execCase
    exact Reader.post_bind fun _ => Reader.post_bind fun _ => Reader.post_bind fun _ =>
      Reader.post_bind fun _ => Reader.post_pure (Or.inr ⟨rfl, _, rfl, rfl⟩)
  all_goals
    simp only [execCase]
    first
    | exact Reader.post_pure (Or.inl rfl)
    | exact Reader.post_bind fun _ => Reader.post_pure (Or.inl rfl)
    | exact Reader.post_bind fun _ => Reader.post_bind fun _ => Reader.post_pure (Or.inl rfl)
    | exact Reader.post_ite (fun _ => Reader.post_fail)
        (fun _ => Reader.post_bind fun _ => Reader.post_pure (Or.inl rfl))
    | (unfold takeFd
       split
       · exact Reader.post_fail
       · exact Reader.post_pure (Or.inl rfl))

/-- Claim C11: when an EXEC message (head followed by the wire encoding of
any sequence of sub-commands within the protocol limits) decodes, the
bind-mount list of the decoded namespace specification, from its head, is
the sequence of the message's BIND_MOUNT sub-commands in declaration order,
each with its own source, target, writable flag and exec flag; without a
BIND_MOUNT sub-command the list is empty.  On any bytes whatever, a round of
the decoding loop leaves the list as it is or, for BIND_MOUNT only, adds one
entry behind the existing ones. -/
theorem bind_mounts_in_declaration_order (abi : Abi) (tag : SpawnExecCommand → Nat)
    (head : SpawnPayload) (fds : SpawnFdList) (id : Int) (name : CString)
    (items : List ExecItem) (r : ExecRequest)
    (htag : ∀ c, abi.execCommand (tag c) = some c)
    (hhead : execHead head = .ok ((id, name), []))
    (hwf : ∀ it ∈ items, it.WellFormed abi)
    (h : decodeExec abi (head ++ encodeItems tag items) fds = some (.ok r)) :
    r.locals.p.ns.mount.mounts = bindMountsOf items ∧
    ((∀ it ∈ items, it.command ≠ .BIND_MOUNT) → r.locals.p.ns.mount.mounts = []) ∧
    (∀ (t : Nat) (st st' : ExecLocals) (bytes rest : SpawnPayload),
      execCommand abi t st bytes = .ok (st', rest) →
      st'.p.ns.mount.mounts = st.p.ns.mount.mounts ∨
      (abi.execCommand t = some .BIND_MOUNT ∧ ∃ m : MountList, m.expand_source = false ∧
        st'.p.ns.mount.mounts = st.p.ns.mount.mounts ++ [m])) := by
  have hstep : ∀ (t : Nat) (st st' : ExecLocals) (bytes rest : SpawnPayload),
      execCommand abi t st bytes = .ok (st', rest) →
      st'.p.ns.mount.mounts = st.p.ns.mount.mounts ∨
      (abi.execCommand t = some .BIND_MOUNT ∧ ∃ m : MountList, m.expand_source = false ∧
        st'.p.ns.mount.mounts = st.p.ns.mount.mounts ++ [m]) := by
    intro t st st' bytes rest hc
    cases hcm : abi.execCommand t with
    | none =>
      simp only [execCommand, hcm, Reader.pure_apply, Except.ok.injEq, Prod.mk.injEq] at hc
      rw [← hc.1]
      exact Or.inl rfl
    | some c =>
      simp only [execCommand, hcm] at hc
      rcases execCase_mounts abi c st bytes st' rest hc with h | ⟨h1, h2⟩
      · exact Or.inl h
      · exact Or.inr ⟨by rw [h1], h2⟩
  rw [decodeExec_encodeItems abi tag htag head fds id name items hhead hwf] at h
  cases ha : applyItems abi items { p := PreparedChildProcess.init abi, fds := fds } with
  | error e => simp [ha] at h
  | ok st =>
    simp only [ha, Option.some.injEq, Except.ok.injEq] at h
    subst h
    have hm := applyItems_mounts abi items _ st ha
    have h0 : (PreparedChildProcess.init abi).ns.mount.mounts = [] := rfl
    simp only [h0, List.nil_append] at hm
    refine ⟨hm, fun hno => ?_, hstep⟩
    rw [hm]
    clear ha hm hwf
    induction items with
    | nil => rfl
    | cons it rest ih =>
      have h1 := hno it (List.mem_cons_self _ _)
      have h2 := ih (fun x hx => hno x (List.mem_cons_of_mem _ hx))
      have h3 : bindMountsOf [it] = [] := by
        cases it <;> first | rfl | exact absurd rfl h1
      rw [bindMountsOf_cons, h2, h3]
      rfl

/-- Witness of C11: BIND_MOUNT "/a" then, after a MOUNT_HOME, BIND_MOUNT "/b". -/
theorem bind_mounts_in_declaration_order_witness :
    ∃ r, decodeExec sampleAbi (sampleHead ++ encodeItems sampleTag mountItems) [] = some (.ok r) ∧
      r.locals.p.ns.mount.mounts =
        [{ source := [47, 97], target := [47, 120], expand_source := false,
           writable := false, exec := false },
         { source := [47, 98], target := [47, 121], expand_source := false,
           writable := true, exec := true }] :=
  ⟨_, rfl, (bind_mounts_in_declaration_order sampleAbi sampleTag sampleHead [] 1 [120] mountItems _
    (fun c => by cases c <;> rfl) rfl (by decide) rfl).1⟩

/-! ## Round trip of every sub-command -/

theorem take_set_self (l : List Nat) (n a : Nat) : (l.set n a).take n = l.take n := by
  apply List.ext_getElem?
  intro k
  rw [List.getElem?_take, List.getElem?_take]
  split
  · rename_i hk
    rw [List.getElem?_set_ne (by omega)]
  · rfl

theorem init_sized (abi : Abi) (fds : SpawnFdList) :
    ExecLocals.Sized abi { p := PreparedChildProcess.init abi, fds := fds } := by
  simp [ExecLocals.Sized, PreparedChildProcess.init]

theorem apply_heldBy (abi : Abi) (item : ExecItem) (st : ExecLocals)
    (hwf : item.WellFormed abi) (hsz : st.Sized abi) (hacc : item.Accepted st) :
    ∃ st', item.apply abi st = .ok st' ∧ item.HeldBy st'.p ∧ st'.Sized abi := by
  obtain ⟨hs1, hs2⟩ := hsz
  cases item <;>
    simp only [ExecItem.apply, ExecItem.HeldBy, ExecItem.Accepted, ExecItem.WellFormed] at hwf hacc ⊢
  case ARG s =>
    rw [if_neg (by omega)]
    exact ⟨_, rfl, List.getLast?_concat _, hs1, hs2⟩
  case SETENV s =>
    rw [if_neg (by omega)]
    exact ⟨_, rfl, List.getLast?_concat _, hs1, hs2⟩
  case STDIN =>
    cases hf : st.fds with
    | nil => exact absurd hf hacc
    | cons fd fds => exact ⟨_, rfl, rfl, hs1, hs2⟩
  case STDOUT =>
    cases hf : st.fds with
    | nil => exact absurd hf hacc
    | cons fd fds => exact ⟨_, rfl, rfl, hs1, hs2⟩
  case STDERR =>
    cases hf : st.fds with
    | nil => exact absurd hf hacc
    | cons fd fds => exact ⟨_, rfl, rfl, hs1, hs2⟩
  case CONTROL =>
    cases hf : st.fds with
    | nil => exact absurd hf hacc
    | cons fd fds => exact ⟨_, rfl, rfl, hs1, hs2⟩
  case BIND_MOUNT a b w e => exact ⟨_, rfl, List.getLast?_concat _, hs1, hs2⟩
  case MOUNT_HOME a b => exact ⟨_, rfl, ⟨rfl, rfl⟩, hs1, hs2⟩
  case RLIMIT i data =>
    have hi : i < st.p.rlimits.values.length := by omega
    refine ⟨_, rfl, ?_, ?_, hs2⟩
    · simp only [ResourceLimits.store, hi, if_true]
      exact List.getElem?_set_self hi
    · simp only [ResourceLimits.store, hi, if_true, List.length_set]
      exact hs1
  case UID_GID uid gid gs =>
    obtain ⟨-, -, hn, -⟩ := hwf
    have hfit : gs.length ≤ st.p.uid_gid.groups.length := by omega
    have hlen := storeGroups_length gs 0 st.p.uid_gid.groups
    refine ⟨_, rfl, ⟨rfl, rfl, ?_, ?_⟩, hs1, ?_⟩
    · simp only
      split
      · rw [take_set_self, storeGroups_take gs _ hfit]
      · exact storeGroups_take gs _ hfit
    · simp only
      intro hlt
      split
      · exact List.getElem?_set_self (by omega)
      · rename_i hno
        rw [if_neg hno, hlen] at hlt
        omega
    · simp only
      split
      · rw [List.length_set, hlen]; exact hs2
      · rw [hlen]; exact hs2
  all_goals exact ⟨_, rfl, rfl, hs1, hs2⟩

/-- Claim C12: for every EXEC sub-command type and every value of its fields
within the protocol limits, decoding its wire encoding (the tag byte followed
by the fields laid out as in the table of sub-commands) consumes exactly that
encoding and yields a child specification whose corresponding members hold
the encoded values; this holds in any state of the decoding loop and, in
particular, for a message that consists of the head and the one sub-command. -/
theorem exec_subcommand_round_trip (abi : Abi) (tag : SpawnExecCommand → Nat) (item : ExecItem)
    (ht : abi.execCommand (tag item.command) = some item.command)
    (hwf : item.WellFormed abi) :
    (∀ (st : ExecLocals) (rest : SpawnPayload), st.Sized abi → item.Accepted st →
      ∃ st', execCommand abi (tag item.command) st (item.fields ++ rest) = .ok (st', rest) ∧
        item.HeldBy st'.p ∧ st'.Sized abi) ∧
    (∀ (head : SpawnPayload) (fds : SpawnFdList) (id : Int) (name : CString),
      execHead head = .ok ((id, name), []) →
      item.Accepted { p := PreparedChildProcess.init abi, fds := fds } →
      ∃ r, decodeExec abi (head ++ item.encode tag) fds = some (.ok r) ∧
        r.id = id ∧ r.name = name ∧ item.HeldBy r.locals.p) := by
  constructor
  · intro st rest hsz hacc
    obtain ⟨st', h1, h2, h3⟩ := apply_heldBy abi item st hwf hsz hacc
    refine ⟨st', ?_, h2, h3⟩
    rw [execCommand_encode abi tag item st rest ht hwf, h1]
  · intro head fds id name hhead hacc
    obtain ⟨st', h1, h2, -⟩ := apply_heldBy abi item _ hwf (init_sized abi fds) hacc
    refine ⟨{ id := id, name := name, locals := st' }, ?_, rfl, rfl, h2⟩
    rw [decodeExec_layout abi head _ fds id name hhead]
    have hrun : execRun abi (item.encode tag) { p := PreparedChildProcess.init abi, fds := fds }
        = some (.ok st') := by
      unfold ExecItem.encode
      rw [execRun_cons]
      have := execCommand_encode abi tag item { p := PreparedChildProcess.init abi, fds := fds }
        [] ht hwf
      rw [List.append_nil, h1] at this
      rw [this]
      exact execRun_nil abi st'
    rw [hrun]

/-- Witness of C12: UID_GID with uid 1000, gid 100 and the groups 4 and 24. -/
theorem exec_subcommand_round_trip_witness :
    ∃ r, decodeExec sampleAbi (sampleHead ++ uidGidItem.encode sampleTag) [] = some (.ok r) ∧
      r.id = 1 ∧ r.name = [120] ∧ uidGidItem.HeldBy r.locals.p :=
  (exec_subcommand_round_trip sampleAbi sampleTag uidGidItem rfl (by decide)).2
    sampleHead [] 1 [120] rfl trivial

/-! ## Malformed messages -/

theorem ReadInt_short (payload : SpawnPayload) (h : payload.length < 4) :
    SpawnPayload.ReadInt payload = .error .MalformedSpawnPayloadError := by
  unfold SpawnPayload.ReadInt
  rw [Reader.bind_apply]
  simp [SpawnPayload.ReadT, h]

theorem ReadInt_long (payload : SpawnPayload) (h : 4 ≤ payload.length) :
    SpawnPayload.ReadInt payload = .ok (toInt32 (leValue (payload.take 4)), payload.drop 4) := by
  unfold SpawnPayload.ReadInt
  rw [Reader.bind_apply]
  have : ¬ payload.length < 4 := by omega
  simp [SpawnPayload.ReadT, this, Reader.pure_apply]

theorem HandleKillMessage_malformed (s : SpawnServerProcess) (self : Nat) (payload : SpawnPayload)
    (fds : SpawnFdList) (h : ¬ (fds = [] ∧ payload.length = 8)) :
    SpawnServerConnection.HandleKillMessage s self payload fds
      = .error .MalformedSpawnPayloadError := by
  unfold SpawnServerConnection.HandleKillMessage
  cases fds with
  | cons fd tl => rfl
  | nil =>
    have hlen : payload.length ≠ 8 := fun h8 => h ⟨rfl, h8⟩
    simp only [List.isEmpty_nil, Bool.not_true, Bool.false_eq_true, if_false]
    by_cases h4 : payload.length < 4
    · rw [ReadInt_short payload h4]
    · rw [ReadInt_long payload (by omega)]
      simp only
      by_cases h8 : (payload.drop 4).length < 4
      · rw [ReadInt_short _ h8]
      · rw [ReadInt_long _ (by omega)]
        simp only
        have hne : (List.drop 4 (List.drop 4 payload)) ≠ [] := by
          intro hnil
          have := congrArg List.length hnil
          simp only [List.length_drop, List.length_nil] at this h8
          omega
        cases hd : List.drop 4 (List.drop 4 payload) with
        | nil => exact absurd hd hne
        | cons b tl => simp [SpawnPayload.IsEmpty]

theorem HandleKillMessage_wellformed (s : SpawnServerProcess) (self : Nat) (payload : SpawnPayload)
    (h : payload.length = 8) :
    SpawnServerConnection.HandleKillMessage s self payload [] =
      match s.connection self with
      | none => .ok s
      | some c =>
        match ChildIdMap.find c.children (toInt32 (leValue (payload.take 4))) with
        | none => .ok s
        | some child =>
          .ok ((s.setChildren self (fun children => children.erase child)).Kill child.pid
            (toInt32 (leValue ((payload.drop 4).take 4)))) := by
  unfold SpawnServerConnection.HandleKillMessage
  simp only [List.isEmpty_nil, Bool.not_true, Bool.false_eq_true, if_false]
  rw [ReadInt_long payload (by omega)]
  simp only
  rw [ReadInt_long _ (by rw [List.length_drop]; omega)]
  simp only
  have hnil : List.drop 4 (List.drop 4 payload) = [] := by
    apply List.eq_nil_of_length_eq_zero
    simp only [List.length_drop]
    omega
  rw [hnil]
  simp only [SpawnPayload.IsEmpty, List.isEmpty_nil, Bool.not_true, Bool.false_eq_true, if_false]

theorem SpawnChild_not_malformed (ctx : Context) (o : Oracle) (s : SpawnServerProcess) (self : Nat)
    (id : Int) (name : CString) (p : PreparedChildProcess) :
    SpawnServerConnection.SpawnChild ctx o s self id name p
      ≠ .error .MalformedSpawnPayloadError := by
  unfold SpawnServerConnection.SpawnChild
  cases verifyUidGid ctx p with
  | error e => cases e <;> simp
  | ok u =>
    simp only
    split
    · simp
    · cases o.spawn (applyDefault ctx p) <;> simp

/-- Claim C13: when the handling of a received non-empty message raises
`MalformedSpawnPayloadError`, `ReadEventCallback` returns with the server
exactly as it was: the connection is still in the live-connection set, all
child sets and the Child Registry are unchanged, no connection was added,
and the trace has not grown (no spawn, no signal, no transmission).  The
error is raised only while decoding: by CONNECT with a payload or a
descriptor count other than 1, by the decoding part of EXEC, or by KILL with
descriptors or a payload that is not 8 bytes long. -/
theorem malformed_message_discarded (ctx : Context) (o : Oracle) (s : SpawnServerProcess)
    (self : Nat) (cmd : Nat) (payload : SpawnPayload) (fds : SpawnFdList)
    (h : SpawnServerConnection.HandleMessage ctx o s self cmd payload fds
      = some (.error .MalformedSpawnPayloadError)) :
    SpawnServerConnection.ReadEventCallback ctx o s self (some (cmd :: payload, fds)) = some s ∧
    (∃ s', SpawnServerConnection.ReadEventCallback ctx o s self (some (cmd :: payload, fds))
        = some s' ∧
      s'.connections = s.connections ∧
      s'.connection self = s.connection self ∧
      s'.child_process_registry = s.child_process_registry ∧
      s'.trace = s.trace) ∧
    ((ctx.abi.requestCommand cmd = some .CONNECT ∧ (payload ≠ [] ∨ fds.length ≠ 1)) ∨
     (ctx.abi.requestCommand cmd = some .EXEC ∧
        decodeExec ctx.abi payload fds = some (.error .MalformedSpawnPayloadError)) ∨
     (ctx.abi.requestCommand cmd = some .KILL ∧ ¬ (fds = [] ∧ payload.length = 8))) := by
  have hread : SpawnServerConnection.ReadEventCallback ctx o s self (some (cmd :: payload, fds))
      = some s := by
    simp only [SpawnServerConnection.ReadEventCallback, h]
  refine ⟨hread, ⟨s, hread, rfl, rfl, rfl, rfl⟩, ?_⟩
  unfold SpawnServerConnection.HandleMessage at h
  cases hc : ctx.abi.requestCommand cmd with
  | none => simp [hc] at h
  | some c =>
    cases c with
    | CONNECT =>
      refine Or.inl ⟨rfl, ?_⟩
      simp only [hc] at h
      by_contra hcon
      have h1 : payload = [] := by
        by_contra hp; exact hcon (Or.inl hp)
      have h2 : fds.length = 1 := by
        by_contra hf; exact hcon (Or.inr hf)
      subst h1
      match fds, h2 with
      | [fd], _ => simp [SpawnFdList.Get] at h
    | EXEC =>
      refine Or.inr (Or.inl ⟨rfl, ?_⟩)
      simp only [hc, SpawnServerConnection.HandleExecMessage] at h
      cases hd : decodeExec ctx.abi payload fds with
      | none => simp [hd] at h
      | some r =>
        cases r with
        | error e =>
          simp only [hd, Option.some.injEq, Except.error.injEq] at h
          rw [h]
        | ok r =>
          simp only [hd, Option.some.injEq] at h
          exact absurd h (SpawnChild_not_malformed ctx o s self r.id r.name r.locals.p)
    | KILL =>
      refine Or.inr (Or.inr ⟨rfl, ?_⟩)
      simp only [hc, Option.some.injEq] at h
      rintro ⟨rfl, h8⟩
      rw [HandleKillMessage_wellformed s self payload h8] at h
      cases hcn : s.connection self with
      | none => simp [hcn] at h
      | some c =>
        simp only [hcn] at h
        cases hf : ChildIdMap.find c.children (toInt32 (leValue (List.take 4 payload))) <;>
          simp [hf] at h

/-- Witness of C13: an EXEC message whose STDIN sub-command finds no descriptor. -/
theorem malformed_message_discarded_witness :
    SpawnServerConnection.ReadEventCallback sampleContext sampleOracle sampleServer 3
      (some (1 :: stdinMessage.tail, [])) = some sampleServer :=
  (malformed_message_discarded sampleContext sampleOracle sampleServer 3 1 stdinMessage.tail []
    rfl).1

/-! ## Removing a connection -/

theorem connection_split (s : SpawnServerProcess) (self : Nat) (c : SpawnServerConnection)
    (hc : s.connection self = some c) :
    ∃ before after, s.connections = before ++ c :: after ∧
      (∀ x ∈ before, x.socket ≠ self) ∧ c.socket = self ∧
      s.connections.eraseP (fun c => c.socket = self) = before ++ after := by
  unfold SpawnServerProcess.connection at hc
  generalize s.connections = l at hc
  induction l with
  | nil => simp at hc
  | cons x xs ih =>
    by_cases hx : x.socket = self
    · simp only [List.find?, hx, decide_True, Option.some.injEq] at hc
      subst hc
      exact ⟨[], xs, rfl, by simp, hx, by simp [List.eraseP, hx]⟩
    · simp only [List.find?, hx, decide_False] at hc
      obtain ⟨b, a, h1, h2, h3, h4⟩ := ih hc
      refine ⟨x :: b, a, by rw [h1]; rfl, ?_, h3, ?_⟩
      · intro y hy
        rcases List.mem_cons.mp hy with rfl | hy
        · exact hx
        · exact h2 y hy
      · simp [List.eraseP, hx, h4]

theorem Kill_children (r : ChildProcessRegistry) (pid signo : Int) :
    (r.Kill pid signo).children = r.children.filter (fun e => e.pid ≠ pid) ∧
    (r.Kill pid signo).is_volatile = r.is_volatile := by
  unfold ChildProcessRegistry.Kill
  split
  · exact ⟨rfl, rfl⟩
  · rename_i hno
    refine ⟨?_, rfl⟩
    symm
    rw [List.filter_eq_self]
    intro e he
    simp only [List.any_eq_true, decide_eq_true_eq, not_exists, not_and] at hno
    simpa using hno e he

theorem destroy_spec (c : SpawnServerConnection) (s : SpawnServerProcess) :
    (SpawnServerConnection.destroy s c).connections = s.connections ∧
    (SpawnServerConnection.destroy s c).trace =
      s.trace ++ c.children.map (fun child => Effect.RegistryKill child.pid SIGTERM) ∧
    (SpawnServerConnection.destroy s c).child_process_registry.children =
      s.child_process_registry.children.filter
        (fun e => !(c.children.any (fun child => decide (child.pid = e.pid)))) ∧
    (SpawnServerConnection.destroy s c).child_process_registry.is_volatile =
      s.child_process_registry.is_volatile := by
  unfold SpawnServerConnection.destroy
  generalize c.children = l
  induction l generalizing s with
  | nil => simp
  | cons x xs ih =>
    obtain ⟨h1, h2, h3, h4⟩ := ih (s.Kill x.pid SIGTERM)
    simp only [List.foldl_cons]
    refine ⟨h1, ?_, ?_, ?_⟩
    · rw [h2]
      simp [SpawnServerProcess.Kill]
    · rw [h3]
      simp only [SpawnServerProcess.Kill, (Kill_children _ _ _).1, List.filter_filter]
      apply List.filter_congr
      intro e _
      by_cases hp : x.pid = e.pid
      · simp [hp]
      · have hp' : ¬ e.pid = x.pid := fun h => hp h.symm
        simp [hp, hp']
    · rw [h4]
      exact (Kill_children _ _ _).2

theorem RemoveConnection_spec (s : SpawnServerProcess) (self : Nat) (c : SpawnServerConnection)
    (hc : s.connection self = some c) :
    ∃ before after, s.connections = before ++ c :: after ∧
      (∀ x ∈ before, x.socket ≠ self) ∧ c.socket = self ∧
      (s.RemoveConnection self).connections = before ++ after ∧
      (s.RemoveConnection self).trace =
        s.trace ++ c.children.map (fun child => Effect.RegistryKill child.pid SIGTERM) ++
          (if (before ++ after).isEmpty then [Effect.SetVolatile] else []) ∧
      (s.RemoveConnection self).child_process_registry.children =
        s.child_process_registry.children.filter
          (fun e => !(c.children.any (fun child => decide (child.pid = e.pid)))) ∧
      (s.RemoveConnection self).child_process_registry.is_volatile =
        (s.child_process_registry.is_volatile || (before ++ after).isEmpty) := by
  obtain ⟨before, after, h1, h2, h3, h4⟩ := connection_split s self c hc
  refine ⟨before, after, h1, h2, h3, ?_⟩
  unfold SpawnServerProcess.RemoveConnection
  simp only [hc]
  rw [h4]
  obtain ⟨d1, d2, d3, d4⟩ := destroy_spec c { s with connections := before ++ after }
  simp only at d1 d2 d3 d4
  by_cases he : (before ++ after).isEmpty = true
  · simp only [d1, he, if_true]
    refine ⟨d1, ?_, ?_, ?_⟩
    · simp [SpawnServerProcess.Quit, d2]
    · simp [SpawnServerProcess.Quit, ChildProcessRegistry.SetVolatile, d3]
    · simp [SpawnServerProcess.Quit, ChildProcessRegistry.SetVolatile]
  · simp only [d1, he, if_false]
    refine ⟨d1, ?_, d3, ?_⟩
    · simp [d2]
    · simp [d4, he]

theorem RemoveConnection_absent (s : SpawnServerProcess) (self : Nat)
    (hc : s.connection self = none) : s.RemoveConnection self = s := by
  unfold SpawnServerProcess.RemoveConnection
  simp only [hc]

theorem connection_after_remove (before after : List SpawnServerConnection)
    (c : SpawnServerConnection) (self : Nat)
    (hnodup : ((before ++ c :: after).map (fun x => x.socket)).Nodup)
    (hself : c.socket = self) :
    List.find? (fun x => decide (x.socket = self)) (before ++ after) = none := by
  rw [List.find?_eq_none]
  intro x hx hxs
  simp only [decide_eq_true_eq] at hxs
  simp only [List.map_append, List.map_cons] at hnodup
  rw [List.nodup_append] at hnodup
  obtain ⟨_, h2, h3⟩ := hnodup
  rcases List.mem_append.mp hx with hb | ha
  · exact h3 (List.mem_map_of_mem _ hb) (by rw [hxs, hself]; exact List.mem_cons_self _ _)
  · rw [List.nodup_cons] at h2
    apply h2.1
    rw [hself, ← hxs]
    exact List.mem_map_of_mem _ ha

/-! ## `ReadEventCallback` -/

theorem HandleMessage_isSome (ctx : Context) (o : Oracle) (s : SpawnServerProcess) (self : Nat)
    (cmd : Nat) (payload : SpawnPayload) (fds : SpawnFdList) :
    ∃ r, SpawnServerConnection.HandleMessage ctx o s self cmd payload fds = some r := by
  unfold SpawnServerConnection.HandleMessage
  cases ctx.abi.requestCommand cmd with
  | none => exact ⟨_, rfl⟩
  | some c =>
    cases c with
    | CONNECT =>
      simp only
      split
      · exact ⟨_, rfl⟩
      · cases SpawnFdList.Get fds with
        | error e => exact ⟨_, rfl⟩
        | ok x => exact ⟨_, rfl⟩
    | EXEC =>
      simp only [SpawnServerConnection.HandleExecMessage]
      obtain ⟨r, hr⟩ := decodeExec_isSome ctx.abi payload fds
      rw [hr]
      cases r with
      | error e => exact ⟨_, rfl⟩
      | ok x => exact ⟨_, rfl⟩
    | KILL => exact ⟨_, rfl⟩

theorem ReadEventCallback_isSome (ctx : Context) (o : Oracle) (s : SpawnServerProcess)
    (self : Nat) (received : Option (List Nat × SpawnFdList)) :
    ∃ s', SpawnServerConnection.ReadEventCallback ctx o s self received = some s' := by
  unfold SpawnServerConnection.ReadEventCallback
  cases received with
  | none => exact ⟨_, rfl⟩
  | some x =>
    obtain ⟨message, fds⟩ := x
    cases message with
    | nil => exact ⟨_, rfl⟩
    | cons cmd payload =>
      obtain ⟨r, hr⟩ := HandleMessage_isSome ctx o s self cmd payload fds
      simp only [hr]
      cases r with
      | ok s' => exact ⟨_, rfl⟩
      | error e => cases e <;> exact ⟨_, rfl⟩

/-- Claim C14: `ReadEventCallback` always returns a server state to the event
loop, whatever is received and whatever the handlers raise.  When
`ReceiveMessage` throws, or handling the message raises an error other than
`MalformedSpawnPayloadError`, the result is `RemoveConnection` of this
connection: exactly this connection is taken out of the live-connection
list, every other connection stays in place with its child set unchanged,
and with pairwise distinct sockets no live connection has this socket
afterwards. -/
theorem read_event_errors_contained (ctx : Context) (o : Oracle) (s : SpawnServerProcess)
    (self : Nat) (received : Option (List Nat × SpawnFdList)) (c : SpawnServerConnection)
    (hc : s.connection self = some c) :
    (∃ s', SpawnServerConnection.ReadEventCallback ctx o s self received = some s') ∧
    ((received = none ∨ ∃ cmd payload fds, received = some (cmd :: payload, fds) ∧
        SpawnServerConnection.HandleMessage ctx o s self cmd payload fds = some (.error .other)) →
      SpawnServerConnection.ReadEventCallback ctx o s self received
        = some (s.RemoveConnection self) ∧
      ∃ before after, s.connections = before ++ c :: after ∧
        (s.RemoveConnection self).connections = before ++ after ∧
        ((s.connections.map (fun x => x.socket)).Nodup →
          (s.RemoveConnection self).connection self = none)) := by
  refine ⟨ReadEventCallback_isSome ctx o s self received, fun h => ⟨?_, ?_⟩⟩
  · rcases h with rfl | ⟨cmd, payload, fds, rfl, hm⟩
    · rfl
    · simp only [SpawnServerConnection.ReadEventCallback, hm]
  · obtain ⟨before, after, h1, _, h3, h4, _⟩ := RemoveConnection_spec s self c hc
    refine ⟨before, after, h1, h4, fun hnd => ?_⟩
    unfold SpawnServerProcess.connection
    rw [h4]
    rw [h1] at hnd
    exact connection_after_remove before after c self hnd h3

/-- Witness of C14: on connection 3 of two, the hook throws while an EXEC
message is handled; connection 3 is removed and connection 4 is kept. -/
theorem read_event_errors_contained_witness :
    SpawnServerConnection.ReadEventCallback throwingContext sampleOracle twoConnections 3
        (some (execMessage, [])) = some (twoConnections.RemoveConnection 3) ∧
    (twoConnections.RemoveConnection 3).connections =
      [{ socket := 4, children := [{ connection := 4, id := 5, pid := 60, name := [98] }] }] :=
  ⟨((read_event_errors_contained throwingContext sampleOracle twoConnections 3
      (some (execMessage, [])) { socket := 3, children := [sampleChild] } (by decide)).2
      (Or.inr ⟨1, execMessage.tail, [], rfl, rfl⟩)).1, by decide⟩

/-! ## KILL and CONNECT -/

theorem ChildIdMap.find_none_of_absent (m : ChildIdMap) (id : Int) (h : ∀ x ∈ m, x.id ≠ id) :
    ChildIdMap.find m id = none := by
  unfold ChildIdMap.find
  rw [List.find?_eq_none]
  intro x hx
  have := h x hx
  simp only [Bool.and_eq_true, Bool.not_eq_true', decide_eq_false_iff_not, not_and, not_not]
  intro h1
  omega

theorem ChildIdMap.id_injective (m : ChildIdMap) (hs : m.Pairwise (fun a b => a.id < b.id))
    (x y : SpawnServerChild) (hx : x ∈ m) (hy : y ∈ m) (hid : x.id = y.id) : x = y := by
  induction m with
  | nil => simp at hx
  | cons z zs ih =>
    rw [List.pairwise_cons] at hs
    rcases List.mem_cons.mp hx with rfl | hx' <;> rcases List.mem_cons.mp hy with rfl | hy'
    · rfl
    · have := hs.1 y hy'
      omega
    · have := hs.1 x hx'
      omega
    · exact ih hs.2 hx' hy'

theorem ChildIdMap.find_present (m : ChildIdMap) (hs : m.Pairwise (fun a b => a.id < b.id))
    (child : SpawnServerChild) (hmem : child ∈ m) : ChildIdMap.find m child.id = some child := by
  cases hf : ChildIdMap.find m child.id with
  | none => exact absurd rfl (ChildIdMap.find_eq_none hf child hmem)
  | some x =>
    unfold ChildIdMap.find at hf
    have hx := List.mem_of_find?_eq_some hf
    have hp := List.find?_some hf
    simp only [Bool.and_eq_true, Bool.not_eq_true', decide_eq_false_iff_not] at hp
    have hid : x.id = child.id := by omega
    rw [ChildIdMap.id_injective m hs x child hx hmem hid]

theorem ChildIdMap.nodup (m : ChildIdMap) (hs : m.Pairwise (fun a b => a.id < b.id)) :
    m.Nodup := by
  unfold List.Nodup
  refine List.Pairwise.imp ?_ hs
  intro a b hab heq
  rw [heq] at hab
  omega

/-- Claim C15: a well-formed KILL message (id and signal number, no
descriptors) whose id is not the id of a record in the connection's child set
is a no-op: the handler returns normally with the server state as it was, so
the child sets and the Child Registry are unchanged and the trace has not
grown (no signal and no transmission). -/
theorem kill_unknown_id (ctx : Context) (o : Oracle) (s : SpawnServerProcess) (self : Nat)
    (cmd : Nat) (id signo : Int)
    (hcmd : ctx.abi.requestCommand cmd = some .KILL)
    (hid : -(2 ^ 31) ≤ id ∧ id < 2 ^ 31)
    (habsent : ∀ c, s.connection self = some c → ∀ x ∈ c.children, x.id ≠ id) :
    SpawnServerConnection.HandleKillMessage s self (int32Bytes id ++ int32Bytes signo) []
      = .ok s ∧
    SpawnServerConnection.HandleMessage ctx o s self cmd (int32Bytes id ++ int32Bytes signo) []
      = some (.ok s) ∧
    SpawnServerConnection.ReadEventCallback ctx o s self
      (some (cmd :: (int32Bytes id ++ int32Bytes signo), [])) = some s := by
  have hk : SpawnServerConnection.HandleKillMessage s self (int32Bytes id ++ int32Bytes signo) []
      = .ok s := by
    rw [HandleKillMessage_wellformed s self (int32Bytes id ++ int32Bytes signo) rfl]
    cases hc : s.connection self with
    | none => rfl
    | some c =>
      simp only
      have e : List.take 4 (int32Bytes id ++ int32Bytes signo) = int32Bytes id := rfl
      rw [e, toInt32_int32Bytes id hid.1 hid.2,
        ChildIdMap.find_none_of_absent c.children id (habsent c hc)]
  have hm : SpawnServerConnection.HandleMessage ctx o s self cmd
      (int32Bytes id ++ int32Bytes signo) [] = some (.ok s) := by
    simp only [SpawnServerConnection.HandleMessage, hcmd, hk]
  refine ⟨hk, hm, ?_⟩
  simp only [SpawnServerConnection.ReadEventCallback, hm]

/-- Witness of C15: KILL for id 9 on a connection that owns only id 5. -/
theorem kill_unknown_id_witness :
    SpawnServerConnection.ReadEventCallback sampleContext sampleOracle sampleServer 3
      (some (2 :: (int32Bytes 9 ++ int32Bytes 15), [])) = some sampleServer :=
  (kill_unknown_id sampleContext sampleOracle sampleServer 3 2 9 15 rfl (by decide)
    (fun c hc x hx hid => by
      have e : sampleServer.connection 3 = some { socket := 3, children := [sampleChild] } := by
        decide
      rw [e] at hc
      injection hc with hc
      subst hc
      have hx' : x = sampleChild := by simpa using hx
      subst hx'
      revert hid
      decide)).2.2

/-- Claim C16: a well-formed KILL message whose id is the id of a record in the
connection's child set removes exactly that record from the set (the other
records stay, and no other connection changes), calls the Child Registry
once, with that record's process id and the requested signal number, and
transmits nothing; the new state holds no record with that id in the
connection's set, so the same KILL message a second time changes nothing. -/
theorem kill_known_id (ctx : Context) (o : Oracle) (s : SpawnServerProcess) (self : Nat)
    (cmd : Nat) (signo : Int) (c : SpawnServerConnection) (child : SpawnServerChild)
    (hcmd : ctx.abi.requestCommand cmd = some .KILL)
    (hid : -(2 ^ 31) ≤ child.id ∧ child.id < 2 ^ 31)
    (hsig : -(2 ^ 31) ≤ signo ∧ signo < 2 ^ 31)
    (hc : s.connection self = some c)
    (hset : c.children.Pairwise (fun a b => a.id < b.id))
    (hmem : child ∈ c.children) :
    ∃ s', SpawnServerConnection.ReadEventCallback ctx o s self
        (some (cmd :: (int32Bytes child.id ++ int32Bytes signo), [])) = some s' ∧
      s'.connection self = some { c with children := c.children.erase child } ∧
      (∀ x, x ∈ c.children.erase child ↔ x ∈ c.children ∧ x ≠ child) ∧
      s'.connections = s.connections.map (fun x =>
        if x.socket = self then { x with children := x.children.erase child } else x) ∧
      s'.trace = s.trace ++ [.RegistryKill child.pid signo] ∧
      s'.child_process_registry = s.child_process_registry.Kill child.pid signo ∧
      SpawnServerConnection.ReadEventCallback ctx o s' self
        (some (cmd :: (int32Bytes child.id ++ int32Bytes signo), [])) = some s' := by
  have hk : SpawnServerConnection.HandleKillMessage s self
      (int32Bytes child.id ++ int32Bytes signo) []
      = .ok ((s.setChildren self (fun children => children.erase child)).Kill child.pid signo) := by
    rw [HandleKillMessage_wellformed s self (int32Bytes child.id ++ int32Bytes signo) rfl, hc]
    simp only
    have e1 : List.take 4 (int32Bytes child.id ++ int32Bytes signo) = int32Bytes child.id := rfl
    have e2 : List.take 4 (List.drop 4 (int32Bytes child.id ++ int32Bytes signo))
        = int32Bytes signo := rfl
    rw [e1, e2, toInt32_int32Bytes child.id hid.1 hid.2, toInt32_int32Bytes signo hsig.1 hsig.2,
      ChildIdMap.find_present c.children hset child hmem]
  have hconn : ((s.setChildren self (fun children => children.erase child)).Kill child.pid
      signo).connection self = some { c with children := c.children.erase child } :=
    connection_setChildren s self (fun children => children.erase child) c hc
  have hgone : ∀ x ∈ c.children.erase child, x.id ≠ child.id := by
    intro x hx hxid
    have hnd := ChildIdMap.nodup c.children hset
    have hx2 := (List.Nodup.mem_erase_iff hnd).mp hx
    exact hx2.1 (ChildIdMap.id_injective c.children hset x child hx2.2 hmem hxid)
  refine ⟨_, ?_, hconn, ?_, rfl, rfl, rfl, ?_⟩
  · simp only [SpawnServerConnection.ReadEventCallback, SpawnServerConnection.HandleMessage,
      hcmd, hk]
  · intro x
    rw [List.Nodup.mem_erase_iff (ChildIdMap.nodup c.children hset)]
    exact ⟨fun h => ⟨h.2, h.1⟩, fun h => ⟨h.2, h.1⟩⟩
  · exact (kill_unknown_id ctx o _ self cmd child.id signo hcmd hid
      (fun c' hc' x hx => by
        rw [hconn] at hc'
        injection hc' with hc'
        subst hc'
        exact hgone x hx)).2.2

/-- Witness of C16: KILL id 5 with signal 9 on connection 3, which owns the
record id 5, pid 50. -/
theorem kill_known_id_witness :
    ∃ s', SpawnServerConnection.ReadEventCallback sampleContext sampleOracle sampleServer 3
        (some (2 :: (int32Bytes sampleChild.id ++ int32Bytes 9), [])) = some s' ∧
      s'.connection 3 = some { socket := 3, children := [] } ∧
      s'.trace = [.RegistryKill 50 9] ∧
      s'.child_process_registry.signals = [(50, 9)] := by
  obtain ⟨s', h1, h2, -, -, h5, h6, -⟩ := kill_known_id sampleContext sampleOracle sampleServer 3 2 9
    { socket := 3, children := [sampleChild] } sampleChild rfl (by decide) (by decide) (by decide)
    (by decide) (by decide)
  exact ⟨s', h1, h2, h5, by rw [h6]; decide⟩

theorem ChildIdMap.mem_of_mem_insert (m : ChildIdMap) (c y : SpawnServerChild)
    (h : y ∈ ChildIdMap.insert m c) : y = c ∨ y ∈ m := by
  induction m with
  | nil =>
    simp only [ChildIdMap.insert, List.mem_singleton] at h
    exact Or.inl h
  | cons x xs ih =>
    unfold ChildIdMap.insert at h
    split at h
    · rcases List.mem_cons.mp h with h | h
      · exact Or.inl h
      · exact Or.inr h
    · split at h
      · rcases List.mem_cons.mp h with h | h
        · exact Or.inr (h ▸ List.mem_cons_self _ _)
        · rcases ih h with h | h
          · exact Or.inl h
          · exact Or.inr (List.mem_cons_of_mem _ h)
      · exact Or.inr h

theorem ChildIdMap.insert_sorted (m : ChildIdMap) (c : SpawnServerChild)
    (hs : m.Pairwise (fun a b => a.id < b.id)) :
    (ChildIdMap.insert m c).Pairwise (fun a b => a.id < b.id) := by
  induction m with
  | nil => simp [ChildIdMap.insert]
  | cons x xs ih =>
    rw [List.pairwise_cons] at hs
    unfold ChildIdMap.insert
    split
    · rename_i hlt
      rw [List.pairwise_cons]
      refine ⟨?_, List.pairwise_cons.mpr hs⟩
      intro y hy
      rcases List.mem_cons.mp hy with rfl | hy
      · exact hlt
      · have := hs.1 y hy
        omega
    · split
      · rename_i hlt
        rw [List.pairwise_cons]
        refine ⟨?_, ih hs.2⟩
        intro y hy
        rcases ChildIdMap.mem_of_mem_insert xs c y hy with rfl | hy
        · exact hlt
        · exact hs.1 y hy
      · exact List.pairwise_cons.mpr hs

/-- Claim C17: a KILL message is accepted exactly when it carries no descriptor
and its payload after the command byte is 8 bytes long (two 32-bit integers).
With a shorter payload, a longer payload or any descriptor, the handler
raises `MalformedSpawnPayloadError` before it looks anything up, and
`ReadEventCallback` returns the server state as it was, whatever the child
sets hold. -/
theorem kill_message_format (ctx : Context) (o : Oracle) (s : SpawnServerProcess) (self : Nat)
    (cmd : Nat) (payload : SpawnPayload) (fds : SpawnFdList)
    (hcmd : ctx.abi.requestCommand cmd = some .KILL) :
    ((fds = [] ∧ payload.length = 8) ↔
      ∃ s', SpawnServerConnection.HandleKillMessage s self payload fds = .ok s') ∧
    (¬ (fds = [] ∧ payload.length = 8) →
      SpawnServerConnection.HandleKillMessage s self payload fds
        = .error .MalformedSpawnPayloadError ∧
      SpawnServerConnection.ReadEventCallback ctx o s self (some (cmd :: payload, fds))
        = some s) := by
  have hbad : ¬ (fds = [] ∧ payload.length = 8) →
      SpawnServerConnection.HandleKillMessage s self payload fds
        = .error .MalformedSpawnPayloadError ∧
      SpawnServerConnection.ReadEventCallback ctx o s self (some (cmd :: payload, fds))
        = some s := by
    intro h
    have hk := HandleKillMessage_malformed s self payload fds h
    refine ⟨hk, ?_⟩
    simp only [SpawnServerConnection.ReadEventCallback, SpawnServerConnection.HandleMessage,
      hcmd, hk]
  refine ⟨⟨?_, ?_⟩, hbad⟩
  · rintro ⟨rfl, h8⟩
    rw [HandleKillMessage_wellformed s self payload h8]
    cases s.connection self with
    | none => exact ⟨_, rfl⟩
    | some c =>
      simp only
      cases ChildIdMap.find c.children (toInt32 (leValue (List.take 4 payload))) with
      | none => exact ⟨_, rfl⟩
      | some child => exact ⟨_, rfl⟩
  · rintro ⟨s', hs'⟩
    by_contra hno
    rw [(hbad hno).1] at hs'
    simp at hs'

/-- Witness of C17: a KILL message for the live id 5 with one trailing byte. -/
theorem kill_message_format_witness :
    SpawnServerConnection.HandleKillMessage sampleServer 3 (int32Bytes 5 ++ int32Bytes 15 ++ [0]) []
        = .error .MalformedSpawnPayloadError ∧
      SpawnServerConnection.ReadEventCallback sampleContext sampleOracle sampleServer 3
        (some (2 :: (int32Bytes 5 ++ int32Bytes 15 ++ [0]), [])) = some sampleServer :=
  (kill_message_format sampleContext sampleOracle sampleServer 3 2
    (int32Bytes 5 ++ int32Bytes 15 ++ [0]) [] rfl).2 (by decide)

/-- Claim C18: a CONNECT message with no descriptor, with more than one
descriptor, or with a payload byte after the command byte raises
`MalformedSpawnPayloadError`; no connection is added, `ReadEventCallback`
returns the server state as it was. -/
theorem connect_descriptor_count (ctx : Context) (o : Oracle) (s : SpawnServerProcess)
    (self : Nat) (cmd : Nat) (payload : SpawnPayload) (fds : SpawnFdList)
    (hcmd : ctx.abi.requestCommand cmd = some .CONNECT)
    (hbad : fds.length = 0 ∨ fds.length > 1 ∨ payload ≠ []) :
    SpawnServerConnection.HandleMessage ctx o s self cmd payload fds
      = some (.error .MalformedSpawnPayloadError) ∧
    SpawnServerConnection.ReadEventCallback ctx o s self (some (cmd :: payload, fds)) = some s := by
  have hm : SpawnServerConnection.HandleMessage ctx o s self cmd payload fds
      = some (.error .MalformedSpawnPayloadError) := by
    simp only [SpawnServerConnection.HandleMessage, hcmd]
    have hcond : (!payload.isEmpty || decide (fds.length ≠ 1)) = true := by
      rcases hbad with h | h | h
      · simp [h]
      · have : fds.length ≠ 1 := by omega
        simp [this]
      · cases payload with
        | nil => exact absurd rfl h
        | cons b tl => simp
    rw [if_pos hcond]
  exact ⟨hm, by simp only [SpawnServerConnection.ReadEventCallback, hm]⟩

/-- Witness of C18: CONNECT with two descriptors. -/
theorem connect_descriptor_count_witness :
    SpawnServerConnection.HandleMessage sampleContext sampleOracle sampleServer 3 0 [] [7, 8]
      = some (.error .MalformedSpawnPayloadError) ∧
    SpawnServerConnection.ReadEventCallback sampleContext sampleOracle sampleServer 3
      (some (0 :: [], [7, 8])) = some sampleServer :=
  connect_descriptor_count sampleContext sampleOracle sampleServer 3 0 [] [7, 8] rfl
    (Or.inr (Or.inl (by decide)))

/-! ## Destruction of a connection -/

/-- Claim C19: destroying a connection that owns N child records makes exactly
N calls of the Child Registry's `Kill`, one per owned record with that
record's process id and `SIGTERM`, and nothing else (no transmission).
`RemoveConnection` takes the connection with all its records out of the
live-connection list, leaves every other connection and every registry entry
of another process as it was, and afterwards no connection with this socket
exists, so that a KILL for any id on it changes nothing. -/
theorem destroy_connection_kills_children (s : SpawnServerProcess) (self : Nat)
    (c : SpawnServerConnection)
    (hc : s.connection self = some c)
    (hsockets : (s.connections.map (fun x => x.socket)).Nodup) :
    (SpawnServerConnection.destroy s c).trace =
      s.trace ++ c.children.map (fun child => Effect.RegistryKill child.pid SIGTERM) ∧
    (c.children.map (fun child => Effect.RegistryKill child.pid SIGTERM)).length
      = c.children.length ∧
    (∃ before after, s.connections = before ++ c :: after ∧
      (s.RemoveConnection self).connections = before ++ after ∧
      (s.RemoveConnection self).trace =
        s.trace ++ c.children.map (fun child => Effect.RegistryKill child.pid SIGTERM) ++
          (if (before ++ after).isEmpty then [Effect.SetVolatile] else [])) ∧
    (s.RemoveConnection self).connection self = none ∧
    delivered (s.RemoveConnection self).trace = delivered s.trace ∧
    (∀ e ∈ s.child_process_registry.children, (∀ child ∈ c.children, child.pid ≠ e.pid) →
      e ∈ (s.RemoveConnection self).child_process_registry.children) ∧
    (∀ id signo : Int,
      SpawnServerConnection.HandleKillMessage (s.RemoveConnection self) self
        (int32Bytes id ++ int32Bytes signo) [] = .ok (s.RemoveConnection self)) := by
  obtain ⟨before, after, h1, _, h3, h4, h5, h6, _⟩ := RemoveConnection_spec s self c hc
  have hnone : (s.RemoveConnection self).connection self = none := by
    unfold SpawnServerProcess.connection
    rw [h4]
    rw [h1] at hsockets
    exact connection_after_remove before after c self hsockets h3
  refine ⟨(destroy_spec c s).2.1, List.length_map _ _, ⟨before, after, h1, h4, h5⟩, hnone,
    (RemoveConnection_onlyDrops s self).1, ?_, ?_⟩
  · intro e he hpid
    rw [h6, List.mem_filter]
    refine ⟨he, ?_⟩
    simp only [Bool.not_eq_true', List.any_eq_false, decide_eq_true_eq]
    exact fun child hchild => hpid child hchild
  · intro id signo
    rw [HandleKillMessage_wellformed _ self (int32Bytes id ++ int32Bytes signo) rfl, hnone]

/-- Witness of C19: connection 3 of two is destroyed; its one child (pid 50)
gets `SIGTERM`, connection 4 and the registry entry of pid 60 stay. -/
theorem destroy_connection_kills_children_witness :
    (twoConnections.RemoveConnection 3).trace = [.RegistryKill 50 SIGTERM] ∧
    (twoConnections.RemoveConnection 3).connection 3 = none ∧
    (twoConnections.RemoveConnection 3).connections =
      [{ socket := 4, children := [{ connection := 4, id := 5, pid := 60, name := [98] }] }] ∧
    (twoConnections.RemoveConnection 3).child_process_registry.children =
      [{ pid := 60, name := [98], listener := { connection := 4, id := 5, pid := 60, name := [98] } }] := by
  have h := destroy_connection_kills_children twoConnections 3
    { socket := 3, children := [sampleChild] } (by decide) (by decide)
  exact ⟨by decide, h.2.2.2.1, by decide, by decide⟩

/-! ## `SendExit` and backpressure -/

/-- Claim C20: when the first transmission of `SendExit` fails with `EAGAIN`,
`ppoll` reports the socket writable and the second transmission succeeds, the
calls made are one failed transmission, one `ppoll` and one successful
transmission of the same EXIT message; exactly one EXIT message for this id
and status is delivered and the connection list and the registry are
unchanged (no teardown).  When the first transmission succeeds, that one
transmission is the only call, exactly one message is delivered, and nothing
else changes. -/
theorem SendExit_delivers_once (abi : Abi) (t : Transport) (s : SpawnServerProcess) (self : Nat)
    (id status : Int) :
    (t.first = .EAGAIN → t.ppoll = true → t.retry = .ok →
      (SpawnServerConnection.SendExit abi t s self id status).trace =
        s.trace ++ [.Send self (exitMessage abi id status) .EAGAIN, .ppoll self true,
          .Send self (exitMessage abi id status) .ok] ∧
      delivered (SpawnServerConnection.SendExit abi t s self id status).trace =
        delivered s.trace ++ [(self, exitMessage abi id status)] ∧
      (SpawnServerConnection.SendExit abi t s self id status).connections = s.connections ∧
      (SpawnServerConnection.SendExit abi t s self id status).child_process_registry
        = s.child_process_registry) ∧
    (t.first = .ok →
      (SpawnServerConnection.SendExit abi t s self id status).trace =
        s.trace ++ [.Send self (exitMessage abi id status) .ok] ∧
      delivered (SpawnServerConnection.SendExit abi t s self id status).trace =
        delivered s.trace ++ [(self, exitMessage abi id status)] ∧
      (SpawnServerConnection.SendExit abi t s self id status).connections = s.connections ∧
      (SpawnServerConnection.SendExit abi t s self id status).child_process_registry
        = s.child_process_registry) := by
  have hspec := SendExit_spec abi t s self id status
  simp only at hspec
  constructor
  · intro h1 h2 h3
    have hd : t.delivers = true := by simp [Transport.delivers, h1, h2, h3]
    refine ⟨?_, ?_, (hspec.2.2.2.2.2 hd).1, (hspec.2.2.2.2.2 hd).2⟩
    · simp [SpawnServerConnection.SendExit, h1, h2, h3, SpawnServerProcess.emit]
    · rw [hspec.1, hd]; rfl
  · intro h1
    have hd : t.delivers = true := by simp [Transport.delivers, h1]
    refine ⟨?_, ?_, (hspec.2.2.2.2.2 hd).1, (hspec.2.2.2.2.2 hd).2⟩
    · simp [SpawnServerConnection.SendExit, h1, SpawnServerProcess.emit]
    · rw [hspec.1, hd]; rfl

/-- Witness of C20: EXIT for id 5 with status 0 on connection 3, first
attempt `EAGAIN`, socket then writable, retry successful. -/
theorem SendExit_delivers_once_witness :
    (SpawnServerConnection.SendExit sampleAbi { first := .EAGAIN, ppoll := true, retry := .ok }
        sampleServer 3 5 0).trace =
      [.Send 3 (exitMessage sampleAbi 5 0) .EAGAIN, .ppoll 3 true,
       .Send 3 (exitMessage sampleAbi 5 0) .ok] ∧
    delivered (SpawnServerConnection.SendExit sampleAbi
        { first := .EAGAIN, ppoll := true, retry := .ok } sampleServer 3 5 0).trace =
      [(3, exitMessage sampleAbi 5 0)] ∧
    (SpawnServerConnection.SendExit sampleAbi { first := .EAGAIN, ppoll := true, retry := .ok }
        sampleServer 3 5 0).connections = sampleServer.connections ∧
    (SpawnServerConnection.SendExit sampleAbi { first := .EAGAIN, ppoll := true, retry := .ok }
        sampleServer 3 5 0).child_process_registry = sampleServer.child_process_registry :=
  (SendExit_delivers_once sampleAbi { first := .EAGAIN, ppoll := true, retry := .ok }
    sampleServer 3 5 0).1 rfl rfl rfl

theorem RemoveConnection_attempts (s : SpawnServerProcess) (self : Nat) :
    sendAttempts (s.RemoveConnection self).trace = sendAttempts s.trace ∧
    waits (s.RemoveConnection self).trace = waits s.trace := by
  cases hc : s.connection self with
  | none => rw [RemoveConnection_absent s self hc]; exact ⟨rfl, rfl⟩
  | some c =>
    obtain ⟨before, after, _, _, _, _, h5, _⟩ := RemoveConnection_spec s self c hc
    rw [h5]
    have hk : ∀ l : List SpawnServerChild,
        List.countP (fun e => match e with | Effect.Send _ _ _ => true | _ => false)
          (l.map (fun child => Effect.RegistryKill child.pid SIGTERM)) = 0 ∧
        List.countP (fun e => match e with | Effect.ppoll _ _ => true | _ => false)
          (l.map (fun child => Effect.RegistryKill child.pid SIGTERM)) = 0 := by
      intro l
      induction l with
      | nil => exact ⟨rfl, rfl⟩
      | cons x xs ih => simp [List.countP_cons, ih.1, ih.2]
    constructor
    · simp only [sendAttempts, List.countP_append, (hk c.children).1]
      split <;> simp
    · simp only [waits, List.countP_append, (hk c.children).2]
      split <;> simp

/-- Claim C21: whatever the transport does, `SendExit` returns normally after
at most two transmission attempts and at most one wait for write-readiness,
all for its own EXIT message on its own socket, and it calls
`RemoveConnection` (once, as its last action) exactly when the message was
not delivered: when the first attempt failed with an error other than
`EAGAIN`, or the wait did not report the socket writable, or the retry
failed.  When the message was delivered, nothing but those calls happened. -/
theorem SendExit_teardown_iff_undelivered (abi : Abi) (t : Transport) (s : SpawnServerProcess)
    (self : Nat) (id status : Int) :
    ∃ calls : List Effect,
      sendAttempts calls ≤ 2 ∧ waits calls ≤ 1 ∧
      (∀ e ∈ calls, (∃ r, e = .Send self (exitMessage abi id status) r) ∨ ∃ b, e = .ppoll self b) ∧
      SpawnServerConnection.SendExit abi t s self id status =
        (if t.delivers then { s with trace := s.trace ++ calls }
         else ({ s with trace := s.trace ++ calls } : SpawnServerProcess).RemoveConnection self) ∧
      sendAttempts (SpawnServerConnection.SendExit abi t s self id status).trace
        = sendAttempts s.trace + sendAttempts calls ∧
      waits (SpawnServerConnection.SendExit abi t s self id status).trace
        = waits s.trace + waits calls ∧
      (t.delivers = false ↔
        (t.first = .error ∨ (t.first = .EAGAIN ∧ t.ppoll = false) ∨
          (t.first = .EAGAIN ∧ t.ppoll = true ∧ t.retry ≠ .ok))) := by
  obtain ⟨first, ppoll, retry⟩ := t
  have count : ∀ (calls : List Effect) (s' : SpawnServerProcess),
      (s' = { s with trace := s.trace ++ calls } ∨
        s' = ({ s with trace := s.trace ++ calls } : SpawnServerProcess).RemoveConnection self) →
      sendAttempts s'.trace = sendAttempts s.trace + sendAttempts calls ∧
      waits s'.trace = waits s.trace + waits calls := by
    intro calls s' h
    rcases h with rfl | rfl
    · simp [sendAttempts, waits, List.countP_append]
    · have := RemoveConnection_attempts { s with trace := s.trace ++ calls } self
      rw [this.1, this.2]
      simp [sendAttempts, waits, List.countP_append]
  cases first with
  | ok =>
    refine ⟨[.Send self (exitMessage abi id status) .ok], by simp [sendAttempts, List.countP_cons], by simp [waits, List.countP_cons],
        ?_, ?_, ?_, ?_, ?_⟩
    · intro e he; simp at he; exact Or.inl ⟨_, he⟩
    · simp [SpawnServerConnection.SendExit, Transport.delivers, SpawnServerProcess.emit]
    · exact (count _ _ (Or.inl (by
        simp [SpawnServerConnection.SendExit, SpawnServerProcess.emit]))).1
    · exact (count _ _ (Or.inl (by
        simp [SpawnServerConnection.SendExit, SpawnServerProcess.emit]))).2
    · simp [Transport.delivers]
  | error =>
    refine ⟨[.Send self (exitMessage abi id status) .error], by simp [sendAttempts, List.countP_cons], by simp [waits, List.countP_cons],
        ?_, ?_, ?_, ?_, ?_⟩
    · intro e he; simp at he; exact Or.inl ⟨_, he⟩
    · simp [SpawnServerConnection.SendExit, Transport.delivers, SpawnServerProcess.emit]
    · exact (count _ _ (Or.inr (by
        simp [SpawnServerConnection.SendExit, SpawnServerProcess.emit]))).1
    · exact (count _ _ (Or.inr (by
        simp [SpawnServerConnection.SendExit, SpawnServerProcess.emit]))).2
    · simp [Transport.delivers]
  | EAGAIN =>
    cases ppoll with
    | false =>
      refine ⟨[.Send self (exitMessage abi id status) .EAGAIN, .ppoll self false],
        by simp [sendAttempts, List.countP_cons], by simp [waits, List.countP_cons],
        ?_, ?_, ?_, ?_, ?_⟩
      · intro e he
        simp at he
        rcases he with rfl | rfl
        · exact Or.inl ⟨_, rfl⟩
        · exact Or.inr ⟨_, rfl⟩
      · simp [SpawnServerConnection.SendExit, Transport.delivers, SpawnServerProcess.emit]
      · exact (count _ _ (Or.inr (by
          simp [SpawnServerConnection.SendExit, SpawnServerProcess.emit]))).1
      · exact (count _ _ (Or.inr (by
          simp [SpawnServerConnection.SendExit, SpawnServerProcess.emit]))).2
      · simp [Transport.delivers]
    | true =>
      refine ⟨[.Send self (exitMessage abi id status) .EAGAIN, .ppoll self true,
        .Send self (exitMessage abi id status) retry], by simp [sendAttempts, List.countP_cons], by simp [waits, List.countP_cons],
        ?_, ?_, ?_, ?_, ?_⟩
      · intro e he
        simp at he
        rcases he with rfl | rfl | rfl
        · exact Or.inl ⟨_, rfl⟩
        · exact Or.inr ⟨_, rfl⟩
        · exact Or.inl ⟨_, rfl⟩
      · cases retry <;>
          simp [SpawnServerConnection.SendExit, Transport.delivers, SpawnServerProcess.emit]
      · cases retry
        · exact (count _ _ (Or.inl (by
            simp [SpawnServerConnection.SendExit, SpawnServerProcess.emit]))).1
        · exact (count _ _ (Or.inr (by
            simp [SpawnServerConnection.SendExit, SpawnServerProcess.emit]))).1
        · exact (count _ _ (Or.inr (by
            simp [SpawnServerConnection.SendExit, SpawnServerProcess.emit]))).1
      · cases retry
        · exact (count _ _ (Or.inl (by
            simp [SpawnServerConnection.SendExit, SpawnServerProcess.emit]))).2
        · exact (count _ _ (Or.inr (by
            simp [SpawnServerConnection.SendExit, SpawnServerProcess.emit]))).2
        · exact (count _ _ (Or.inr (by
            simp [SpawnServerConnection.SendExit, SpawnServerProcess.emit]))).2
      · cases retry <;> simp [Transport.delivers]

/-! ## The failed-spawn status -/

/-- Claim C22: on each of the three failed-spawn paths of `SpawnChild` (the
verification throws, the uid/gid is missing without a default, the spawn
attempt throws) the status passed to `SendExit` is the one value
`W_EXITCODE(0xff, 0)` = 0xff00.  Under the wait-status macros this value is
a normal exit (`WIFEXITED`, low seven bits zero) with `WEXITSTATUS` 255 and
no terminating signal: it is the very status of a process that exited with
code 255. -/
theorem failed_spawn_status (ctx : Context) (o : Oracle) (s : SpawnServerProcess) (self : Nat)
    (id : Int) (name : CString) (p : PreparedChildProcess) :
    (verifyUidGid ctx p = .error .std_exception →
      SpawnServerConnection.SpawnChild ctx o s self id name p =
        .ok (SpawnServerConnection.SendExit ctx.abi o.transport s self id (W_EXITCODE 0xff 0))) ∧
    (verifyUidGid ctx p = .ok () →
      (ctx.abi.IsEmpty p.uid_gid && ctx.abi.IsEmpty ctx.config.default_uid_gid) = true →
      SpawnServerConnection.SpawnChild ctx o s self id name p =
        .ok (SpawnServerConnection.SendExit ctx.abi o.transport s self id (W_EXITCODE 0xff 0))) ∧
    (verifyUidGid ctx p = .ok () →
      (ctx.abi.IsEmpty p.uid_gid && ctx.abi.IsEmpty ctx.config.default_uid_gid) = false →
      o.spawn (applyDefault ctx p) = none →
      SpawnServerConnection.SpawnChild ctx o s self id name p =
        .ok (SpawnServerConnection.SendExit ctx.abi o.transport
          (s.emit (.SpawnChildProcess (applyDefault ctx p) none)) self id (W_EXITCODE 0xff 0))) ∧
    W_EXITCODE 0xff 0 = 0xff00 ∧
    WIFEXITED (W_EXITCODE 0xff 0) = true ∧
    WEXITSTATUS (W_EXITCODE 0xff 0) = 255 ∧
    WTERMSIG (W_EXITCODE 0xff 0) = 0 ∧
    WIFSIGNALED (W_EXITCODE 0xff 0) = false := by
  refine ⟨fun hv => ?_, fun hv he => ?_, fun hv hne hs => ?_, by decide, by decide, by decide,
    by decide, by decide⟩
  · simp [SpawnServerConnection.SpawnChild, hv]
  · unfold SpawnServerConnection.SpawnChild
    simp only [hv, he, if_true]
  · rw [SpawnChild_spawn_path ctx o s self id name p hv hne, hs]

/-- Witness of C22: the hook throws for a child with explicit uid/gid. -/
theorem failed_spawn_status_witness :
    SpawnServerConnection.SpawnChild refusingContext sampleOracle sampleServer 3 7 [120]
        explicitChild =
      .ok (SpawnServerConnection.SendExit sampleAbi sampleOracle.transport sampleServer 3 7 0xff00) :=
  (failed_spawn_status refusingContext sampleOracle sampleServer 3 7 [120] explicitChild).1 rfl

/-! ## Exit notifications -/

theorem setChildren_sockets (s : SpawnServerProcess) (self : Nat) (f : ChildIdMap → ChildIdMap) :
    (s.setChildren self f).connections.map (fun x => x.socket)
      = s.connections.map (fun x => x.socket) := by
  simp only [SpawnServerProcess.setChildren, List.map_map]
  apply List.map_congr_left
  intro x _
  simp only [Function.comp]
  split <;> rfl

theorem SendExit_connection (abi : Abi) (t : Transport) (s : SpawnServerProcess) (self : Nat)
    (id status : Int) (c : SpawnServerConnection) (hc : s.connection self = some c)
    (hsockets : (s.connections.map (fun x => x.socket)).Nodup) :
    (SpawnServerConnection.SendExit abi t s self id status).connection self =
      if t.delivers then some c else none := by
  obtain ⟨calls, -, -, -, heq, -, -, -⟩ :=
    SendExit_teardown_iff_undelivered abi t s self id status
  rw [heq]
  cases t.delivers with
  | true => exact hc
  | false =>
    simp only [Bool.false_eq_true, if_false]
    have hc0 : ({ s with trace := s.trace ++ calls } : SpawnServerProcess).connection self
        = some c := hc
    obtain ⟨before, after, h1, -, h3, h4, -⟩ := RemoveConnection_spec _ self c hc0
    unfold SpawnServerProcess.connection
    rw [h4]
    have h1' : s.connections = before ++ c :: after := h1
    rw [h1'] at hsockets
    exact connection_after_remove before after c self hsockets h3

/-- Claim C23: when the exit of a child record of a connection's child set is
notified with wait status `status`, the connection first removes exactly
that record from its child set (the other records and every other
connection stay, nothing is called yet), and then makes exactly one
`SendExit`, whose message is the EXIT tag followed by the record's id and by
the status as it was passed; at most one such message is delivered.
Afterwards a KILL for that id on the connection changes nothing. -/
theorem child_exit_notification (abi : Abi) (t : Transport) (s : SpawnServerProcess)
    (child : SpawnServerChild) (status : Int) (c : SpawnServerConnection)
    (hc : s.connection child.connection = some c)
    (hset : c.children.Pairwise (fun a b => a.id < b.id))
    (hmem : child ∈ c.children)
    (hid : -(2 ^ 31) ≤ child.id ∧ child.id < 2 ^ 31)
    (hsockets : (s.connections.map (fun x => x.socket)).Nodup) :
    SpawnServerConnection.OnChildProcessExit abi t s child status =
      SpawnServerConnection.SendExit abi t
        (s.setChildren child.connection (fun children => children.erase child))
        child.connection child.id status ∧
    (s.setChildren child.connection (fun children => children.erase child)).connection
        child.connection = some { c with children := c.children.erase child } ∧
    (∀ x, x ∈ c.children.erase child ↔ x ∈ c.children ∧ x ≠ child) ∧
    (s.setChildren child.connection (fun children => children.erase child)).connections =
      s.connections.map (fun x =>
        if x.socket = child.connection then { x with children := x.children.erase child }
        else x) ∧
    (s.setChildren child.connection (fun children => children.erase child)).trace = s.trace ∧
    (s.setChildren child.connection (fun children => children.erase child)).child_process_registry
      = s.child_process_registry ∧
    exitMessage abi child.id status = abi.EXIT :: (int32Bytes child.id ++ int32Bytes status) ∧
    (-(2 ^ 31) ≤ status ∧ status < 2 ^ 31 → toInt32 (leValue (int32Bytes status)) = status) ∧
    delivered (SpawnServerConnection.OnChildProcessExit abi t s child status).trace =
      delivered s.trace ++
        (if t.delivers then [(child.connection, exitMessage abi child.id status)] else []) ∧
    (∀ signo : Int,
      SpawnServerConnection.HandleKillMessage
        (SpawnServerConnection.OnChildProcessExit abi t s child status) child.connection
        (int32Bytes child.id ++ int32Bytes signo) []
      = .ok (SpawnServerConnection.OnChildProcessExit abi t s child status)) := by
  have hconn := connection_setChildren s child.connection
    (fun children => children.erase child) c hc
  have hnd := ChildIdMap.nodup c.children hset
  have hgone : ∀ x ∈ c.children.erase child, x.id ≠ child.id := by
    intro x hx hxid
    have hx2 := (List.Nodup.mem_erase_iff hnd).mp hx
    exact hx2.1 (ChildIdMap.id_injective c.children hset x child hx2.2 hmem hxid)
  refine ⟨rfl, hconn, ?_, rfl, rfl, rfl, rfl, fun h => toInt32_int32Bytes status h.1 h.2, ?_, ?_⟩
  · intro x
    rw [List.Nodup.mem_erase_iff hnd]
    exact ⟨fun h => ⟨h.2, h.1⟩, fun h => ⟨h.2, h.1⟩⟩
  · exact (SendExit_spec abi t _ child.connection child.id status).1
  · intro signo
    have hs2 : ((s.setChildren child.connection
        (fun children => children.erase child)).connections.map (fun x => x.socket)).Nodup := by
      rw [setChildren_sockets]; exact hsockets
    have hafter := SendExit_connection abi t _ child.connection child.id status _ hconn hs2
    show SpawnServerConnection.HandleKillMessage
      (SpawnServerConnection.SendExit abi t
        (s.setChildren child.connection (fun children => children.erase child))
        child.connection child.id status) child.connection
      (int32Bytes child.id ++ int32Bytes signo) [] = _
    rw [HandleKillMessage_wellformed _ child.connection
      (int32Bytes child.id ++ int32Bytes signo) rfl, hafter]
    cases t.delivers with
    | false => rfl
    | true =>
      simp only [if_true]
      have e1 : List.take 4 (int32Bytes child.id ++ int32Bytes signo) = int32Bytes child.id := rfl
      rw [e1, toInt32_int32Bytes child.id hid.1 hid.2,
        ChildIdMap.find_none_of_absent _ child.id hgone]
      rfl

/-- Witness of C23: the child id 5 (pid 50) of connection 3 exits with status
0x0100 (exit code 1). -/
theorem child_exit_notification_witness :
    SpawnServerConnection.OnChildProcessExit sampleAbi sampleOracle.transport sampleServer
        sampleChild 256 =
      SpawnServerConnection.SendExit sampleAbi sampleOracle.transport
        (sampleServer.setChildren 3 (fun children => children.erase sampleChild)) 3 5 256 ∧
    (sampleServer.setChildren 3 (fun children => children.erase sampleChild)).connection 3
      = some { socket := 3, children := [] } ∧
    delivered (SpawnServerConnection.OnChildProcessExit sampleAbi sampleOracle.transport
        sampleServer sampleChild 256).trace = [(3, [1, 5, 0, 0, 0, 0, 1, 0, 0])] := by
  have h := child_exit_notification sampleAbi sampleOracle.transport sampleServer sampleChild 256
    { socket := 3, children := [sampleChild] } (by decide) (by decide) (by decide) (by decide)
    (by decide)
  exact ⟨h.1, h.2.1, by decide⟩

/-! ## Closing, removing and adding connections -/

/-- Claim C24: when the receive returns an empty payload, `ReadEventCallback`
does nothing but `RemoveConnection` of this connection: the connection leaves
the live-connection list, each of its children is sent `SIGTERM` through the
registry and discarded, nothing is transmitted or spawned, and the outcome
does not depend on the server context or on anything a message handler
would consult.  A command byte is taken only from a non-empty payload, as
its first byte. -/
theorem empty_read_closes (ctx : Context) (o : Oracle) (s : SpawnServerProcess) (self : Nat)
    (fds : SpawnFdList) (c : SpawnServerConnection) (hc : s.connection self = some c) :
    SpawnServerConnection.ReadEventCallback ctx o s self (some ([], fds))
      = some (s.RemoveConnection self) ∧
    (∃ before after, s.connections = before ++ c :: after ∧
      (s.RemoveConnection self).connections = before ++ after ∧
      (s.RemoveConnection self).trace =
        s.trace ++ c.children.map (fun child => Effect.RegistryKill child.pid SIGTERM) ++
          (if (before ++ after).isEmpty then [Effect.SetVolatile] else [])) ∧
    delivered (s.RemoveConnection self).trace = delivered s.trace ∧
    spawns (s.RemoveConnection self).trace = spawns s.trace ∧
    registryAdds (s.RemoveConnection self).trace = registryAdds s.trace ∧
    (∀ (ctx' : Context) (o' : Oracle),
      SpawnServerConnection.ReadEventCallback ctx' o' s self (some ([], fds))
        = SpawnServerConnection.ReadEventCallback ctx o s self (some ([], fds))) ∧
    (∀ (cmd : Nat) (payload : SpawnPayload),
      SpawnServerConnection.ReadEventCallback ctx o s self (some (cmd :: payload, fds)) =
        match SpawnServerConnection.HandleMessage ctx o s self cmd payload fds with
        | none => none
        | some (.ok s') => some s'
        | some (.error .MalformedSpawnPayloadError) => some s
        | some (.error _) => some (s.RemoveConnection self)) := by
  obtain ⟨before, after, h1, -, -, h4, h5, -⟩ := RemoveConnection_spec s self c hc
  have hd := RemoveConnection_onlyDrops s self
  exact ⟨rfl, ⟨before, after, h1, h4, h5⟩, hd.1, hd.2.1, hd.2.2.1, fun _ _ => rfl,
    fun _ _ => rfl⟩

/-- Witness of C24: an empty read on connection 3 of two. -/
theorem empty_read_closes_witness :
    SpawnServerConnection.ReadEventCallback sampleContext sampleOracle twoConnections 3
        (some ([], [])) = some (twoConnections.RemoveConnection 3) ∧
    (twoConnections.RemoveConnection 3).trace = [.RegistryKill 50 SIGTERM] :=
  ⟨(empty_read_closes sampleContext sampleOracle twoConnections 3 []
    { socket := 3, children := [sampleChild] } (by decide)).1, by decide⟩

theorem RemoveConnection_volatile (s : SpawnServerProcess) (self : Nat) :
    (s.RemoveConnection self).child_process_registry.is_volatile
        = s.child_process_registry.is_volatile ∨
      (s.RemoveConnection self).connections = [] := by
  cases hc : s.connection self with
  | none => rw [RemoveConnection_absent s self hc]; exact Or.inl rfl
  | some c =>
    obtain ⟨before, after, -, -, -, h4, -, -, h7⟩ := RemoveConnection_spec s self c hc
    rw [h4, h7]
    cases hba : before ++ after with
    | nil => exact Or.inr rfl
    | cons x xs => exact Or.inl (by simp)

theorem SendExit_volatile (abi : Abi) (t : Transport) (s : SpawnServerProcess) (self : Nat)
    (id status : Int) :
    (SpawnServerConnection.SendExit abi t s self id status).child_process_registry.is_volatile
        = s.child_process_registry.is_volatile ∨
      (SpawnServerConnection.SendExit abi t s self id status).connections = [] := by
  obtain ⟨calls, -, -, -, heq, -, -, -⟩ :=
    SendExit_teardown_iff_undelivered abi t s self id status
  rw [heq]
  cases t.delivers with
  | true => exact Or.inl rfl
  | false => exact RemoveConnection_volatile { s with trace := s.trace ++ calls } self

theorem Kill_volatile (s : SpawnServerProcess) (pid signo : Int) :
    (s.Kill pid signo).child_process_registry.is_volatile
      = s.child_process_registry.is_volatile :=
  (Kill_children s.child_process_registry pid signo).2

theorem SpawnChild_volatile (ctx : Context) (o : Oracle) (s s' : SpawnServerProcess) (self : Nat)
    (id : Int) (name : CString) (p : PreparedChildProcess)
    (h : SpawnServerConnection.SpawnChild ctx o s self id name p = .ok s') :
    s'.child_process_registry.is_volatile = s.child_process_registry.is_volatile ∨
      s'.connections = [] := by
  unfold SpawnServerConnection.SpawnChild at h
  cases hv : verifyUidGid ctx p with
  | error e =>
    cases e with
    | non_std => simp [hv] at h
    | std_exception =>
      simp only [hv, Except.ok.injEq] at h
      rw [← h]
      exact SendExit_volatile _ _ _ _ _ _
  | ok u =>
    simp only [hv] at h
    split at h
    · simp only [Except.ok.injEq] at h
      rw [← h]
      exact SendExit_volatile _ _ _ _ _ _
    · cases hs : o.spawn (applyDefault ctx p) with
      | none =>
        simp only [hs, Except.ok.injEq] at h
        rw [← h]
        exact SendExit_volatile _ _ (s.emit _) _ _ _
      | some pid =>
        simp only [hs, Except.ok.injEq] at h
        rw [← h]
        exact Or.inl rfl

theorem HandleMessage_volatile (ctx : Context) (o : Oracle) (s s' : SpawnServerProcess)
    (self : Nat) (cmd : Nat) (payload : SpawnPayload) (fds : SpawnFdList)
    (h : SpawnServerConnection.HandleMessage ctx o s self cmd payload fds = some (.ok s')) :
    s'.child_process_registry.is_volatile = s.child_process_registry.is_volatile ∨
      s'.connections = [] := by
  unfold SpawnServerConnection.HandleMessage at h
  cases hc : ctx.abi.requestCommand cmd with
  | none =>
    simp only [hc, Option.some.injEq, Except.ok.injEq] at h
    rw [← h]; exact Or.inl rfl
  | some c =>
    cases c with
    | CONNECT =>
      simp only [hc] at h
      split at h
      · simp at h
      · cases hg : SpawnFdList.Get fds with
        | error e => simp [hg] at h
        | ok x =>
          simp only [hg, Option.some.injEq, Except.ok.injEq] at h
          rw [← h]; exact Or.inl rfl
    | EXEC =>
      simp only [hc, SpawnServerConnection.HandleExecMessage] at h
      cases hd : decodeExec ctx.abi payload fds with
      | none => simp [hd] at h
      | some r =>
        cases r with
        | error e => simp [hd] at h
        | ok r =>
          simp only [hd, Option.some.injEq] at h
          exact SpawnChild_volatile ctx o s s' self r.id r.name r.locals.p h
    | KILL =>
      simp only [hc, Option.some.injEq] at h
      unfold SpawnServerConnection.HandleKillMessage at h
      split at h
      · simp at h
      · cases h1 : SpawnPayload.ReadInt payload with
        | error e => simp [h1] at h
        | ok x =>
          obtain ⟨id, rest⟩ := x
          simp only [h1] at h
          cases h2 : SpawnPayload.ReadInt rest with
          | error e => simp [h2] at h
          | ok y =>
            obtain ⟨signo, rest2⟩ := y
            simp only [h2] at h
            split at h
            · simp at h
            · cases h3 : s.connection self with
              | none =>
                simp only [h3, Except.ok.injEq] at h
                rw [← h]; exact Or.inl rfl
              | some c =>
                simp only [h3] at h
                cases h4 : ChildIdMap.find c.children id with
                | none =>
                  simp only [h4, Except.ok.injEq] at h
                  rw [← h]; exact Or.inl rfl
                | some child =>
                  simp only [h4, Except.ok.injEq] at h
                  rw [← h]
                  exact Or.inl (Kill_volatile _ _ _)

theorem step_volatile (ctx : Context) (s s' : SpawnServerProcess) (e : Event)
    (h : step ctx s e = some s') :
    s'.child_process_registry.is_volatile = s.child_process_registry.is_volatile ∨
      s'.connections = [] := by
  cases e with
  | read self received o =>
    simp only [step] at h
    unfold SpawnServerConnection.ReadEventCallback at h
    cases received with
    | none =>
      simp only [Option.some.injEq] at h
      rw [← h]; exact RemoveConnection_volatile s self
    | some x =>
      obtain ⟨message, fds⟩ := x
      cases message with
      | nil =>
        simp only [Option.some.injEq] at h
        rw [← h]; exact RemoveConnection_volatile s self
      | cons cmd payload =>
        simp only at h
        cases hm : SpawnServerConnection.HandleMessage ctx o s self cmd payload fds with
        | none => simp [hm] at h
        | some r =>
          cases r with
          | ok s1 =>
            simp only [hm, Option.some.injEq] at h
            rw [← h]
            exact HandleMessage_volatile ctx o s s1 self cmd payload fds hm
          | error e =>
            cases e with
            | MalformedSpawnPayloadError =>
              simp only [hm, Option.some.injEq] at h
              rw [← h]; exact Or.inl rfl
            | other =>
              simp only [hm, Option.some.injEq] at h
              rw [← h]; exact RemoveConnection_volatile s self
  | exit pid status t =>
    simp only [step, Option.some.injEq] at h
    rw [← h]
    unfold SpawnServerProcess.OnChildProcessExit
    cases List.find? (fun e => decide (e.pid = pid)) s.child_process_registry.children with
    | none => exact Or.inl rfl
    | some e => exact SendExit_volatile _ _ _ _ _ _

/-- Claim C25: `RemoveConnection(c)` for a connection c of the live list removes
exactly c (the connections before it and after it stay, in their order),
and it calls `SetVolatile` on the Child Registry exactly when the list is
empty afterwards: then the registry is volatile, otherwise its mode is what
it was.  Hence no dispatch of the event loop turns the registry volatile
unless the connection list is empty after that dispatch. -/
theorem RemoveConnection_exact (ctx : Context) (s : SpawnServerProcess) (self : Nat)
    (c : SpawnServerConnection) (hc : s.connection self = some c) :
    (∃ before after, s.connections = before ++ c :: after ∧
      (∀ x ∈ before, x.socket ≠ self) ∧
      (s.RemoveConnection self).connections = before ++ after ∧
      (s.RemoveConnection self).trace =
        s.trace ++ c.children.map (fun child => Effect.RegistryKill child.pid SIGTERM) ++
          (if (before ++ after).isEmpty then [Effect.SetVolatile] else [])) ∧
    ((s.RemoveConnection self).connections = [] →
      (s.RemoveConnection self).child_process_registry.is_volatile = true) ∧
    ((s.RemoveConnection self).connections ≠ [] →
      (s.RemoveConnection self).child_process_registry.is_volatile
        = s.child_process_registry.is_volatile) ∧
    (∀ (e : Event) (s0 s' : SpawnServerProcess), step ctx s0 e = some s' →
      s0.child_process_registry.is_volatile = false →
      s'.child_process_registry.is_volatile = true → s'.connections = []) := by
  obtain ⟨before, after, h1, h2, -, h4, h5, -, h7⟩ := RemoveConnection_spec s self c hc
  refine ⟨⟨before, after, h1, h2, h4, h5⟩, ?_, ?_, ?_⟩
  · intro he
    rw [h7]
    rw [h4] at he
    simp [he]
  · intro hne
    rw [h7]
    rw [h4] at hne
    cases hba : before ++ after with
    | nil => exact absurd hba hne
    | cons x xs => simp
  · intro e s0 s' hstep h0 h1'
    rcases step_volatile ctx s0 s' e hstep with h | h
    · rw [h0] at h
      rw [h] at h1'
      exact absurd h1' (by decide)
    · exact h

/-- Witness of C25: removing connection 3 of two leaves connection 4 and the
registry's mode; removing the only connection turns the registry volatile. -/
theorem RemoveConnection_exact_witness :
    (twoConnections.RemoveConnection 3).connections =
      [{ socket := 4, children := [{ connection := 4, id := 5, pid := 60, name := [98] }] }] ∧
    (twoConnections.RemoveConnection 3).child_process_registry.is_volatile = false ∧
    (sampleServer.RemoveConnection 3).connections = [] ∧
    (sampleServer.RemoveConnection 3).child_process_registry.is_volatile = true := by
  have h1 := RemoveConnection_exact sampleContext twoConnections 3
    { socket := 3, children := [sampleChild] } (by decide)
  have h2 := RemoveConnection_exact sampleContext sampleServer 3
    { socket := 3, children := [sampleChild] } (by decide)
  exact ⟨by decide, h1.2.2.1 (by decide), by decide, h2.2.1 (by decide)⟩

/-- Claim C26: a well-formed CONNECT message (nothing after the command byte,
exactly one descriptor), on whichever connection it arrives, adds exactly
one connection to the live-connection list, behind the existing ones; the
new connection owns the transferred descriptor and has no children.  The
existing connections with their child sets, the registry and the trace are
unchanged: nothing is transmitted. -/
theorem connect_adds_connection (ctx : Context) (o : Oracle) (s : SpawnServerProcess) (self : Nat)
    (cmd : Nat) (fd : Nat) (hcmd : ctx.abi.requestCommand cmd = some .CONNECT) :
    ∃ s', SpawnServerConnection.ReadEventCallback ctx o s self (some ([cmd], [fd])) = some s' ∧
      s'.connections = s.connections ++ [{ socket := fd, children := [] }] ∧
      s'.child_process_registry = s.child_process_registry ∧
      s'.trace = s.trace ∧
      s' = s.AddConnection fd := by
  refine ⟨s.AddConnection fd, ?_, rfl, rfl, rfl, rfl⟩
  simp [SpawnServerConnection.ReadEventCallback, SpawnServerConnection.HandleMessage, hcmd,
    SpawnFdList.Get]

/-- Witness of C26: CONNECT with descriptor 9 received on connection 3. -/
theorem connect_adds_connection_witness :
    ∃ s', SpawnServerConnection.ReadEventCallback sampleContext sampleOracle sampleServer 3
        (some ([0], [9])) = some s' ∧
      s'.connections =
        [{ socket := 3, children := [sampleChild] }, { socket := 9, children := [] }] := by
  obtain ⟨s', h1, h2, -⟩ := connect_adds_connection sampleContext sampleOracle sampleServer 3 0 9 rfl
  exact ⟨s', h1, h2⟩

/-! ## Default uid/gid and unknown tags -/

/-- With an empty uid/gid in the request and a configured default, `SpawnChild`
is the spawn attempt for the child with the default uid/gid. -/
theorem SpawnChild_default_path (ctx : Context) (o : Oracle) (s : SpawnServerProcess)
    (self : Nat) (id : Int) (name : CString) (p : PreparedChildProcess)
    (hp : ctx.abi.IsEmpty p.uid_gid = true)
    (hd : ctx.abi.IsEmpty ctx.config.default_uid_gid = false) :
    SpawnServerConnection.SpawnChild ctx o s self id name p =
      match o.spawn { p with uid_gid := ctx.config.default_uid_gid } with
      | none =>
        .ok (SpawnServerConnection.SendExit ctx.abi o.transport
          (s.emit (.SpawnChildProcess { p with uid_gid := ctx.config.default_uid_gid } none))
          self id (W_EXITCODE 0xff 0))
      | some pid =>
        .ok { connections := s.connections.map (fun c =>
                if c.socket = self then
                  { c with
                    children := ChildIdMap.insert c.children
                      { connection := self, id := id, pid := pid, name := name } }
                else c),
              child_process_registry := s.child_process_registry.Add pid name
                { connection := self, id := id, pid := pid, name := name },
              trace := s.trace ++
                [.SpawnChildProcess { p with uid_gid := ctx.config.default_uid_gid } (some pid),
                 .RegistryAdd pid name
                   { connection := self, id := id, pid := pid, name := name }] } := by
  have hv : verifyUidGid ctx p = .ok () := by simp [verifyUidGid, hp]
  have ha : applyDefault ctx p = { p with uid_gid := ctx.config.default_uid_gid } := by
    simp [applyDefault, hp]
  have hne : (ctx.abi.IsEmpty p.uid_gid && ctx.abi.IsEmpty ctx.config.default_uid_gid)
      = false := by simp [hd]
  rw [SpawnChild_spawn_path ctx o s self id name p hv hne, ha]

/-- Claim C27: for an EXEC request without uid/gid on a server with a configured
default uid/gid, `SpawnChild` consults neither the verification hook nor the
configuration's uid/gid check: with any two hooks (none, accepting,
refusing, throwing) and any two configuration checks the result is the same,
and it is the spawn attempt for the child with the default uid/gid. -/
theorem default_uid_gid_bypasses_verification (abi : Abi) (default_uid_gid : UidGid)
    (verify verify' : UidGid → Except Thrown Unit)
    (hook hook' : Option (PreparedChildProcess → Except Thrown Bool))
    (o : Oracle) (s : SpawnServerProcess) (self : Nat) (id : Int) (name : CString)
    (p : PreparedChildProcess)
    (hp : abi.IsEmpty p.uid_gid = true) (hd : abi.IsEmpty default_uid_gid = false) :
    SpawnServerConnection.SpawnChild
        { abi := abi, config := { default_uid_gid := default_uid_gid, Verify := verify },
                      hook := hook } o s self id name p =
      SpawnServerConnection.SpawnChild
        { abi := abi, config := { default_uid_gid := default_uid_gid, Verify := verify' },
                      hook := hook' } o s self id name p ∧
    ∃ s', SpawnServerConnection.SpawnChild
        { abi := abi, config := { default_uid_gid := default_uid_gid, Verify := verify },
                      hook := hook } o s self id name p = .ok s' ∧
      spawns s'.trace = spawns s.trace ++
        [({ p with uid_gid := default_uid_gid }, o.spawn { p with uid_gid := default_uid_gid })] := by
  rw [SpawnChild_default_path _ o s self id name p hp hd,
    SpawnChild_default_path _ o s self id name p hp hd]
  refine ⟨rfl, ?_⟩
  simp only
  cases hs : o.spawn { p with uid_gid := default_uid_gid } with
  | none =>
    refine ⟨_, rfl, ?_⟩
    have h := SendExit_spec abi o.transport
      (s.emit (.SpawnChildProcess { p with uid_gid := default_uid_gid } none)) self id
      (W_EXITCODE 0xff 0)
    simp only at h
    rw [h.2.1]
    simp [SpawnServerProcess.emit, spawns, Effect.spawn]
  | some pid =>
    refine ⟨_, rfl, ?_⟩
    simp [spawns, Effect.spawn]

/-- Witness of C27: a server whose hook and configuration check both refuse,
and one without hook whose check accepts, spawn the same child with the
default uid/gid 33/33. -/
theorem default_uid_gid_bypasses_verification_witness :
    SpawnServerConnection.SpawnChild defaultingContext sampleOracle sampleServer 3 7 [120]
        anonymousChild =
      SpawnServerConnection.SpawnChild permissiveContext sampleOracle sampleServer 3 7 [120]
        anonymousChild :=
  (default_uid_gid_bypasses_verification sampleAbi defaultingConfig.default_uid_gid
    (fun _ => .error .std_exception) (fun _ => .ok ()) (some (fun _ => .error .std_exception)) none
    sampleOracle sampleServer 3 7 [120] anonymousChild (by decide) (by decide)).1

/-- Claim C28: unknown tags are skipped silently.  In an EXEC payload, a tag
byte that selects no `case` consumes exactly that byte, leaves the child
specification, the descriptor list and the rest of the payload as they are
and raises nothing, and decoding goes on at the next byte.  A message whose
command byte is none of CONNECT, EXEC and KILL is dropped: the handler
returns normally and the server state is unchanged (nothing is
transmitted). -/
theorem unknown_tags_skipped (ctx : Context) (o : Oracle) (s : SpawnServerProcess) (self : Nat) :
    (∀ (t : Nat) (st : ExecLocals) (payload : SpawnPayload), ctx.abi.execCommand t = none →
      execCommand ctx.abi t st payload = .ok (st, payload) ∧
      execRun ctx.abi (t :: payload) st = execRun ctx.abi payload st) ∧
    (∀ (cmd : Nat) (payload : SpawnPayload) (fds : SpawnFdList),
      ctx.abi.requestCommand cmd = none →
      SpawnServerConnection.HandleMessage ctx o s self cmd payload fds = some (.ok s) ∧
      SpawnServerConnection.ReadEventCallback ctx o s self (some (cmd :: payload, fds))
        = some s) := by
  constructor
  · intro t st payload ht
    have h1 : execCommand ctx.abi t st payload = .ok (st, payload) := by
      simp only [execCommand, ht]
      rfl
    exact ⟨h1, by rw [execRun_cons, h1]⟩
  · intro cmd payload fds hc
    have hm : SpawnServerConnection.HandleMessage ctx o s self cmd payload fds = some (.ok s) := by
      simp only [SpawnServerConnection.HandleMessage, hc]
    exact ⟨hm, by simp only [SpawnServerConnection.ReadEventCallback, hm]⟩

/-- Witness of C28: the tag 200 in front of a TTY sub-command, and a message
with command byte 7. -/
theorem unknown_tags_skipped_witness :
    execRun sampleAbi (200 :: [8]) { p := anonymousChild, fds := [] }
      = execRun sampleAbi [8] { p := anonymousChild, fds := [] } ∧
    SpawnServerConnection.ReadEventCallback sampleContext sampleOracle sampleServer 3
      (some (7 :: [1, 2, 3], [9])) = some sampleServer :=
  have h := unknown_tags_skipped sampleContext sampleOracle sampleServer 3
  ⟨(h.1 200 { p := anonymousChild, fds := [] } [8] rfl).2, (h.2 7 [1, 2, 3] [9] rfl).2⟩

/-! ## Cgroup settings -/

theorem apply_cgroup (abi : Abi) (item : ExecItem) (st st' : ExecLocals)
    (h : item.apply abi st = .ok st') :
    st'.p.cgroup.set_head = (cgroupSetsOf [item]).reverse ++ st.p.cgroup.set_head ∧
    st'.p.cgroup.name = ((cgroupNamesOf [item]).getLast?).or st.p.cgroup.name := by
  cases item <;> simp only [ExecItem.apply] at h
  case ARG s => split at h <;> simp at h; subst h; simp [cgroupSetsOf, cgroupNamesOf]
  case SETENV s => split at h <;> simp at h; subst h; simp [cgroupSetsOf, cgroupNamesOf]
  case STDIN => split at h <;> simp at h; subst h; simp [cgroupSetsOf, cgroupNamesOf]
  case STDOUT => split at h <;> simp at h; subst h; simp [cgroupSetsOf, cgroupNamesOf]
  case STDERR => split at h <;> simp at h; subst h; simp [cgroupSetsOf, cgroupNamesOf]
  case CONTROL => split at h <;> simp at h; subst h; simp [cgroupSetsOf, cgroupNamesOf]
  all_goals
    simp only [Except.ok.injEq] at h
    subst h
    simp [cgroupSetsOf, cgroupNamesOf]

theorem cgroupSetsOf_cons (item : ExecItem) (rest : List ExecItem) :
    cgroupSetsOf (item :: rest) = cgroupSetsOf [item] ++ cgroupSetsOf rest := by
  cases item <;> simp [cgroupSetsOf]

theorem cgroupNamesOf_cons (item : ExecItem) (rest : List ExecItem) :
    cgroupNamesOf (item :: rest) = cgroupNamesOf [item] ++ cgroupNamesOf rest := by
  cases item <;> simp [cgroupNamesOf]

theorem applyItems_cgroup (abi : Abi) (items : List ExecItem) (st st' : ExecLocals)
    (h : applyItems abi items st = .ok st') :
    st'.p.cgroup.set_head = (cgroupSetsOf items).reverse ++ st.p.cgroup.set_head ∧
    st'.p.cgroup.name = ((cgroupNamesOf items).getLast?).or st.p.cgroup.name := by
  induction items generalizing st with
  | nil =>
    simp only [applyItems, Except.ok.injEq] at h
    subst h
    simp [cgroupSetsOf, cgroupNamesOf]
  | cons item rest ih =>
    simp only [applyItems] at h
    cases h1 : item.apply abi st with
    | error e => simp [h1] at h
    | ok st1 =>
      simp only [h1] at h
      obtain ⟨a1, a2⟩ := apply_cgroup abi item st st1 h1
      obtain ⟨b1, b2⟩ := ih st1 h
      constructor
      · rw [b1, a1, cgroupSetsOf_cons item rest, List.reverse_append, List.append_assoc]
      · rw [b2, a2, cgroupNamesOf_cons item rest, List.getLast?_append]
        cases (cgroupNamesOf rest).getLast? <;> rfl

theorem execCase_cgroup (abi : Abi) (cmd : SpawnExecCommand) (st : ExecLocals) :
    Reader.Post (execCase abi cmd st) (fun st' =>
      st'.p.cgroup = st.p.cgroup ∨
      (cmd = .CGROUP_SET ∧ ∃ key value : CString,
        st'.p.cgroup = { st.p.cgroup with set_head := (key, value) :: st.p.cgroup.set_head }) ∨
      (cmd = .CGROUP ∧ ∃ name : CString,
        st'.p.cgroup = { st.p.cgroup with name := some name })) := by
  cases cmd
  case CGROUP_SET =>
    unfold execCase
    exact Reader.post_bind fun _ => Reader.post_bind fun _ =>
      Reader.post_pure (Or.inr (Or.inl ⟨rfl, _, _, rfl⟩))
  case CGROUP =>
    unfold execCase
    exact Reader.post_bind fun _ => Reader.post_pure (Or.inr (Or.inr ⟨rfl, _, rfl⟩))
  all_goals
    simp only [execCase]
    first
    | exact Reader.post_pure (Or.inl rfl)
    | exact Reader.post_bind fun _ => Reader.post_pure (Or.inl rfl)
    | exact Reader.post_bind fun _ => Reader.post_bind fun _ => Reader.post_pure (Or.inl rfl)
    | exact Reader.post_bind fun _ => Reader.post_bind fun _ => Reader.post_bind fun _ =>
        Reader.post_bind fun _ => Reader.post_pure (Or.inl rfl)
    | exact Reader.post_ite (fun _ => Reader.post_fail)
        (fun _ => Reader.post_bind fun _ => Reader.post_pure (Or.inl rfl))
    | (unfold takeFd
       split
       · exact Reader.post_fail
       · exact Reader.post_pure (Or.inl rfl))

/-- Claim C29: when an EXEC message (head followed by the wire encoding of
any sequence of sub-commands within the protocol limits) decodes, the
controller-settings list of the decoded cgroup specification, from its head,
is the reverse of the sequence of the message's CGROUP_SET sub-commands (the
last declared setting first), each entry holding its own key and value, and
the cgroup name is that of the last CGROUP sub-command (none without one).
On any bytes whatever, a round of the decoding loop leaves the cgroup
specification as it is, or for CGROUP_SET puts one pair in front of the
list, or for CGROUP replaces the name. -/
theorem cgroup_sets_reversed (abi : Abi) (tag : SpawnExecCommand → Nat)
    (head : SpawnPayload) (fds : SpawnFdList) (id : Int) (name : CString)
    (items : List ExecItem) (r : ExecRequest)
    (htag : ∀ c, abi.execCommand (tag c) = some c)
    (hhead : execHead head = .ok ((id, name), []))
    (hwf : ∀ it ∈ items, it.WellFormed abi)
    (h : decodeExec abi (head ++ encodeItems tag items) fds = some (.ok r)) :
    r.locals.p.cgroup.set_head = (cgroupSetsOf items).reverse ∧
    r.locals.p.cgroup.name = (cgroupNamesOf items).getLast? ∧
    (∀ (t : Nat) (st st' : ExecLocals) (bytes rest : SpawnPayload),
      execCommand abi t st bytes = .ok (st', rest) →
      st'.p.cgroup = st.p.cgroup ∨
      (abi.execCommand t = some .CGROUP_SET ∧ ∃ key value : CString,
        st'.p.cgroup = { st.p.cgroup with set_head := (key, value) :: st.p.cgroup.set_head }) ∨
      (abi.execCommand t = some .CGROUP ∧ ∃ n : CString,
        st'.p.cgroup = { st.p.cgroup with name := some n })) := by
  have hstep : ∀ (t : Nat) (st st' : ExecLocals) (bytes rest : SpawnPayload),
      execCommand abi t st bytes = .ok (st', rest) →
      st'.p.cgroup = st.p.cgroup ∨
      (abi.execCommand t = some .CGROUP_SET ∧ ∃ key value : CString,
        st'.p.cgroup = { st.p.cgroup with set_head := (key, value) :: st.p.cgroup.set_head }) ∨
      (abi.execCommand t = some .CGROUP ∧ ∃ n : CString,
        st'.p.cgroup = { st.p.cgroup with name := some n }) := by
    intro t st st' bytes rest hc
    cases hcm : abi.execCommand t with
    | none =>
      simp only [execCommand, hcm, Reader.pure_apply, Except.ok.injEq, Prod.mk.injEq] at hc
      rw [← hc.1]
      exact Or.inl rfl
    | some c =>
      simp only [execCommand, hcm] at hc
      rcases execCase_cgroup abi c st bytes st' rest hc with h | ⟨h1, h2⟩ | ⟨h1, h2⟩
      · exact Or.inl h
      · exact Or.inr (Or.inl ⟨by rw [h1], h2⟩)
      · exact Or.inr (Or.inr ⟨by rw [h1], h2⟩)
  rw [decodeExec_encodeItems abi tag htag head fds id name items hhead hwf] at h
  cases ha : applyItems abi items { p := PreparedChildProcess.init abi, fds := fds } with
  | error e => simp [ha] at h
  | ok st =>
    simp only [ha, Option.some.injEq, Except.ok.injEq] at h
    subst h
    obtain ⟨h1, h2⟩ := applyItems_cgroup abi items _ st ha
    have h0 : (PreparedChildProcess.init abi).cgroup = { name := none, set_head := [] } := rfl
    simp only [h0, List.append_nil, Option.or_none] at h1 h2
    exact ⟨h1, h2, hstep⟩

/-- Witness of C29: CGROUP_SET("a", "1"), CGROUP("x"), TTY, CGROUP_SET("b", "2"),
CGROUP("y") decode to the settings ("b", "2"), ("a", "1") and the name "y". -/
theorem cgroup_sets_reversed_witness :
    ∃ r, decodeExec sampleAbi (sampleHead ++ encodeItems sampleTag cgroupItems) [] = some (.ok r) ∧
      r.locals.p.cgroup.set_head = [([98], [50]), ([97], [49])] ∧
      r.locals.p.cgroup.name = some [121] :=
  have h := cgroup_sets_reversed sampleAbi sampleTag sampleHead [] 1 [120] cgroupItems _
    (fun c => by cases c <;> rfl) rfl (by decide) rfl
  ⟨_, rfl, h.1, h.2.1⟩

/-! ## Termination and outcome of EXEC decoding -/

theorem Reader.onlyMalformed_pure {α : Type} (a : α) :
    Reader.OnlyMalformed (pure a : Reader α) := by
  intro payload e h
  rw [Reader.pure_apply] at h
  cases h

theorem Reader.onlyMalformed_fail {α : Type} :
    Reader.OnlyMalformed (Reader.fail .MalformedSpawnPayloadError : Reader α) := by
  intro payload e h
  simp only [Reader.fail, Except.error.injEq] at h
  exact h.symm

theorem Reader.onlyMalformed_bind {α β : Type} {f : Reader α} {g : α → Reader β}
    (hf : Reader.OnlyMalformed f) (hg : ∀ a, Reader.OnlyMalformed (g a)) :
    Reader.OnlyMalformed (f >>= g) := by
  intro payload e h
  rw [Reader.bind_apply] at h
  cases hfp : f payload with
  | error e1 =>
    simp only [hfp, Except.error.injEq] at h
    rw [← h]
    exact hf payload e1 hfp
  | ok r =>
    obtain ⟨a, mid⟩ := r
    simp only [hfp] at h
    exact hg a mid e h

theorem Reader.onlyMalformed_ite {α : Type} {c : Prop} [Decidable c] {f g : Reader α}
    (hf : Reader.OnlyMalformed f) (hg : Reader.OnlyMalformed g) :
    Reader.OnlyMalformed (if c then f else g) := by
  by_cases h : c
  · simpa [h] using hf
  · simpa [h] using hg

theorem ReadByte_onlyMalformed : Reader.OnlyMalformed SpawnPayload.ReadByte := by
  intro payload e h
  cases payload with
  | nil =>
    simp only [SpawnPayload.ReadByte, Except.error.injEq] at h
    exact h.symm
  | cons b tl => simp [SpawnPayload.ReadByte] at h

theorem ReadT_onlyMalformed (size : Nat) : Reader.OnlyMalformed (SpawnPayload.ReadT size) := by
  intro payload e h
  unfold SpawnPayload.ReadT at h
  by_cases hl : payload.length < size
  · simp only [hl, if_true, Except.error.injEq] at h
    exact h.symm
  · simp [hl] at h

theorem ReadInt_onlyMalformed : Reader.OnlyMalformed SpawnPayload.ReadInt :=
  Reader.onlyMalformed_bind (ReadT_onlyMalformed 4) fun _ => Reader.onlyMalformed_pure _

theorem ReadString_onlyMalformed : Reader.OnlyMalformed SpawnPayload.ReadString := by
  intro payload
  induction payload with
  | nil =>
    intro e h
    simp only [SpawnPayload.ReadString, Except.error.injEq] at h
    exact h.symm
  | cons b tl ih =>
    intro e h
    unfold SpawnPayload.ReadString at h
    by_cases hb : b = 0
    · simp [hb] at h
    · simp only [hb, if_false] at h
      cases hr : SpawnPayload.ReadString tl with
      | error e1 =>
        simp only [hr, Except.error.injEq] at h
        rw [← h]
        exact ih e1 hr
      | ok r =>
        obtain ⟨s, rest⟩ := r
        simp [hr] at h

theorem ReadGroups_onlyMalformed (n i : Nat) (groups : List Nat) :
    Reader.OnlyMalformed (UidGid.ReadGroups n i groups) := by
  induction n generalizing i groups with
  | zero => exact Reader.onlyMalformed_pure _
  | succ n ih =>
    unfold UidGid.ReadGroups
    exact Reader.onlyMalformed_bind (ReadT_onlyMalformed 4) fun _ => ih _ _

theorem UidGid_Read_onlyMalformed (abi : Abi) (uid_gid : UidGid) :
    Reader.OnlyMalformed (UidGid.Read abi uid_gid) := by
  unfold UidGid.Read
  exact Reader.onlyMalformed_bind (ReadT_onlyMalformed 4) fun _ =>
    Reader.onlyMalformed_bind (ReadT_onlyMalformed 4) fun _ =>
    Reader.onlyMalformed_bind ReadByte_onlyMalformed fun _ =>
    Reader.onlyMalformed_ite Reader.onlyMalformed_fail
      (Reader.onlyMalformed_bind (ReadGroups_onlyMalformed _ _ _) fun _ =>
        Reader.onlyMalformed_pure _)

theorem ResourceLimits_Read_onlyMalformed (abi : Abi) (rlimits : ResourceLimits) :
    Reader.OnlyMalformed (ResourceLimits.Read abi rlimits) := by
  unfold ResourceLimits.Read
  exact Reader.onlyMalformed_bind ReadByte_onlyMalformed fun _ =>
    Reader.onlyMalformed_bind (ReadT_onlyMalformed _) fun _ => Reader.onlyMalformed_pure _

theorem takeFd_onlyMalformed (cmd : SpawnExecCommand) (st : ExecLocals)
    (set : PreparedChildProcess → Nat → PreparedChildProcess) :
    Reader.OnlyMalformed (takeFd cmd st set) := by
  unfold takeFd
  cases hf : st.fds with
  | nil => exact Reader.onlyMalformed_fail
  | cons fd rest => exact Reader.onlyMalformed_pure _

theorem execCase_onlyMalformed (abi : Abi) (cmd : SpawnExecCommand) (st : ExecLocals) :
    Reader.OnlyMalformed (execCase abi cmd st) := by
  cases cmd <;> unfold execCase <;>
    first
    | exact Reader.onlyMalformed_pure _
    | exact takeFd_onlyMalformed _ _ _
    | exact Reader.onlyMalformed_bind ReadString_onlyMalformed fun _ =>
        Reader.onlyMalformed_pure _
    | exact Reader.onlyMalformed_bind ReadString_onlyMalformed fun _ =>
        Reader.onlyMalformed_bind ReadString_onlyMalformed fun _ => Reader.onlyMalformed_pure _
    | exact Reader.onlyMalformed_bind ReadString_onlyMalformed fun _ =>
        Reader.onlyMalformed_bind ReadString_onlyMalformed fun _ =>
        Reader.onlyMalformed_bind ReadByte_onlyMalformed fun _ =>
        Reader.onlyMalformed_bind ReadByte_onlyMalformed fun _ => Reader.onlyMalformed_pure _
    | exact Reader.onlyMalformed_bind (ReadT_onlyMalformed _) fun _ =>
        Reader.onlyMalformed_pure _
    | exact Reader.onlyMalformed_bind ReadInt_onlyMalformed fun _ =>
        Reader.onlyMalformed_pure _
    | exact Reader.onlyMalformed_bind (ResourceLimits_Read_onlyMalformed _ _) fun _ =>
        Reader.onlyMalformed_pure _
    | exact Reader.onlyMalformed_bind (UidGid_Read_onlyMalformed _ _) fun _ =>
        Reader.onlyMalformed_pure _
    | exact Reader.onlyMalformed_ite Reader.onlyMalformed_fail
        (Reader.onlyMalformed_bind ReadString_onlyMalformed fun _ =>
          Reader.onlyMalformed_pure _)

theorem execCommand_onlyMalformed (abi : Abi) (cmd : Nat) (st : ExecLocals) :
    Reader.OnlyMalformed (execCommand abi cmd st) := by
  unfold execCommand
  split
  · exact Reader.onlyMalformed_pure _
  · exact execCase_onlyMalformed _ _ _

theorem execHead_onlyMalformed : Reader.OnlyMalformed execHead :=
  Reader.onlyMalformed_bind ReadInt_onlyMalformed fun _ =>
    Reader.onlyMalformed_bind ReadString_onlyMalformed fun _ => Reader.onlyMalformed_pure _

theorem execRun_error (abi : Abi) (payload : SpawnPayload) (st : ExecLocals) (e : SpawnError)
    (h : execRun abi payload st = some (.error e)) : e = .MalformedSpawnPayloadError := by
  generalize hn : payload.length = n
  induction n using Nat.strong_induction_on generalizing payload st with
  | _ n ih =>
    cases payload with
    | nil =>
      rw [execRun_nil] at h
      simp at h
    | cons b tl =>
      rw [execRun_cons] at h
      cases hc : execCommand abi b st tl with
      | error e1 =>
        simp only [hc, Option.some.injEq, Except.error.injEq] at h
        rw [← h]
        exact execCommand_onlyMalformed abi b st tl e1 hc
      | ok r =>
        obtain ⟨st1, rest⟩ := r
        simp only [hc] at h
        have hl := execCommand_length hc
        simp only [List.length_cons] at hn
        exact ih rest.length (by omega) rest st1 h rfl

theorem decodeExec_cases (abi : Abi) (payload : SpawnPayload) (fds : SpawnFdList) :
    decodeExec abi payload fds = some (.error .MalformedSpawnPayloadError) ∨
    ∃ r, decodeExec abi payload fds = some (.ok r) := by
  obtain ⟨x, hx⟩ := decodeExec_isSome abi payload fds
  cases x with
  | ok r => exact Or.inr ⟨r, hx⟩
  | error e =>
    left
    have he : e = .MalformedSpawnPayloadError := by
      unfold decodeExec at hx
      cases hh : execHead payload with
      | error e1 =>
        simp only [hh, Option.some.injEq, Except.error.injEq] at hx
        rw [← hx]
        exact execHead_onlyMalformed payload e1 hh
      | ok y =>
        obtain ⟨⟨id, name⟩, body⟩ := y
        simp only [hh] at hx
        cases hr : execRun abi body { p := PreparedChildProcess.init abi, fds := fds } with
        | none => simp [hr] at hx
        | some z =>
          cases z with
          | error e2 =>
            simp only [hr, Option.some.injEq, Except.error.injEq] at hx
            rw [← hx]
            exact execRun_error abi body _ e2 hr
          | ok st2 => simp [hr] at hx
    rw [hx, he]

/-- Claim C30: the decoding loop of `HandleExecMessage` terminates on every
payload and descriptor list.  A round that does not throw leaves fewer bytes
than it found (the tag byte at least is consumed), so the loop produces a
result within as many rounds as the payload has bytes.  The handler ends in
one of two ways: MalformedPayload is raised before `SpawnChild` is reached,
or the head gives id and name, the loop runs the rest of the payload to its
end (bytes behind it would be decoded next, from the locals reached), and
the result is that of the one call `SpawnChild(id, name, p)`. -/
theorem exec_decoding_terminates (ctx : Context) (o : Oracle) (s : SpawnServerProcess)
    (self : Nat) (payload : SpawnPayload) (fds : SpawnFdList) :
    (∀ (cmd : Nat) (st st' : ExecLocals) (bytes rest : SpawnPayload),
      execCommand ctx.abi cmd st bytes = .ok (st', rest) →
      rest.length < (cmd :: bytes).length ∧ ∃ consumed, cmd :: bytes = cmd :: consumed ++ rest) ∧
    (∀ (fuel : Nat) (body : SpawnPayload) (st : ExecLocals), body.length ≤ fuel →
      ∃ r, execLoop ctx.abi fuel body st = some r ∧ execRun ctx.abi body st = some r) ∧
    ((decodeExec ctx.abi payload fds = some (.error .MalformedSpawnPayloadError) ∧
        SpawnServerConnection.HandleExecMessage ctx o s self payload fds
          = some (.error .MalformedSpawnPayloadError)) ∨
      (∃ (r : ExecRequest) (body : SpawnPayload),
        decodeExec ctx.abi payload fds = some (.ok r) ∧
        execHead payload = .ok ((r.id, r.name), body) ∧
        execRun ctx.abi body { p := PreparedChildProcess.init ctx.abi, fds := fds }
          = some (.ok r.locals) ∧
        (∀ suffix, execRun ctx.abi (body ++ suffix)
            { p := PreparedChildProcess.init ctx.abi, fds := fds }
          = execRun ctx.abi suffix r.locals) ∧
        SpawnServerConnection.HandleExecMessage ctx o s self payload fds
          = some (SpawnServerConnection.SpawnChild ctx o s self r.id r.name r.locals.p))) := by
  refine ⟨?_, ?_, ?_⟩
  · intro cmd st st' bytes rest hc
    obtain ⟨⟨c, hcs⟩, _⟩ := execCommand_stable ctx.abi cmd st bytes st' rest hc
    refine ⟨?_, c, by rw [hcs]; rfl⟩
    have hl := execCommand_length hc
    simp only [List.length_cons]
    omega
  · intro fuel body st hf
    obtain ⟨r, hr⟩ := execRun_isSome ctx.abi body st
    refine ⟨r, ?_, hr⟩
    rw [← hr]
    exact execLoop_fuel ctx.abi fuel body.length body st hf (Nat.le_refl _)
  · rcases decodeExec_cases ctx.abi payload fds with he | ⟨r, hr⟩
    · left
      refine ⟨he, ?_⟩
      simp only [SpawnServerConnection.HandleExecMessage, he]
    · right
      obtain ⟨body, hh, hrun⟩ := decodeExec_ok hr
      refine ⟨r, body, hr, hh, hrun, fun suffix => execRun_append ctx.abi body suffix _ _ hrun, ?_⟩
      simp only [SpawnServerConnection.HandleExecMessage, hr]

/-- Witness of C30: the TTY sub-command (tag 8) on an empty rest, and three of
them decoded with fuel 3. -/
theorem exec_decoding_terminates_witness :
    ([] : SpawnPayload).length < (8 :: ([] : SpawnPayload)).length ∧
    ∃ r, execLoop sampleAbi 3 [8, 8, 8] { p := anonymousChild, fds := [] } = some r :=
  have h := exec_decoding_terminates sampleContext sampleOracle sampleServer 3 sampleHead []
  ⟨(h.1 8 { p := anonymousChild, fds := [] } _ [] [] rfl).1,
    (h.2.1 3 [8, 8, 8] { p := anonymousChild, fds := [] } (by decide)).elim
      fun r hr => ⟨r, hr.1⟩⟩

end Spawn

namespace Net.Log

/-! ## The vector of a log datagram -/

theorem ite_push {α : Type} (c : Prop) [Decidable c] (v s : List α) :
    (if c then v ++ s else v) = v ++ (if c then s else []) := by
  split <;> simp

theorem dite_push {α : Type} (c : Prop) [Decidable c] (v : List α) (s : c → List α) :
    (if h : c then v ++ s h else v) = v ++ (if h : c then s h else []) := by
  split <;> simp

/-- The vector after `FillIovec`: what was there, the magic, for each field
that is present its entries, and the checksum of everything behind the first
entry of the vector. -/
theorem FillIovec_eq (proto : Protocol) (crc : Crc) (v : List iovec) (d : Datagram) :
    ∃ fields : List iovec,
      fields =
        (if d.valid_timestamp then
            [iovec.attr .TIMESTAMP, .object (ToBE64 d.timestamp)] else []) ++
          ((if h : d.remote_host.isSome then
            [iovec.attr .REMOTE_HOST, .string (d.remote_host.get h)] else []) ++
          ((if h : d.host.isSome then [iovec.attr .HOST, .string (d.host.get h)] else []) ++
          ((if h : d.site.isSome then [iovec.attr .SITE, .string (d.site.get h)] else []) ++
          ((if h : d.forwarded_to.isSome then
            [iovec.attr .FORWARDED_TO, .string (d.forwarded_to.get h)] else []) ++
          ((if d.valid_http_method then
            [iovec.attr .HTTP_METHOD, .object [d.http_method % 256]] else []) ++
          ((if h : d.http_uri.isSome then
            [iovec.attr .HTTP_URI, .string (d.http_uri.get h)] else []) ++
          ((if h : d.http_referer.isSome then
            [iovec.attr .HTTP_REFERER, .string (d.http_referer.get h)] else []) ++
          ((if h : d.user_agent.isSome then
            [iovec.attr .USER_AGENT, .string (d.user_agent.get h)] else []) ++
          ((if h : d.message.isSome then
            [iovec.attr .MESSAGE, .buffer (d.message.get h), .object [0]] else []) ++
          ((if d.valid_http_status then
            [iovec.attr .HTTP_STATUS, .object (ToBE16 d.http_status)] else []) ++
          ((if d.valid_length then [iovec.attr .LENGTH, .object (ToBE64 d.length)] else []) ++
          ((if d.valid_traffic then
            [iovec.attr .LENGTH, .object (ToBE64 d.traffic_received ++ ToBE64 d.traffic_sent)]
            else []) ++
          ((if d.valid_duration then
            [iovec.attr .DURATION, .object (ToBE64 d.duration)] else []) ++
          (if d.type ≠ proto.UNSPECIFIED then
            [iovec.attr .TYPE, .object (proto.type d.type)] else [])))))))))))))) ∧
      FillIovec proto crc v d =
        v ++ iovec.object (ToBE32 proto.MAGIC_V2) :: fields ++
          [iovec.object (ToBE32 (crc.checksum
            (((v ++ iovec.object (ToBE32 proto.MAGIC_V2) :: fields).drop 1).foldl
              (fun state i => crc.process_bytes state (i.bytes proto)) crc.reset)))] := by
  refine ⟨_, rfl, ?_⟩
  unfold FillIovec
  simp -zeta only [ite_push, dite_push]
  simp only [List.append_assoc, List.cons_append, List.nil_append, List.singleton_append]

theorem attributes_append (v w : List iovec) :
    attributes (v ++ w) = attributes v ++ attributes w := by
  simp [attributes, List.filterMap_append]

theorem attributes_ite (c : Prop) [Decidable c] (v : List iovec) :
    attributes (if c then v else []) = if c then attributes v else [] := by
  split <;> rfl

theorem attributes_dite (c : Prop) [Decidable c] (v : c → List iovec) :
    attributes (if h : c then v h else []) = if h : c then attributes (v h) else [] := by
  split <;> rfl

theorem length_ite_le (c : Prop) [Decidable c] (v : List iovec) :
    (if c then v else []).length ≤ v.length := by
  split <;> simp

theorem FillIovec_length (proto : Protocol) (crc : Crc) (v : List iovec) (d : Datagram) :
    v.length + 2 ≤ (FillIovec proto crc v d).length ∧
    (FillIovec proto crc v d).length ≤ v.length + 33 := by
  have hd : ∀ (c : Prop) [Decidable c] (s : c → List iovec) (n : Nat),
      (∀ h, (s h).length ≤ n) → (if h : c then s h else []).length ≤ n := by
    intro c _ s n hs
    split
    · exact hs _
    · simp
  have hi : ∀ (c : Prop) [Decidable c] (s : List iovec) (n : Nat),
      s.length ≤ n → (if c then s else []).length ≤ n := by
    intro c _ s n hs
    split
    · exact hs
    · simp
  obtain ⟨fields, hf, he⟩ := FillIovec_eq proto crc v d
  rw [he, hf]
  simp only [List.length_append, List.length_cons, List.length_nil]
  have h1 := hi (d.valid_timestamp = true)
    [iovec.attr .TIMESTAMP, .object (ToBE64 d.timestamp)] 2 (by simp)
  have h2 := hd (d.remote_host.isSome = true)
    (fun h => [iovec.attr .REMOTE_HOST, .string (d.remote_host.get h)]) 2 (by simp)
  have h3 := hd (d.host.isSome = true)
    (fun h => [iovec.attr .HOST, .string (d.host.get h)]) 2 (by simp)
  have h4 := hd (d.site.isSome = true)
    (fun h => [iovec.attr .SITE, .string (d.site.get h)]) 2 (by simp)
  have h5 := hd (d.forwarded_to.isSome = true)
    (fun h => [iovec.attr .FORWARDED_TO, .string (d.forwarded_to.get h)]) 2 (by simp)
  have h6 := hi (d.valid_http_method = true)
    [iovec.attr .HTTP_METHOD, .object [d.http_method % 256]] 2 (by simp)
  have h7 := hd (d.http_uri.isSome = true)
    (fun h => [iovec.attr .HTTP_URI, .string (d.http_uri.get h)]) 2 (by simp)
  have h8 := hd (d.http_referer.isSome = true)
    (fun h => [iovec.attr .HTTP_REFERER, .string (d.http_referer.get h)]) 2 (by simp)
  have h9 := hd (d.user_agent.isSome = true)
    (fun h => [iovec.attr .USER_AGENT, .string (d.user_agent.get h)]) 2 (by simp)
  have h10 := hd (d.message.isSome = true)
    (fun h => [iovec.attr .MESSAGE, .buffer (d.message.get h), .object [0]]) 3 (by simp)
  have h11 := hi (d.valid_http_status = true)
    [iovec.attr .HTTP_STATUS, .object (ToBE16 d.http_status)] 2 (by simp)
  have h12 := hi (d.valid_length = true)
    [iovec.attr .LENGTH, .object (ToBE64 d.length)] 2 (by simp)
  have h13 := hi (d.valid_traffic = true)
    [iovec.attr .LENGTH, .object (ToBE64 d.traffic_received ++ ToBE64 d.traffic_sent)] 2
    (by simp)
  have h14 := hi (d.valid_duration = true)
    [iovec.attr .DURATION, .object (ToBE64 d.duration)] 2 (by simp)
  have h15 := hi (d.type ≠ proto.UNSPECIFIED)
    [iovec.attr .TYPE, .object (proto.type d.type)] 2 (by simp)
  beta_reduce at h2 h3 h4 h5 h7 h8 h9 h10
  omega

theorem within_head {α : Type} (m w : List α) :
    ∃ before after : List α, m ++ w = before ++ m ++ after :=
  ⟨[], w, rfl⟩

theorem within_append_left {α : Type} {m w : List α} (x : List α)
    (h : ∃ before after : List α, w = before ++ m ++ after) :
    ∃ before after : List α, x ++ w = before ++ m ++ after := by
  obtain ⟨before, after, rfl⟩ := h
  exact ⟨x ++ before, after, by simp⟩

theorem within_cons {α : Type} {m w : List α} (x : α)
    (h : ∃ before after : List α, w = before ++ m ++ after) :
    ∃ before after : List α, x :: w = before ++ m ++ after := by
  obtain ⟨before, after, rfl⟩ := h
  exact ⟨x :: before, after, by simp⟩

theorem within_append_right {α : Type} {m w : List α} (x : List α)
    (h : ∃ before after : List α, w = before ++ m ++ after) :
    ∃ before after : List α, w ++ x = before ++ m ++ after := by
  obtain ⟨before, after, rfl⟩ := h
  exact ⟨before, after ++ x, by simp⟩

/-- Claim C31: `FillIovec` does not give every field its own attribute.  For
every datagram the attribute constants of the vector are, in order, one per
field that is present, and the constant emitted for the traffic pair is
`Attribute::LENGTH`, the one of the content length; the pair (sixteen bytes)
stands right behind it.  So a datagram with only the content length and one
with only the traffic pair have the same attribute sequence, and a datagram
with both carries `LENGTH` twice. -/
theorem traffic_emitted_as_length (proto : Protocol) (crc : Crc) :
    (∀ (v : List iovec) (d : Datagram),
      attributes (FillIovec proto crc v d) = attributes v ++
        ((if d.valid_timestamp then [Attribute.TIMESTAMP] else []) ++
          ((if d.remote_host.isSome then [Attribute.REMOTE_HOST] else []) ++
          ((if d.host.isSome then [Attribute.HOST] else []) ++
          ((if d.site.isSome then [Attribute.SITE] else []) ++
          ((if d.forwarded_to.isSome then [Attribute.FORWARDED_TO] else []) ++
          ((if d.valid_http_method then [Attribute.HTTP_METHOD] else []) ++
          ((if d.http_uri.isSome then [Attribute.HTTP_URI] else []) ++
          ((if d.http_referer.isSome then [Attribute.HTTP_REFERER] else []) ++
          ((if d.user_agent.isSome then [Attribute.USER_AGENT] else []) ++
          ((if d.message.isSome then [Attribute.MESSAGE] else []) ++
          ((if d.valid_http_status then [Attribute.HTTP_STATUS] else []) ++
          ((if d.valid_length then [Attribute.LENGTH] else []) ++
          ((if d.valid_traffic then [Attribute.LENGTH] else []) ++
          ((if d.valid_duration then [Attribute.DURATION] else []) ++
          (if d.type ≠ proto.UNSPECIFIED then [Attribute.TYPE] else [])))))))))))))))) ∧
    (∀ d : Datagram, ∃ before after : List iovec,
      FillIovec proto crc [] { d with valid_traffic := true } =
        before ++ [iovec.attr .LENGTH,
          .object (ToBE64 d.traffic_received ++ ToBE64 d.traffic_sent)] ++ after) ∧
    attributes (FillIovec sampleProtocol sampleCrc [] lengthDatagram) = [.LENGTH] ∧
    attributes (FillIovec sampleProtocol sampleCrc [] trafficDatagram) = [.LENGTH] ∧
    lengthDatagram.valid_traffic ≠ trafficDatagram.valid_traffic ∧
    lengthDatagram.valid_length ≠ trafficDatagram.valid_length ∧
    attributes (FillIovec sampleProtocol sampleCrc []
      { lengthDatagram with valid_traffic := true, traffic_received := 7, traffic_sent := 9 })
      = [.LENGTH, .LENGTH] := by
  refine ⟨fun v d => ?_, fun d => ?_, by decide, by decide, by decide, by decide, by decide⟩
  · obtain ⟨fields, hf, he⟩ := FillIovec_eq proto crc v d
    have hmagic : ∀ (x : List Nat) (w : List iovec),
        attributes (iovec.object x :: w) = attributes w := fun _ _ => rfl
    have ho : ∀ (a : Attribute) (x : List Nat),
        attributes [iovec.attr a, iovec.object x] = [a] := fun _ _ => rfl
    have hs : ∀ (a : Attribute) (x : List Nat),
        attributes [iovec.attr a, iovec.string x] = [a] := fun _ _ => rfl
    have hm : ∀ (a : Attribute) (x y : List Nat),
        attributes [iovec.attr a, iovec.buffer x, iovec.object y] = [a] := fun _ _ _ => rfl
    have hnil : attributes [] = [] := rfl
    rw [he, attributes_append, attributes_append, hmagic, hmagic, hnil, List.append_nil, hf]
    simp only [attributes_append, attributes_ite, attributes_dite, ho, hs, hm, dite_eq_ite]
  · obtain ⟨fields, hf, he⟩ := FillIovec_eq proto crc [] { d with valid_traffic := true }
    rw [he, hf]
    simp only [if_true, List.nil_append]
    apply within_append_right _
    apply within_cons _
    iterate 12 apply within_append_left _
    exact within_head _ _

/-- Claim C32: `FillIovec` appends the magic, at most 31 entries for the fields
and the checksum: between 2 and 33 entries, both attained.  In `Send`, where
the array is empty before, the first entry is the magic and the last one the
checksum over every entry between them, and the array of capacity 64 holds
them all. -/
theorem FillIovec_entry_count (proto : Protocol) (crc : Crc) (d : Datagram) :
    (∃ fields : List iovec,
      FillIovec proto crc [] d =
        iovec.object (ToBE32 proto.MAGIC_V2) :: fields ++
          [iovec.object (ToBE32 (crc.checksum
            (fields.foldl (fun state i => crc.process_bytes state (i.bytes proto)) crc.reset)))] ∧
      fields.length ≤ 31) ∧
    (∀ v : List iovec,
      v.length + 2 ≤ (FillIovec proto crc v d).length ∧
      (FillIovec proto crc v d).length ≤ v.length + 33 ∧
      (FillIovec proto crc v d).take v.length = v) ∧
    2 ≤ (FillIovec proto crc [] d).length ∧
    (FillIovec proto crc [] d).length ≤ 33 ∧
    (FillIovec proto crc [] d).length ≤ Send.max ∧
    (∀ sendmsg : List iovec → Int,
      Send proto crc sendmsg d =
        if sendmsg (FillIovec proto crc [] d) < 0 then .error () else .ok ()) ∧
    (FillIovec sampleProtocol sampleCrc [] emptyDatagram).length = 2 ∧
    (FillIovec sampleProtocol sampleCrc [] fullDatagram).length = 33 := by
  have hlen := FillIovec_length proto crc [] d
  simp only [List.length_nil, Nat.zero_add] at hlen
  refine ⟨?_, fun v => ?_, hlen.1, hlen.2, ?_, fun _ => rfl, by decide, by decide⟩
  · obtain ⟨fields, hf, he⟩ := FillIovec_eq proto crc [] d
    refine ⟨fields, ?_, ?_⟩
    · rw [he]
      simp
    · have h := hlen.2
      rw [he] at h
      simp only [List.nil_append, List.length_append, List.length_cons, List.length_nil] at h
      omega
  · obtain ⟨fields, hf, he⟩ := FillIovec_eq proto crc v d
    refine ⟨(FillIovec_length proto crc v d).1, (FillIovec_length proto crc v d).2, ?_⟩
    rw [he, List.append_assoc, List.take_left]
  · have h := hlen.2
    simp only [Send.max]
    omega

end Net.Log
